import Mathlib

/-!
# Element: LV2 module hosting (src/lv2/module.cpp) and node port builders (src/nodes)

A shallow embedding of `LV2Module` and the helpers it drives: the two event ring
buffers, the port buffers, the drain loop of `run`, `write`, state save and restore
through `getPortValue` and `setPortValue`, the instance lifecycle (`instantiate`,
`freeInstance`, ...), and the construction of the port list and the channel config by
`init`; and of the inline members of `AudioRouterNode` (audiorouter.hpp), of
`AudioProcessorNode::refreshPorts` and of the listener callbacks of
`AudioProcessorNodeParameter` (audioprocessornode.cpp).

Conventions
* Bytes are natural numbers below 256, 32-bit words are little-endian.
* A `float` is represented by its IEEE-754 binary32 bit pattern; `floatNe` is the
  C++ operator `!=` on such patterns (a NaN differs from everything, the two zeros
  are equal).
* A `double` is represented by its IEEE-754 binary64 bit pattern; `doubleLt` is the C++
  operator `<` on such patterns (false when either side is a NaN).
* Loops that the source writes as `for (;;)` are iterated with an explicit bound on
  the number of iterations, and report when the bound is exhausted.
-/

namespace Element

/-! ## Bytes, words and floats -/

/-- Little-endian encoding of a 32-bit word as four bytes. -/
def le32 (n : Nat) : List Nat :=
  [n % 256, n / 256 % 256, n / 65536 % 256, n / 16777216 % 256]

/-- Little-endian decoding of the first four bytes of a byte list (missing bytes read as 0). -/
def ofLe32 (bs : List Nat) : Nat :=
  bs.getD 0 0 + 256 * bs.getD 1 0 + 65536 * bs.getD 2 0 + 16777216 * bs.getD 3 0

/-- IEEE-754 binary32: the pattern is a NaN (exponent all ones, mantissa non-zero). -/
def floatIsNaN (x : Nat) : Bool :=
  (x / 8388608 % 256 == 255) && (x % 8388608 != 0)

/-- IEEE-754 binary32: the pattern is +0.0 or -0.0. -/
def floatIsZero (x : Nat) : Bool :=
  x % 2147483648 == 0

/-- The C++ `a == b` on two floats given by their bit patterns. -/
def floatEq (a b : Nat) : Bool :=
  !floatIsNaN a && !floatIsNaN b && (a == b || (floatIsZero a && floatIsZero b))

/-- The C++ `a != b` on two floats given by their bit patterns. -/
def floatNe (a b : Nat) : Bool :=
  !floatEq a b

/-- The C++ `a == b` on two doubles given by their IEEE-754 binary64 bit patterns. -/
def doubleEq (a b : Nat) : Bool :=
  let isNaN := fun x : Nat => (x / 4503599627370496 % 2048 == 2047) && (x % 4503599627370496 != 0)
  let isZero := fun x : Nat => x % 9223372036854775808 == 0
  !isNaN a && !isNaN b && (a == b || (isZero a && isZero b))

/-! ## Port metadata -/

/-- Port types, in the order of `PortType::ID`. -/
inductive PortType where
  | Control | Audio | CV | Atom | Event | Midi | Video | Unknown
  deriving DecidableEq, Repr

/-- Modelled from the spec: `PortDescription` (declared in a header that is not part of
the sources at hand), the Port Descriptor of the data model. -/
structure PortDescription where
  type : PortType
  index : Nat
  channel : Nat
  symbol : String
  name : String
  input : Bool
  deriving DecidableEq, Repr

/-- Modelled from the spec: `PortBuffer` (engine/portbuffer.hpp is not part of the sources
at hand). One per port: a scalar `value` for Control/CV, and a sequence content for
Atom/Event that `reset` clears. -/
structure PortBuffer where
  input : Bool
  type : PortType
  dataType : Nat
  capacity : Nat
  value : Nat
  sequence : List Nat
  deriving DecidableEq, Repr

namespace PortBuffer

/-- Source `PortBuffer::getValue`. -/
def getValue (b : PortBuffer) : Nat := b.value

/-- Source `PortBuffer::setValue`. -/
def setValue (b : PortBuffer) (v : Nat) : PortBuffer := { b with value := v }

/-- Source `PortBuffer::isInput`. -/
def isInput (b : PortBuffer) : Bool := b.input

/-- Source `PortBuffer::isSequence`: the buffer backs an Atom or Event port. -/
def isSequence (b : PortBuffer) : Bool :=
  b.type == PortType.Atom || b.type == PortType.Event

/-- Source `PortBuffer::reset`: clear the sequence content. -/
def reset (b : PortBuffer) : PortBuffer := { b with sequence := [] }

end PortBuffer

/-! ## Event ring buffer -/

/-- Modelled from the spec: `PortEvent`, the header `{portIndex, byteSize, protocolTag}`
that precedes each payload in a ring buffer (declared in a header that is not part of
the sources at hand). -/
structure PortEvent where
  index : Nat
  size : Nat
  protocol : Nat
  deriving DecidableEq, Repr

/-- Modelled from the spec: `sizeof (PortEvent)`, three 32-bit fields. -/
def pesize : Nat := 12

namespace PortEvent

/-- The bytes of a header as they are copied into a ring buffer. -/
def encode (e : PortEvent) : List Nat :=
  le32 e.index ++ le32 e.size ++ le32 e.protocol

/-- The header read back from the first `pesize` bytes of a byte list. -/
def decode (bs : List Nat) : PortEvent :=
  { index := ofLe32 (bs.take 4)
    size := ofLe32 ((bs.drop 4).take 4)
    protocol := ofLe32 ((bs.drop 8).take 4) }

end PortEvent

/-- Modelled from the spec: `RingBuffer`, the fixed-capacity single-producer /
single-consumer byte queue of section 4.2 (its class is not part of the sources at
hand). `bytes` is the readable content, oldest byte first. -/
structure RingBuffer where
  capacity : Nat
  bytes : List Nat
  deriving DecidableEq, Repr

namespace RingBuffer

/-- Source `RingBuffer::canRead (n)`: at least `n` bytes are readable. -/
def canRead (rb : RingBuffer) (n : Nat) : Bool := decide (n ≤ rb.bytes.length)

/-- Source `RingBuffer::canWrite (n)`: at least `n` bytes are free. -/
def canWrite (rb : RingBuffer) (n : Nat) : Bool :=
  decide (rb.bytes.length + n ≤ rb.capacity)

/-- Source `RingBuffer::read (dest, n, false)`: copy the first `n` readable bytes, do not consume. -/
def peek (rb : RingBuffer) (n : Nat) : List Nat := rb.bytes.take n

/-- Source `RingBuffer::advance (n, false)`: consume `n` readable bytes. -/
def advance (rb : RingBuffer) (n : Nat) : RingBuffer :=
  { rb with bytes := rb.bytes.drop n }

/-- Source `RingBuffer::write (src, n)`: append the bytes when they fit; a write that does not
fit is rejected outright. -/
def write (rb : RingBuffer) (src : List Nat) : RingBuffer :=
  if rb.canWrite src.length then { rb with bytes := rb.bytes ++ src } else rb

end RingBuffer

/-- The effect of `RingBuffer::read (evbuf, n, true)` on the scratch block `evbuf`: its
first bytes are overwritten with the payload, the rest of the block stays as it was. The
block is allocated with at least the capacity of the ring buffer (`init`), so a payload
always fits. -/
def overwriteFront (block payload : List Nat) : List Nat :=
  payload ++ block.drop payload.length

/-! ## The native plugin, seen from the host -/

/-- Entries of the null-terminated feature array handed to the native instantiate. -/
inductive Feature where
  | host (id : Nat)
  | worker
  | terminator
  deriving DecidableEq, Repr

/-- Modelled from the spec: `WorkerFeature`, the Worker Bridge (lv2/workerfeature.hpp is
not part of the sources at hand). Only what `instantiate` sets is recorded. -/
structure WorkerFeature where
  bufferSize : Nat
  iface : Option Nat
  deriving DecidableEq, Repr

/-- One port value of a saved state, as `lilv_state_restore` hands it to the
`set_value` callback: symbol, value bytes, size and type URID. -/
structure PortValue where
  symbol : String
  value : List Nat
  size : Nat
  type : Nat
  deriving DecidableEq, Repr

/-- The host side of the LV2 world that `LV2Module` consults. -/
structure World where
  /-- Result of `world.getFeatures (features)`. -/
  hostFeatures : List Feature
  /-- Node `world.work_interface`. -/
  work_interface : Nat
  /-- URID `map (LV2_ATOM__Float)`. -/
  atomFloat : Nat
  /-- Result of `lilv_state_new_from_string`: the port values of a parsed state, if any. -/
  parseState : String → Option (List PortValue)
  /-- URID `map (LV2_ATOM__Sequence)`. -/
  atomSequence : Nat := 2
  /-- URID `map (LV2_MIDI__MidiEvent)`. -/
  midiEvent : Nat := 3
  /-- URID `map (LV2_EVENT__Event)`. -/
  eventEvent : Nat := 4
  /-- Result of `lilv_state_to_string` for a state with the given port values. -/
  stateToString : List PortValue → String := fun _ => ""

/-- One port of a plugin as the metadata provider describes it: the port classes that
`lilv_port_is_a` answers, name and symbol, and the range that
`lilv_plugin_get_port_ranges_float` reports (floats as bit patterns). -/
structure LilvPort where
  isAudio : Bool
  isAtom : Bool
  isControl : Bool
  isCV : Bool
  isEvent : Bool
  isInput : Bool
  name : String
  symbol : String
  minValue : Nat
  maxValue : Nat
  defaultValue : Nat
  deriving DecidableEq, Repr

/-- The metadata/runtime provider of one plugin, a black box to the host. -/
structure Plugin where
  /-- Nodes of `lilv_plugin_get_extension_data (plugin)`. -/
  extensionData : List Nat
  /-- Result of `lilv_plugin_instantiate`: the answer to the k-th call (k counts the
  earlier calls) for a sample rate and a feature array; `none` is the null handle. -/
  nativeInstantiate : Nat → Nat → List Feature → Option Nat
  /-- Whether `lilv_instance_get_extension_data (instance, LV2_WORKER__interface)` is
  non-null for the instance with this handle. -/
  workerInterfaceData : Nat → Bool
  /-- Result of `lilv_state_new_from_world` for the plugin URI: its port values, if any. -/
  defaultState : Option (List PortValue)
  /-- Effect of `lilv_instance_run (instance, nframes)` on the connected port buffers. -/
  process : Nat → Nat → List PortBuffer → List PortBuffer
  /-- The ports of the plugin in index order: `lilv_plugin_get_num_ports` is the length,
  `lilv_plugin_get_port_by_index (plugin, p)` the entry at `p`. -/
  ports : List LilvPort := []

/-- Calls that leave the module, in program order. -/
inductive Call where
  | nativeInstantiate (rate : Nat) (features : List Feature)
  | nativeActivate (handle : Nat)
  | nativeDeactivate (handle : Nat)
  | nativeFree (handle : Nat)
  | resetBuffer (port : Nat)
  | connectPort (handle : Nat) (port : Nat) (data : Nat)
  | nativeRun (handle : Nat) (nframes : Nat)
  | processWorkResponses
  | endRun
  | startTimerHz (hz : Nat)
  | stopTimer
  | uiPortEvent (index size protocol : Nat) (data : List Nat)
  | onPortNotify (index size protocol : Nat) (data : List Nat)
  deriving DecidableEq, Repr

/-! ## Port list and channel config -/

/-- Modelled from the spec: `PortList::size (type, isInput)`, the count of descriptors that
match both (the class `PortList` is not part of the sources at hand). -/
def portListSize (ports : List PortDescription) (type : PortType) (isInput : Bool) : Nat :=
  (ports.filter (fun d => d.type == type && d.input == isInput)).length

/-- Modelled from the spec: `PortList::add (type, index, channel, symbol, name, isInput)`
appends a descriptor. -/
def portListAdd (ports : List PortDescription) (type : PortType) (index channel : Nat)
    (symbol name : String) (isInput : Bool) : List PortDescription :=
  ports ++ [{ type := type, index := index, channel := channel, symbol := symbol,
              name := name, input := isInput }]

/-- Modelled from the spec: `ChannelConfig`, the mapping from (type, channel, direction) to
a port index (its class is not part of the sources at hand). For each direction it keeps
the (type, port index) pairs in the order in which they were added; the list for a type
and direction is the sublist of that type. -/
structure ChannelConfig where
  inputs : List (PortType × Nat) := []
  outputs : List (PortType × Nat) := []
  deriving DecidableEq, Repr

namespace ChannelConfig

/-- The port indices of a type and direction, in channel order. -/
def channelPorts (c : ChannelConfig) (type : PortType) (isInput : Bool) : List Nat :=
  ((if isInput then c.inputs else c.outputs).filter (fun e => e.1 == type)).map
    (fun e => e.2)

/-- Modelled from the spec: `ChannelConfig::addPort (type, port, isInput)` appends the port
index to the list for that type and direction. -/
def addPort (c : ChannelConfig) (type : PortType) (port : Nat) (isInput : Bool) :
    ChannelConfig :=
  if isInput then { c with inputs := c.inputs ++ [(type, port)] }
  else { c with outputs := c.outputs ++ [(type, port)] }

/-- Modelled from the spec: `ChannelConfig::getPort (type, channel, isInput)`, the port
index of a channel; `none` when the channel does not exist. -/
def getPort (c : ChannelConfig) (type : PortType) (channel : Nat) (isInput : Bool) :
    Option Nat :=
  (c.channelPorts type isInput)[channel]?

/-- Modelled from the spec: the channel count of a type and direction
(`getNumAudioInputs` and its siblings). -/
def getNumChannels (c : ChannelConfig) (type : PortType) (isInput : Bool) : Nat :=
  (c.channelPorts type isInput).length

end ChannelConfig

/-! ## The module -/

/-- State of an `LV2Module` together with its `Private` part. `inst` is the member
`instance` (`none` is the null pointer), `calls` logs the calls that leave the module. -/
structure LV2Module where
  ports : List PortDescription
  buffers : List PortBuffer
  events : RingBuffer
  notifications : RingBuffer
  evbuf : List Nat
  ntbuf : List Nat
  inst : Option Nat
  active : Bool
  worker : Option WorkerFeature
  currentSampleRate : Nat
  features : List Feature
  instantiations : Nat
  hasUI : Bool
  hasOnPortNotify : Bool
  calls : List Call
  channels : ChannelConfig := {}
  numPorts : Nat := 0
  mins : List Nat := []
  maxes : List Nat := []
  defaults : List Nat := []
  deriving DecidableEq, Repr

/-- Result of one pass through the body of a `for (;;)` loop. -/
inductive Step where
  | stop
  | next (m : LV2Module)
  | fault
  deriving DecidableEq, Repr

/-- Result of running a loop with a bound on the number of passes: it left the loop in
state `m`, it accessed memory out of range (undefined behaviour), or the bound was
reached in state `m` before the loop was left. -/
inductive Outcome where
  | done (m : LV2Module)
  | fault
  | outOfFuel (m : LV2Module)
  deriving DecidableEq, Repr

/-- Result of `LV2Module::instantiate`. -/
inductive Result where
  | ok
  | fail (message : String)
  deriving DecidableEq, Repr

/-- Source `Result::failed`. -/
def Result.failed : Result → Bool
  | Result.ok => false
  | Result.fail _ => true

namespace LV2Module

/-- Source `LV2Module::isLoaded`. -/
def isLoaded (m : LV2Module) : Bool := m.inst.isSome

/-- Source `LV2Module::isActive`. -/
def isActive (m : LV2Module) : Bool := m.inst.isSome && m.active

/-- Source `LV2Module::write`. -/
def write (m : LV2Module) (port size protocol : Nat) (buffer : List Nat) : LV2Module :=
  let event : PortEvent := { index := port, size := size, protocol := protocol }
  if m.events.canWrite (pesize + size) then
    { m with events := (m.events.write event.encode).write (buffer.take event.size) }
  else
    m

/-- One pass through the drain loop at the start of `LV2Module::run`
(module.cpp lines 872-899). `priv->buffers.getUnchecked` does not check its index: an
index outside the array is a fault. The sum `pesize + ev.size` is a `uint32` sum. -/
def drainStep (m : LV2Module) : Step :=
  if !m.events.canRead pesize then Step.stop
  else
    let header := m.events.peek pesize
    let ev := PortEvent.decode header
    if decide (0 < ev.size) && m.events.canRead ((pesize + ev.size) % 4294967296) then
      let events1 := m.events.advance pesize
      let payload := events1.peek ev.size
      let events2 := events1.advance ev.size
      let evbuf := overwriteFront m.evbuf payload
      let m1 := { m with events := events2, evbuf := evbuf }
      if ev.protocol == 0 then
        match m1.buffers[ev.index]? with
        | none => Step.fault
        | some buffer =>
          let value := ofLe32 (evbuf.take 4)
          if floatNe buffer.getValue value then
            let m2 := { m1 with buffers := m1.buffers.set ev.index (buffer.setValue value) }
            if m2.notifications.canWrite ((pesize + ev.size) % 4294967296) then
              Step.next { m2 with
                notifications := (m2.notifications.write header).write (evbuf.take ev.size) }
            else Step.next m2
          else Step.next m1
      else Step.next m1
    else Step.next m

/-- The drain loop of `LV2Module::run`, at most `fuel` passes. -/
def drainLoop : Nat → LV2Module → Outcome
  | 0, m => Outcome.outOfFuel m
  | fuel + 1, m =>
    match drainStep m with
    | Step.stop => Outcome.done m
    | Step.next m1 => drainLoop fuel m1
    | Step.fault => Outcome.fault

/-- The calls of one pass through the loop of module.cpp lines 901-907 for the buffer at
index `i`: `reset` when the buffer is an output sequence buffer, then `connectPort` of
port `i` to the data of that very buffer. -/
def portCalls (h : Nat) (buffers : List PortBuffer) (i : Nat) : List Call :=
  match buffers[i]? with
  | some b =>
    (if b.isSequence && !b.isInput then [Call.resetBuffer i] else [])
      ++ [Call.connectPort h i i]
  | none => []

/-- The part of `LV2Module::run` after the drain loop (module.cpp lines 901-915): reset
the output sequence buffers and connect every port, from the last index down to 0, let
the worker apply its responses, run the native instance, end the worker run. The native
calls dereference `instance`: a null instance is a fault. -/
def runBlock (plugin : Plugin) (nframes : Nat) (m : LV2Module) : Outcome :=
  match m.inst with
  | none => Outcome.fault
  | some h =>
    let buffers1 := m.buffers.map
      (fun b => if b.isSequence && !b.isInput then b.reset else b)
    let connects :=
      (((List.range m.buffers.length).reverse).map (portCalls h m.buffers)).flatten
    let before := if m.worker.isSome then [Call.processWorkResponses] else []
    let after := if m.worker.isSome then [Call.endRun] else []
    Outcome.done { m with
      buffers := plugin.process h nframes buffers1
      calls := m.calls ++ connects ++ before ++ [Call.nativeRun h nframes] ++ after }

/-- Source `LV2Module::run`, with at most `fuel` passes through its drain loop. -/
def run (plugin : Plugin) (fuel nframes : Nat) (m : LV2Module) : Outcome :=
  match drainLoop fuel m with
  | Outcome.done m1 => runBlock plugin nframes m1
  | Outcome.fault => Outcome.fault
  | Outcome.outOfFuel m1 => Outcome.outOfFuel m1

/-- The scan of `Private::getPortValue` and `Private::setPortValue` for the first
Control port with the given symbol; `none` stands for `portIdx == -1`. -/
def findControlPort (ports : List PortDescription) (symbol : String) : Option Nat :=
  (ports.find? (fun p => p.symbol == symbol && p.type == PortType.Control)).map
    (fun p => p.index)

/-- Source `LV2Module::Private::setPortValue`, the `set_value` callback of state restore.
The operator `buffers[portIdx]` is bounds-checked and yields null outside the array. -/
def setPortValue (world : World) (m : LV2Module) (pv : PortValue) : LV2Module :=
  if pv.type != world.atomFloat then m
  else
    match findControlPort m.ports pv.symbol with
    | none => m
    | some portIdx =>
      match m.buffers[portIdx]? with
      | none => m
      | some buffer =>
        { m with buffers := m.buffers.set portIdx (buffer.setValue (ofLe32 (pv.value.take 4))) }

/-- The effect of `lilv_state_restore (state, instance, Private::setPortValue, ...)` on
the module: the callback is applied to every port value of the state, in order. -/
def restoreState (world : World) (m : LV2Module) (state : List PortValue) : LV2Module :=
  state.foldl (setPortValue world) m

/-- The calls `Private::sendControlValues` makes for one port. `init` creates one buffer
per port, so `getUnchecked (port->index)` is in range; the value of a missing buffer is
read as 0 here. -/
def controlValueCalls (m : LV2Module) (port : PortDescription) : List Call :=
  if port.type != PortType.Control then []
  else
    let data := le32 ((m.buffers[port.index]?).map PortBuffer.getValue |>.getD 0)
    (if m.hasUI then [Call.uiPortEvent port.index 4 0 data] else [])
      ++ (if m.hasOnPortNotify then [Call.onPortNotify port.index 4 0 data] else [])

/-- Source `LV2Module::Private::sendControlValues`. -/
def sendControlValues (m : LV2Module) : LV2Module :=
  if !m.hasUI && !m.hasOnPortNotify then m
  else { m with calls := m.calls ++ (m.ports.map (controlValueCalls m)).flatten }

/-- Source `LV2Module::loadDefaultState`. -/
def loadDefaultState (world : World) (plugin : Plugin) (m : LV2Module) : LV2Module :=
  match m.inst with
  | none => m
  | some _ =>
    match plugin.defaultState with
    | none => m
    | some state => sendControlValues (restoreState world m state)

/-- Source `LV2Module::activate`. -/
def activate (m : LV2Module) : LV2Module :=
  match m.inst with
  | some h =>
    if !m.active then { m with calls := m.calls ++ [Call.nativeActivate h], active := true }
    else m
  | none => m

/-- Source `LV2Module::deactivate`. -/
def deactivate (m : LV2Module) : LV2Module :=
  match m.inst with
  | some h =>
    if m.active then { m with calls := m.calls ++ [Call.nativeDeactivate h], active := false }
    else m
  | none => m

/-- Source `LV2Module::freeInstance`. -/
def freeInstance (m : LV2Module) : LV2Module :=
  let m1 := { m with calls := m.calls ++ [Call.stopTimer] }
  match m1.inst with
  | some oldInstance =>
    let m2 := deactivate m1
    { m2 with worker := none, inst := none, calls := m2.calls ++ [Call.nativeFree oldInstance] }
  | none => m1

/-- The body of the `LILV_FOREACH` loop of `instantiate` for one extension-data node: a
node equal to `world.work_interface` attaches a fresh Worker Bridge and adds its feature. -/
def attachWorker (world : World) (m : LV2Module) (node : Nat) : LV2Module :=
  if node == world.work_interface then
    { m with worker := some { bufferSize := 1, iface := none },
             features := m.features ++ [Feature.worker] }
  else m

/-- Source `LV2Module::instantiate`. -/
def instantiate (world : World) (plugin : Plugin) (samplerate : Nat) (m : LV2Module) :
    Result × LV2Module :=
  let m1 := freeInstance m
  let m2 := { m1 with currentSampleRate := samplerate, features := world.hostFeatures }
  let m3 := plugin.extensionData.foldl (attachWorker world) m2
  let m4 := { m3 with features := m3.features ++ [Feature.terminator] }
  let m5 := { m4 with
    inst := plugin.nativeInstantiate m4.instantiations samplerate m4.features
    instantiations := m4.instantiations + 1
    calls := m4.calls ++ [Call.nativeInstantiate samplerate m4.features] }
  match m5.inst with
  | none =>
    (Result.fail "Could not instantiate plugin.", { m5 with features := [], worker := none })
  | some h =>
    if plugin.workerInterfaceData h then
      match m5.worker with
      | none => (Result.fail "Could not get worker feature whereas extension data exists.", m5)
      | some _ =>
        let m6 := { m5 with worker := some { bufferSize := 2048, iface := some h } }
        let m7 := loadDefaultState world plugin m6
        (Result.ok, { m7 with calls := m7.calls ++ [Call.startTimerHz 60] })
    else
      let m6 :=
        match m5.worker with
        | some _ => { m5 with features := m5.features.erase Feature.worker, worker := none }
        | none => m5
      let m7 := loadDefaultState world plugin m6
      (Result.ok, { m7 with calls := m7.calls ++ [Call.startTimerHz 60] })

/-- Source `LV2Module::setSampleRate`; sample rates are doubles, given by their bit
patterns. -/
def setSampleRate (world : World) (plugin : Plugin) (newSampleRate : Nat) (m : LV2Module) :
    LV2Module :=
  if doubleEq newSampleRate m.currentSampleRate then m
  else
    match m.inst with
    | some _ =>
      let wasActive := m.isActive
      let m1 := (instantiate world plugin newSampleRate (freeInstance m)).2
      if wasActive then activate m1 else m1
    | none => m

/-- One pass through the loop of `LV2Module::timerCallback` (module.cpp lines 819-838). -/
def timerStep (m : LV2Module) : Step :=
  if !m.notifications.canRead pesize then Step.stop
  else
    let ev := PortEvent.decode (m.notifications.peek pesize)
    if decide (0 < ev.size) && m.notifications.canRead ((pesize + ev.size) % 4294967296) then
      let notifications1 := m.notifications.advance pesize
      let ntbuf := overwriteFront m.ntbuf (notifications1.peek ev.size)
      let m1 := { m with notifications := notifications1.advance ev.size, ntbuf := ntbuf }
      if ev.protocol == 0 then
        let data := ntbuf.take ev.size
        Step.next { m1 with calls := m1.calls
          ++ (if m1.hasUI then [Call.uiPortEvent ev.index ev.size ev.protocol data] else [])
          ++ (if m1.hasOnPortNotify then [Call.onPortNotify ev.index ev.size ev.protocol data]
              else []) }
      else Step.next m1
    else Step.next m

/-- Source `LV2Module::timerCallback`, at most `fuel` passes through its loop. -/
def timerCallback : Nat → LV2Module → Outcome
  | 0, m => Outcome.outOfFuel m
  | fuel + 1, m =>
    match timerStep m with
    | Step.stop => Outcome.done m
    | Step.next m1 => timerCallback fuel m1
    | Step.fault => Outcome.fault

end LV2Module

/-! ## Events as they lie in a queue -/

/-- The bytes of a queue that holds the given events, oldest first: each header is
immediately followed by its payload. -/
def frame (evs : List (PortEvent × List Nat)) : List Nat :=
  (evs.map (fun e => e.1.encode ++ e.2)).flatten

/-- An event is complete: its header fields are 32-bit values and its payload has exactly
the size the header announces. -/
def Complete (e : PortEvent × List Nat) : Prop :=
  e.1.index < 4294967296 ∧ e.1.size < 4294967296 ∧ e.1.protocol < 4294967296
    ∧ e.2.length = e.1.size

/-- A queue content is framed: it is a sequence of complete events and nothing else. -/
def Framed (bytes : List Nat) : Prop :=
  ∃ evs : List (PortEvent × List Nat), bytes = frame evs ∧ ∀ e ∈ evs, Complete e

/-- An operation on the inbound queue: a call of `write`, or one pass of the drain loop
of `run`. -/
inductive InboundOp where
  | write (port size protocol : Nat) (buffer : List Nat)
  | drainPass

/-- The arguments of a `write` call are `uint32` values and `buffer` points to at least
`size` bytes. -/
def InboundOp.Valid : InboundOp → Prop
  | InboundOp.write port size protocol buffer =>
    port < 4294967296 ∧ size < 4294967296 ∧ protocol < 4294967296 ∧ size ≤ buffer.length
  | InboundOp.drainPass => True

/-- The module after an operation on the inbound queue; a drain pass that leaves the loop
or faults leaves the module as it is. -/
def InboundOp.apply (m : LV2Module) : InboundOp → LV2Module
  | InboundOp.write port size protocol buffer => m.write port size protocol buffer
  | InboundOp.drainPass =>
    match m.drainStep with
    | Step.next m1 => m1
    | _ => m

/-- The float that `run` reads at the start of `evbuf` once the payload of an event has
been copied there: `*((float*) evbuf.getData())`. -/
def eventValue (evbuf payload : List Nat) : Nat :=
  ofLe32 ((overwriteFront evbuf payload).take 4)

/-- An event that the drain loop of a module with `n` port buffers is written for: it is
complete, its payload is not empty, and when it is a protocol-0 event its port index is
the index of a port buffer. -/
def Drainable (n : Nat) (e : PortEvent × List Nat) : Prop :=
  Complete e ∧ 0 < e.1.size ∧ (e.1.protocol = 0 → e.1.index < n)

/-- The event is a protocol-0 event for port `q`. -/
def Targets (q : Nat) (e : PortEvent × List Nat) : Prop :=
  e.1.protocol = 0 ∧ e.1.index = q

/-- A port buffer scalar with bit pattern `b` holds the float `v`: it compares equal to `v`
under the C++ `==`, and when `v` is a NaN (which compares equal to nothing) it is the very
same bit pattern. -/
def HoldsFloat (b v : Nat) : Prop :=
  if floatIsNaN v then b = v else floatEq b v = true

/-- The native process call of the instance `h` does not itself modify the scalar of
port `q`. -/
def ProcessKeeps (plugin : Plugin) (h nframes q : Nat) : Prop :=
  ∀ buffers : List PortBuffer,
    ((plugin.process h nframes buffers)[q]?).map PortBuffer.getValue
      = (buffers[q]?).map PortBuffer.getValue

/-- The state in which a bounded loop ended, when it did not fault. -/
def Outcome.state? : Outcome → Option LV2Module
  | Outcome.done m => some m
  | Outcome.outOfFuel m => some m
  | Outcome.fault => none

/-- The feature array that `instantiate` hands to the native instantiate call: the host
features, one worker feature for every extension-data node equal to
`world.work_interface`, and the terminating null. -/
def featureArray (world : World) (plugin : Plugin) : List Feature :=
  world.hostFeatures
    ++ (plugin.extensionData.filter (fun node => node == world.work_interface)).map
        (fun _ => Feature.worker)
    ++ [Feature.terminator]

/-- The call is one of the four lifecycle entry points of the native instance. -/
def Call.isLifecycle : Call → Bool
  | Call.nativeInstantiate _ _ => true
  | Call.nativeActivate _ => true
  | Call.nativeDeactivate _ => true
  | Call.nativeFree _ => true
  | _ => false

/-- The abstract lifecycle state of a module: loaded, active, current sample rate. -/
def LV2Module.lifecycle (m : LV2Module) : Bool × Bool × Nat :=
  (m.isLoaded, m.isActive, m.currentSampleRate)

/-- Two module states agree on everything but the port buffers and the log of calls. -/
def LV2Module.SameHost (m m1 : LV2Module) : Prop :=
  m1.inst = m.inst ∧ m1.active = m.active ∧ m1.worker = m.worker
    ∧ m1.currentSampleRate = m.currentSampleRate ∧ m1.ports = m.ports
    ∧ m1.events = m.events ∧ m1.notifications = m.notifications
    ∧ m1.hasUI = m.hasUI ∧ m1.hasOnPortNotify = m.hasOnPortNotify

/-- The log of `m1` extends the log of `m` by calls that are no lifecycle entry points. -/
def LV2Module.LogExtends (m m1 : LV2Module) : Prop :=
  ∃ extra : List Call, m1.calls = m.calls ++ extra ∧ ∀ c ∈ extra, c.isLifecycle = false

/-! ## Construction -/

/-- The port type that `init` derives from the port classes (module.cpp lines 223-233). -/
def portTypeOf (port : LilvPort) : PortType :=
  if port.isAudio then PortType.Audio
  else if port.isAtom then PortType.Atom
  else if port.isControl then PortType.Control
  else if port.isCV then PortType.CV
  else if port.isEvent then PortType.Event
  else PortType.Unknown

/-- The capacity and the data type that `init` gives the buffer of a port of the given type
(the switch of module.cpp lines 245-273); `eventBufferSize` is `EL_LV2_EVENT_BUFFER_SIZE`. -/
def bufferLayout (world : World) (eventBufferSize : Nat) : PortType → Nat × Nat
  | PortType.Control => (4, world.atomFloat)
  | PortType.Audio => (4, world.atomFloat)
  | PortType.Atom => (eventBufferSize, world.atomSequence)
  | PortType.Midi => (4, world.midiEvent)
  | PortType.Event => (eventBufferSize, world.eventEvent)
  | PortType.CV => (4, world.atomFloat)
  | _ => (4, 0)

namespace LV2Module

/-- One pass through the port loop of `LV2Module::init` (module.cpp lines 218-280) for the
port with index `p`. -/
def initPort (world : World) (eventBufferSize : Nat) (m : LV2Module) (p : Nat)
    (port : LilvPort) : LV2Module :=
  let type := portTypeOf port
  let isInput := port.isInput
  let layout := bufferLayout world eventBufferSize type
  let buf : PortBuffer :=
    { input := isInput, type := type, dataType := layout.2, capacity := layout.1, value := 0,
      sequence := [] }
  { m with
    ports := portListAdd m.ports type p (portListSize m.ports type isInput) port.symbol
      port.name isInput
    channels := m.channels.addPort type p isInput
    buffers := m.buffers
      ++ [if type == PortType.Control then buf.setValue (m.defaults.getD p 0) else buf] }

/-- Source `LV2Module::init`; `ringBufferSize` is `EL_LV2_RING_BUFFER_SIZE`, and the member
`evbufsize` (`ntbufsize`) is the length of `evbuf` (`ntbuf`). -/
def init (world : World) (plugin : Plugin) (ringBufferSize eventBufferSize : Nat)
    (m : LV2Module) : LV2Module :=
  let m1 := { m with
    events := { capacity := ringBufferSize, bytes := [] }
    evbuf := List.replicate (max m.evbuf.length ringBufferSize) 0
    notifications := { capacity := ringBufferSize, bytes := [] }
    ntbuf := List.replicate (max m.ntbuf.length ringBufferSize) 0
    mins := plugin.ports.map (fun port => port.minValue)
    maxes := plugin.ports.map (fun port => port.maxValue)
    defaults := plugin.ports.map (fun port => port.defaultValue) }
  (List.range m1.numPorts).foldl
    (fun acc p =>
      match plugin.ports[p]? with
      | some port => initPort world eventBufferSize acc p port
      | none => acc)
    m1

/-- The members of a module as the constructor `LV2Module::LV2Module` initialises them
before it calls `init`; 4676293871431319552 is the double 44100.0. -/
def blank (plugin : Plugin) : LV2Module :=
  { ports := [], buffers := [], events := { capacity := 0, bytes := [] },
    notifications := { capacity := 0, bytes := [] }, evbuf := [], ntbuf := [], inst := none,
    active := false, worker := none, currentSampleRate := 4676293871431319552, features := [],
    instantiations := 0, hasUI := false, hasOnPortNotify := false, calls := [],
    numPorts := plugin.ports.length }

/-- Source `LV2Module::LV2Module`, the constructor. -/
def create (world : World) (plugin : Plugin) (ringBufferSize eventBufferSize : Nat) :
    LV2Module :=
  init world plugin ringBufferSize eventBufferSize (blank plugin)

/-- The sentinel `LV2UI_INVALID_PORT_INDEX`, `(uint32_t) -1`. -/
def invalidPortIndex : Nat := 4294967295

/-- Source `LV2Module::getPortIndex`; the result is the `uint32` cast of the index. -/
def getPortIndex (m : LV2Module) (symbol : String) : Nat :=
  match m.ports.find? (fun port => port.symbol == symbol) with
  | some port => port.index % 4294967296
  | none => invalidPortIndex

/-- Modelled from the spec: `PortList::getPort (index)`, the descriptor at a position of
the list. -/
def portAt (m : LV2Module) (index : Nat) : Option PortDescription :=
  m.ports[index]?

/-- Source `LV2Module::getPortName`; an index outside the list has no name here. -/
def getPortName (m : LV2Module) (index : Nat) : Option String :=
  (m.portAt index).map (fun port => port.name)

end LV2Module

/-! ## Lifecycle operations and the protocol of the native instance -/

/-- The lifecycle operations of a module. -/
inductive LifecycleOp where
  | instantiate (rate : Nat)
  | activate
  | deactivate
  | freeInstance
  | setSampleRate (rate : Nat)
  deriving DecidableEq, Repr

/-- The module after a lifecycle operation. -/
def LifecycleOp.apply (world : World) (plugin : Plugin) (m : LV2Module) :
    LifecycleOp → LV2Module
  | LifecycleOp.instantiate rate => (m.instantiate world plugin rate).2
  | LifecycleOp.activate => m.activate
  | LifecycleOp.deactivate => m.deactivate
  | LifecycleOp.freeInstance => m.freeInstance
  | LifecycleOp.setSampleRate rate => m.setSampleRate world plugin rate

/-- What the native side knows after a sequence of lifecycle calls: how many times the
native instantiate was called, and the live instance with its activation state. -/
structure NativeState where
  instantiations : Nat
  live : Option (Nat × Bool)
  deriving DecidableEq, Repr

/-- The state machine of a native instance, `instantiate`, then alternating
`activate` / `deactivate`, then `free`, as a monitor of one call: `none` is a violation.
An instance is instantiated inactive (and only when none is live), activated only when
inactive, deactivated only when active, and freed only when inactive. Other calls are not
lifecycle calls and are skipped. -/
def nativeStep (plugin : Plugin) (s : NativeState) : Call → Option NativeState
  | Call.nativeInstantiate rate features =>
    match s.live with
    | some _ => none
    | none =>
      some { instantiations := s.instantiations + 1
             live := (plugin.nativeInstantiate s.instantiations rate features).map
               (fun h => (h, false)) }
  | Call.nativeActivate h =>
    if s.live = some (h, false) then some { s with live := some (h, true) } else none
  | Call.nativeDeactivate h =>
    if s.live = some (h, true) then some { s with live := some (h, false) } else none
  | Call.nativeFree h =>
    if s.live = some (h, false) then some { s with live := none } else none
  | _ => some s

/-- The monitor run over a log of calls. -/
def nativeMonitor (plugin : Plugin) : NativeState → List Call → Option NativeState
  | s, [] => some s
  | s, c :: cs =>
    match nativeStep plugin s c with
    | some s1 => nativeMonitor plugin s1 cs
    | none => none

/-- What the module believes about the native side. -/
def LV2Module.nativeState (m : LV2Module) : NativeState :=
  { instantiations := m.instantiations, live := m.inst.map (fun h => (h, m.active)) }

/-- The log of the module is a run of the native state machine without violation, it
ends in the state the module believes the native side to be in, and the active flag is set
only while an instance is held. -/
def LV2Module.FollowsProtocol (plugin : Plugin) (m : LV2Module) : Prop :=
  nativeMonitor plugin { instantiations := 0, live := none } m.calls = some m.nativeState
    ∧ (m.inst = none → m.active = false)

/-- The calls of the passes of the loop of module.cpp lines 901-907 for the indices
`n - 1` down to 0. -/
def portLoopCalls (h : Nat) (buffers : List PortBuffer) (n : Nat) : List Call :=
  (((List.range n).reverse).map (LV2Module.portCalls h buffers)).flatten

/-- What `run` does to one buffer between the drain and the native process call. -/
def resetIfOutputSequence (b : PortBuffer) : PortBuffer :=
  if b.isSequence && !b.isInput then b.reset else b

/-- The log holds no call to the worker bridge and no native run. -/
def NoWorkerOrRun (calls : List Call) : Prop :=
  Call.processWorkResponses ∉ calls ∧ Call.endRun ∉ calls
    ∧ ∀ h n, Call.nativeRun h n ∉ calls

/-- The descriptors of a port list are numbered as `init` numbers them: the descriptor at
position `i` has index `i`, and its channel is the number of earlier descriptors with its
type and direction. -/
def WellNumbered (ports : List PortDescription) : Prop :=
  ∀ (i : Nat) (d : PortDescription), ports[i]? = some d →
    d.index = i ∧ d.channel = portListSize (ports.take i) d.type d.input

/-- The channel config holds, for each direction, the (type, index) pairs of the
descriptors of that direction, in the order of the port list. -/
def ChannelsAgree (ports : List PortDescription) (c : ChannelConfig) : Prop :=
  c.inputs = (ports.filter (fun d => d.input)).map (fun d => (d.type, d.index))
    ∧ c.outputs = (ports.filter (fun d => !d.input)).map (fun d => (d.type, d.index))

/-- The descriptor that `init` derives from the metadata of the port with index `i`, up to
its channel. -/
def DescribesPort (d : PortDescription) (port : LilvPort) : Prop :=
  d.type = portTypeOf port ∧ d.input = port.isInput ∧ d.symbol = port.symbol
    ∧ d.name = port.name

/-! ## Port ranges and the queues between the threads -/

namespace LV2Module

/-- Source `LV2Module::getPortRange`. The reference parameters `min`, `max` and `def` come
in with the values the caller holds; the result is what they hold after the call. The
heap blocks `mins`, `maxes` and `defaults` are read at an index below `numPorts`, their
allocated size. -/
def getPortRange (m : LV2Module) (port min max dflt : Nat) : Nat × Nat × Nat :=
  if port ≥ m.numPorts then (min, max, dflt)
  else
    let min1 := m.mins.getD port 0
    let max1 := m.maxes.getD port 0
    let def1 := m.defaults.getD port 0
    (min1, max1, if floatIsNaN def1 then min1 else def1)

end LV2Module

/-- The queue content is a sequence of events as `run` forwards them for notification:
complete events with a non-empty payload and protocol tag 0, and nothing else. -/
def Notified (bytes : List Nat) : Prop :=
  ∃ evs : List (PortEvent × List Nat), bytes = frame evs
    ∧ ∀ e ∈ evs, Complete e ∧ 0 < e.1.size ∧ e.1.protocol = 0

/-- The calls by which one pass of `timerCallback` hands a notification on: a protocol-0
event goes to the editor, when there is one, and then to `onPortNotify`, when it is set;
an event with another protocol tag goes nowhere. -/
def deliveryCalls (hasUI hasOnPortNotify : Bool) (e : PortEvent × List Nat) : List Call :=
  if e.1.protocol == 0 then
    (if hasUI then [Call.uiPortEvent e.1.index e.1.size e.1.protocol e.2] else [])
      ++ (if hasOnPortNotify then [Call.onPortNotify e.1.index e.1.size e.1.protocol e.2]
          else [])
  else []

/-- The two queues of a module are as `write` and `run` keep them: the inbound queue is
framed and within its capacity, which is a 32-bit size, and the notification queue holds
forwarded events only. -/
def LV2Module.QueuesKept (m : LV2Module) : Prop :=
  Framed m.events.bytes ∧ m.events.bytes.length ≤ m.events.capacity
    ∧ m.events.capacity < 4294967296 ∧ Notified m.notifications.bytes

/-! ## Doubles -/

/-- IEEE-754 binary64: the pattern is a NaN (exponent all ones, mantissa non-zero). -/
def doubleIsNaN (x : Nat) : Bool :=
  (x / 4503599627370496 % 2048 == 2047) && (x % 4503599627370496 != 0)

/-- The position of a double that is no NaN in the order of the reals: the magnitude
bits, negated when the sign bit is set (the two zeros share position 0, and the
infinities lie at the two ends). -/
def doubleKey (x : Nat) : Int :=
  if x / 9223372036854775808 % 2 == 1 then -((x % 9223372036854775808 : Nat) : Int)
  else ((x % 9223372036854775808 : Nat) : Int)

/-- The C++ `a < b` on two doubles given by their bit patterns: false when either is a
NaN. -/
def doubleLt (a b : Nat) : Bool :=
  !doubleIsNaN a && !doubleIsNaN b && decide (doubleKey a < doubleKey b)

/-- The double `a` is at most `b` (C++ `a <= b`): false when either is a NaN. -/
def doubleLe (a b : Nat) : Bool :=
  !doubleIsNaN a && !doubleIsNaN b && decide (doubleKey a ≤ doubleKey b)

/-- The template `jlimit (lowerLimit, upperLimit, valueToConstrain)` of the JUCE library,
the clamp that `setFadeLength` applies (the library is not part of the sources at hand),
with the two comparisons by which the library computes it:
`value < lower ? lower : (upper < value ? upper : value)`. -/
def jlimit (lowerLimit upperLimit valueToConstrain : Nat) : Nat :=
  if doubleLt valueToConstrain lowerLimit then lowerLimit
  else if doubleLt upperLimit valueToConstrain then upperLimit
  else valueToConstrain

/-! ## Nodes: the audio router -/

/-- Modelled from the spec: `LinearFade` (engine/linearfade.hpp is not part of the sources
at hand), of which `setFadeLength` sets the length of the ramp, a float in seconds. -/
structure LinearFade where
  length : Nat
  deriving DecidableEq, Repr

/-- Source `LinearFade::setLength`. -/
def LinearFade.setLength (f : LinearFade) (seconds : Nat) : LinearFade :=
  { f with length := seconds }

/-- The local variables of a `refreshPorts`: the port list under construction and the
counters `index` and `channel`. -/
structure PortBuilder where
  newPorts : List PortDescription := []
  index : Nat := 0
  channel : Nat := 0
  deriving DecidableEq, Repr

/-- The fields of a `PluginDescription` that `AudioRouterNode::getPluginDescription` sets
from literals and members (the identifiers that come from configuration macros are
left out). -/
structure PluginDescription where
  name : String
  descriptiveName : String
  numInputChannels : Int
  numOutputChannels : Int
  hasSharedContainer : Bool
  isInstrument : Bool
  pluginFormatName : String
  version : String
  deriving DecidableEq, Repr

/-- The members of an `AudioRouterNode` that its inline member functions use, with the
initialisers of the header; `ports` is the published port list of the base class
(`setPorts`, `getNumPorts`); 4562254508917369340 is the double 0.001. -/
structure AudioRouterNode where
  numSources : Int
  numDestinations : Int
  rebuildPorts : Bool := true
  fadeLengthSeconds : Nat := 4562254508917369340
  fadeIn : LinearFade := { length := 0 }
  fadeOut : LinearFade := { length := 0 }
  ports : List PortDescription := []
  deriving DecidableEq, Repr

namespace AudioRouterNode

/-- Source `AudioRouterNode::setFadeLength`; `toFloat` is the conversion
`static_cast<float>` from a double to a float, both by their bit patterns;
4617315517961601024 is the double 5.0. -/
def setFadeLength (toFloat : Nat → Nat) (n : AudioRouterNode) (seconds : Nat) :
    AudioRouterNode :=
  let seconds1 := jlimit 4562254508917369340 4617315517961601024 seconds
  let n1 := { n with fadeLengthSeconds := seconds1 }
  let n2 := { n1 with fadeIn := n1.fadeIn.setLength (toFloat n1.fadeLengthSeconds) }
  { n2 with fadeOut := n2.fadeOut.setLength (toFloat n2.fadeLengthSeconds) }

/-- Source `AudioRouterNode::getPluginDescription`. -/
def getPluginDescription (n : AudioRouterNode) : PluginDescription :=
  { name := "Audio Router"
    descriptiveName := "An Audio Patch Grid"
    numInputChannels := n.numDestinations
    numOutputChannels := n.numSources
    hasSharedContainer := false
    isInstrument := false
    pluginFormatName := "Element"
    version := "1.0.0" }

/-- One pass of the first (`isInput`) or the second loop of
`AudioRouterNode::refreshPorts`, for the loop variable `i`. -/
def addAudioPort (isInput : Bool) (b : PortBuilder) (i : Nat) : PortBuilder :=
  { newPorts := portListAdd b.newPorts PortType.Audio b.index b.channel
      ((if isInput then "audio_in_" else "audio_out_") ++ toString i)
      ((if isInput then "Input " else "Output ") ++ toString (i + 1)) isInput
    index := b.index + 1
    channel := b.channel + 1 }

/-- The local variables of `AudioRouterNode::refreshPorts` when it reaches `setPorts`
(audiorouter.hpp lines 74-88). A loop `for (int i = 0; i < n; ++i)` runs for
`i = 0, ..., n - 1`, and not at all when `n` is not positive. -/
def buildPorts (n : AudioRouterNode) : PortBuilder :=
  let b1 := (List.range n.numSources.toNat).foldl (addAudioPort true) {}
  let b2 := { b1 with channel := 0 }
  let b3 := (List.range n.numDestinations.toNat).foldl (addAudioPort false) b2
  { b3 with
    newPorts := portListAdd b3.newPorts PortType.Midi b3.index 0 "midi_in" "MIDI In" true
    index := b3.index + 1 }

/-- Source `AudioRouterNode::refreshPorts`. -/
def refreshPorts (n : AudioRouterNode) : AudioRouterNode :=
  if decide (0 < n.ports.length) && !n.rebuildPorts then n
  else { n with rebuildPorts := false, ports := (buildPorts n).newPorts }

end AudioRouterNode

/-! ## Nodes: the hosted audio processor -/

/-- What `AudioProcessorNode::refreshPorts` reads from a bus of the hosted processor:
`getName ()` and `getNumberOfChannels ()`. -/
structure Bus where
  name : String
  numberOfChannels : Nat
  deriving DecidableEq, Repr

/-- What `AudioProcessorNode::refreshPorts` reads from the hosted processor `proc`: its
input and output buses, the names `getName (32)` of its parameters in the order of
`getParameters ()`, and whether it accepts and produces MIDI. -/
structure AudioProcessor where
  inputBuses : List Bus
  outputBuses : List Bus
  parameters : List String
  acceptsMidi : Bool
  producesMidi : Bool
  deriving DecidableEq, Repr

/-- An `AudioProcessorNode`: the hosted processor and the published port list. -/
structure AudioProcessorNode where
  proc : AudioProcessor
  ports : List PortDescription := []
  deriving DecidableEq, Repr

namespace AudioProcessorNode

/-- One pass of the inner loop over the channels of an input (`isInput`) or output bus
(audioprocessornode.cpp lines 169-178 and 187-196). -/
def addAudioPort (isInput : Bool) (busName : String) (b : PortBuilder) : PortBuilder :=
  { newPorts := portListAdd b.newPorts PortType.Audio b.index b.channel
      ((if isInput then "audio_in_" else "audio_out_") ++ toString (b.channel + 1))
      (busName ++ " " ++ toString (b.channel + 1)) isInput
    index := b.index + 1
    channel := b.channel + 1 }

/-- The loop over the input (`isInput`) or output buses with its inner loop over the
channels of each bus. -/
def addBuses (isInput : Bool) (buses : List Bus) (b : PortBuilder) : PortBuilder :=
  buses.foldl
    (fun acc bus =>
      (List.range bus.numberOfChannels).foldl (fun acc2 _ => addAudioPort isInput bus.name acc2)
        acc)
    b

/-- One pass of the loop over the parameters, for the parameter at position `i`
(audioprocessornode.cpp lines 202-208). -/
def addParameter (parameters : List String) (b : PortBuilder) (i : Nat) : PortBuilder :=
  { b with
    newPorts := portListAdd b.newPorts PortType.Control b.index i ("control_" ++ toString i)
      (parameters.getD i "") true
    index := b.index + 1 }

/-- The local variables of `AudioProcessorNode::refreshPorts` when it reaches `setPorts`
(audioprocessornode.cpp lines 157-238). The resynchronisation of the member `params`
between the two does not touch them. -/
def buildPorts (proc : AudioProcessor) : PortBuilder :=
  let b1 := addBuses true proc.inputBuses {}
  let b2 := addBuses false proc.outputBuses { b1 with channel := 0 }
  let b3 := (List.range proc.parameters.length).foldl (addParameter proc.parameters) b2
  let b4 :=
    if proc.acceptsMidi then
      { b3 with
        newPorts := portListAdd b3.newPorts PortType.Midi b3.index 0 "midi_in_0" "MIDI" true
        index := b3.index + 1 }
    else b3
  if proc.producesMidi then
    { b4 with
      newPorts := portListAdd b4.newPorts PortType.Midi b4.index 0 "midi_out_0" "MIDI" false
      index := b4.index + 1 }
  else b4

/-- Source `AudioProcessorNode::refreshPorts`. -/
def refreshPorts (n : AudioProcessorNode) : AudioProcessorNode :=
  { n with ports := (buildPorts n.proc).newPorts }

end AudioProcessorNode

/-! ## Generated port symbols -/

/-- The number that a list of decimal digit characters denotes when it is read after the
number `acc`. -/
def digitsValue (cs : List Char) (acc : Nat) : Nat :=
  cs.foldl (fun a c => 10 * a + (c.toNat - 48)) acc

/-- The port symbols that the two `refreshPorts` generate, by family and number. -/
inductive SymbolId where
  | audioIn (k : Nat)
  | audioOut (k : Nat)
  | control (i : Nat)
  | midiIn0
  | midiOut0
  | midiIn
  deriving DecidableEq, Repr

/-- The symbol as `refreshPorts` writes it. -/
def SymbolId.render : SymbolId → String
  | SymbolId.audioIn k => "audio_in_" ++ toString k
  | SymbolId.audioOut k => "audio_out_" ++ toString k
  | SymbolId.control i => "control_" ++ toString i
  | SymbolId.midiIn0 => "midi_in_0"
  | SymbolId.midiOut0 => "midi_out_0"
  | SymbolId.midiIn => "midi_in"

/-- The characters of a string at the positions 0, 6 and 7, which tell the families of
generated symbols apart. -/
def symbolTag (s : String) : Option Char × Option Char × Option Char :=
  (s.data[0]?, s.data[6]?, s.data[7]?)

/-- The characters at the positions 0, 6 and 7 of the symbols of a family. -/
def SymbolId.tag : SymbolId → Option Char × Option Char × Option Char
  | SymbolId.audioIn _ => (some 'a', some 'i', some 'n')
  | SymbolId.audioOut _ => (some 'a', some 'o', some 'u')
  | SymbolId.control _ => (some 'c', some 'l', some '_')
  | SymbolId.midiIn0 => (some 'm', some 'n', some '_')
  | SymbolId.midiOut0 => (some 'm', some 'u', some 't')
  | SymbolId.midiIn => (some 'm', some 'n', none)

/-- A port descriptor without its display name. -/
def PortDescription.shape (d : PortDescription) : PortType × Nat × Nat × String × Bool :=
  (d.type, d.index, d.channel, d.symbol, d.input)

/-- The sum of the channel counts of a list of buses (`getTotalNumInputChannels` and
`getTotalNumOutputChannels` of the hosted processor). -/
def totalNumChannels (buses : List Bus) : Nat :=
  (buses.map (fun bus => bus.numberOfChannels)).sum

/-! ## Nodes: the parameter bridge -/

/-- A listener callback of `AudioProcessorNodeParameter` with the argument it uses (a
float by its bit pattern, or the flag `grabbed`); the index argument is ignored by all
four. -/
inductive ParameterCallback where
  | controlValueChanged (value : Nat)
  | controlTouched (grabbed : Bool)
  | parameterValueChanged (value : Nat)
  | parameterGestureChanged (grabbed : Bool)
  deriving DecidableEq, Repr

/-- The call by which a callback hands a change on to the other side: to the listeners of
the native parameter `param`, or to the listeners of the host parameter itself. -/
inductive Forward where
  | paramSendValueChanged (value : Nat)
  | paramBeginChangeGesture
  | paramEndChangeGesture
  | sendValueChanged (value : Nat)
  | sendGestureChanged (grabbed : Bool)
  deriving DecidableEq, Repr

/-- The forward in the body of each callback (audioprocessornode.cpp lines 59, 67, 75
and 83). -/
def ParameterCallback.forward : ParameterCallback → Forward
  | ParameterCallback.controlValueChanged value => Forward.paramSendValueChanged value
  | ParameterCallback.controlTouched grabbed =>
    if grabbed then Forward.paramBeginChangeGesture else Forward.paramEndChangeGesture
  | ParameterCallback.parameterValueChanged value => Forward.sendValueChanged value
  | ParameterCallback.parameterGestureChanged grabbed => Forward.sendGestureChanged grabbed

/-- The member `ignoreChanges` of an `AudioProcessorNodeParameter`, and the log of the
forwards it has made. -/
structure AudioProcessorNodeParameter where
  ignoreChanges : Bool := false
  forwards : List Forward := []
  deriving DecidableEq, Repr

namespace AudioProcessorNodeParameter

/-- The common body of the four listener callbacks (audioprocessornode.cpp lines 55-85):
return when `ignoreChanges` is set, otherwise hold a `ScopedFlag` on it and forward.
Modelled from the spec: `ScopedFlag` (scopedflag.hpp is not part of the sources at hand)
sets the flag to the given value and puts the previous value back when the scope is left;
and the listener mechanism of both sides, which calls its listeners synchronously:
`reactions fwd` are the callbacks that arrive at this object while the forward `fwd` is
under way (the object listens on both sides, and another listener may react by changing
the parameter again). `fuel` bounds the depth to which callbacks nest; `none` reports
that the bound was reached. -/
def callback (reactions : Forward → List ParameterCallback) :
    Nat → AudioProcessorNodeParameter → ParameterCallback → Option AudioProcessorNodeParameter
  | 0, _, _ => none
  | fuel + 1, p, cb =>
    if p.ignoreChanges then some p
    else
      let previous := p.ignoreChanges
      let p1 := { p with ignoreChanges := true, forwards := p.forwards ++ [cb.forward] }
      match (reactions cb.forward).foldl
          (fun acc r => acc.bind (fun q => callback reactions fuel q r)) (some p1) with
      | none => none
      | some p2 => some { p2 with ignoreChanges := previous }

/-- Source `AudioProcessorNodeParameter::controlValueChanged`. -/
def controlValueChanged (reactions : Forward → List ParameterCallback) (fuel : Nat)
    (p : AudioProcessorNodeParameter) (value : Nat) : Option AudioProcessorNodeParameter :=
  callback reactions fuel p (ParameterCallback.controlValueChanged value)

/-- Source `AudioProcessorNodeParameter::controlTouched`. -/
def controlTouched (reactions : Forward → List ParameterCallback) (fuel : Nat)
    (p : AudioProcessorNodeParameter) (grabbed : Bool) : Option AudioProcessorNodeParameter :=
  callback reactions fuel p (ParameterCallback.controlTouched grabbed)

/-- Source `AudioProcessorNodeParameter::parameterValueChanged`. -/
def parameterValueChanged (reactions : Forward → List ParameterCallback) (fuel : Nat)
    (p : AudioProcessorNodeParameter) (value : Nat) : Option AudioProcessorNodeParameter :=
  callback reactions fuel p (ParameterCallback.parameterValueChanged value)

/-- Source `AudioProcessorNodeParameter::parameterGestureChanged`. -/
def parameterGestureChanged (reactions : Forward → List ParameterCallback) (fuel : Nat)
    (p : AudioProcessorNodeParameter) (grabbed : Bool) : Option AudioProcessorNodeParameter :=
  callback reactions fuel p (ParameterCallback.parameterGestureChanged grabbed)

/-- A sequence of callbacks that arrive from outside, one after the other has returned. -/
def callbacks (reactions : Forward → List ParameterCallback) (fuel : Nat)
    (p : AudioProcessorNodeParameter) (cbs : List ParameterCallback) :
    Option AudioProcessorNodeParameter :=
  cbs.foldl (fun acc cb => acc.bind (fun q => callback reactions fuel q cb)) (some p)

end AudioProcessorNodeParameter

/-! ## Sample data -/

/-- A control port buffer holding the float with bit pattern `v`. -/
def controlBuffer (v : Nat) : PortBuffer :=
  { input := true, type := PortType.Control, dataType := 1, capacity := 4, value := v,
    sequence := [] }

/-- An audio port buffer. -/
def audioBuffer (input : Bool) : PortBuffer :=
  { input := input, type := PortType.Audio, dataType := 1, capacity := 4, value := 0,
    sequence := [] }

/-- An instantiated module over a plugin with two audio inputs, two audio outputs and one
control port `gain` (port 4, value 0.0), with empty queues of 64 bytes. -/
def sampleModule : LV2Module :=
  { ports :=
      [ ⟨PortType.Audio, 0, 0, "in_l", "In L", true⟩,
        ⟨PortType.Audio, 1, 1, "in_r", "In R", true⟩,
        ⟨PortType.Audio, 2, 0, "out_l", "Out L", false⟩,
        ⟨PortType.Audio, 3, 1, "out_r", "Out R", false⟩,
        ⟨PortType.Control, 4, 0, "gain", "Gain", true⟩ ]
    buffers := [audioBuffer true, audioBuffer true, audioBuffer false, audioBuffer false,
      controlBuffer 0]
    events := { capacity := 64, bytes := [] }
    notifications := { capacity := 64, bytes := [] }
    evbuf := List.replicate 64 0
    ntbuf := List.replicate 64 0
    inst := some 1
    active := false
    worker := none
    currentSampleRate := 48000
    features := [Feature.host 0, Feature.terminator]
    instantiations := 1
    hasUI := false
    hasOnPortNotify := false
    calls := [] }

/-- A world with one host feature, worker interface node 7 and Float URID 1, whose state
strings are not parsed. -/
def sampleWorld : World :=
  { hostFeatures := [Feature.host 0], work_interface := 7, atomFloat := 1,
    parseState := fun _ => none }

/-- A plugin without extension data whose instantiate always yields handle 1 and whose
process call leaves the port buffers as they are. -/
def samplePlugin : Plugin :=
  { extensionData := []
    nativeInstantiate := fun _ _ _ => some 1
    workerInterfaceData := fun _ => false
    defaultState := none
    process := fun _ _ buffers => buffers }

/-- The bit pattern of the float 0.5. -/
def half : Nat := 1056964608

/-- The module `sampleModule` before its first `instantiate`. -/
def freshModule : LV2Module :=
  { sampleModule with inst := none, features := [], instantiations := 0 }

/-- The module `sampleModule` activated, with a Worker Bridge attached. -/
def activeModule : LV2Module :=
  { sampleModule with active := true, worker := some { bufferSize := 2048, iface := some 1 } }

/-- A plugin whose native instantiate always returns the null handle. -/
def failingPlugin : Plugin :=
  { samplePlugin with nativeInstantiate := fun _ _ _ => none }

/-- A plugin that does not declare the worker interface in its extension data, while its
instances answer the extension-data query for the worker interface. -/
def undeclaredWorkerPlugin : Plugin :=
  { samplePlugin with workerInterfaceData := fun _ => true }

/-- A port description of the metadata provider with the given classes. -/
def lilvPort (isAudio isAtom isControl isInput : Bool) (symbol name : String)
    (defaultValue : Nat) : LilvPort :=
  { isAudio := isAudio, isAtom := isAtom, isControl := isControl, isCV := false,
    isEvent := false, isInput := isInput, name := name, symbol := symbol, minValue := 0,
    maxValue := 1065353216, defaultValue := defaultValue }

/-- A plugin like `samplePlugin` with two audio inputs, two audio outputs, one control
input `gain` with default 0.5, and one atom output `notify`. -/
def scenarioPlugin : Plugin :=
  { samplePlugin with
    ports :=
      [ lilvPort true false false true "in_l" "In L" 0,
        lilvPort true false false true "in_r" "In R" 0,
        lilvPort true false false false "out_l" "Out L" 0,
        lilvPort true false false false "out_r" "Out R" 0,
        lilvPort false false true true "gain" "Gain" half,
        lilvPort false true false false "notify" "Notify" 0 ] }

/-- The module constructed for `scenarioPlugin`, with ring buffers of 64 bytes and event
buffers of 32 bytes. -/
def scenarioModule : LV2Module :=
  LV2Module.create sampleWorld scenarioPlugin 64 32

/-- The module `scenarioModule` after a successful `instantiate` at 48000 Hz
(4676829883349860352 is the double 48000.0). -/
def loadedScenario : LV2Module :=
  (scenarioModule.instantiate sampleWorld scenarioPlugin 4676829883349860352).2

/-- A plugin with one control port whose default is a NaN (2143289344), minimum 0.0 and
maximum 1.0 (1065353216). -/
def nanDefaultPlugin : Plugin :=
  { samplePlugin with
    ports := [lilvPort false false true true "gain" "Gain" 2143289344] }

/-- The module constructed for `scenarioPlugin` with an editor attached and `onPortNotify`
set. -/
def notifyingModule : LV2Module :=
  { scenarioModule with hasUI := true, hasOnPortNotify := true }

/-- A router with two sources and three destinations, as the header initialises it. -/
def sampleRouter : AudioRouterNode :=
  { numSources := 2, numDestinations := 3 }

/-- A conversion from double to float that is right on the two doubles 0.001 and 5.0
(981668463 and 1084227584 are the floats 0.001 and 5.0) and 0.0 elsewhere. -/
def sampleToFloat (d : Nat) : Nat :=
  if d = 4562254508917369340 then 981668463
  else if d = 4617315517961601024 then 1084227584
  else 0

/-- A processor with a stereo input bus, a mono side chain, a stereo output bus, two
parameters, MIDI input and no MIDI output. -/
def sampleProcessor : AudioProcessor :=
  { inputBuses := [{ name := "Input", numberOfChannels := 2 },
                   { name := "Sidechain", numberOfChannels := 1 }]
    outputBuses := [{ name := "Output", numberOfChannels := 2 }]
    parameters := ["Gain", "Mix"]
    acceptsMidi := true
    producesMidi := false }

/-- The two sides observe each other: while a value goes to the listeners of the native
parameter, `parameterValueChanged` arrives with it, and another listener answers with a
new value for the host side; while a value goes to the listeners of the host parameter,
`controlValueChanged` arrives; gestures echo in the same way. -/
def echoing : Forward → List ParameterCallback
  | Forward.paramSendValueChanged value =>
    [ParameterCallback.parameterValueChanged value,
     ParameterCallback.controlValueChanged (value + 1)]
  | Forward.paramBeginChangeGesture => [ParameterCallback.parameterGestureChanged true]
  | Forward.paramEndChangeGesture => [ParameterCallback.parameterGestureChanged false]
  | Forward.sendValueChanged value => [ParameterCallback.controlValueChanged value]
  | Forward.sendGestureChanged grabbed => [ParameterCallback.controlTouched grabbed]

/-! # Theorems -/

/-! ## Lemmas on the encoding -/

theorem le32_length (n : Nat) : (le32 n).length = 4 := rfl

theorem ofLe32_le32_append (n : Nat) (rest : List Nat) :
    ofLe32 (le32 n ++ rest) = n % 4294967296 := by
  simp only [le32, ofLe32, List.cons_append, List.getD_cons_zero, List.getD_cons_succ]
  omega

theorem encode_length (e : PortEvent) : e.encode.length = pesize := rfl

theorem decode_encode_append (e : PortEvent) (rest : List Nat)
    (hi : e.index < 4294967296) (hs : e.size < 4294967296) (hp : e.protocol < 4294967296) :
    PortEvent.decode (e.encode ++ rest) = e := by
  have h1 : e.encode ++ rest
      = le32 e.index ++ (le32 e.size ++ (le32 e.protocol ++ rest)) := by
    simp [PortEvent.encode, List.append_assoc]
  have t1 : (e.encode ++ rest).take 4 = le32 e.index := by
    rw [h1]; simp [le32]
  have t2 : ((e.encode ++ rest).drop 4).take 4 = le32 e.size := by
    rw [h1]; simp [le32]
  have t3 : ((e.encode ++ rest).drop 8).take 4 = le32 e.protocol := by
    rw [h1]; simp [le32]
  have o (n : Nat) (hn : n < 4294967296) : ofLe32 (le32 n) = n := by
    have := ofLe32_le32_append n []
    rw [List.append_nil] at this
    rw [this]; omega
  cases e with
  | mk i sz pr =>
    simp only [PortEvent.decode, t1, t2, t3]
    simp only [] at hi hs hp
    rw [o i hi, o sz hs, o pr hp]

theorem overwriteFront_take (block payload : List Nat) :
    (overwriteFront block payload).take payload.length = payload := by
  simp [overwriteFront]

/-- What one pass of the drain loop does when the queue starts with a complete event of
positive size. -/
theorem drainStep_event (m : LV2Module) (e : PortEvent) (payload rest : List Nat)
    (hc : Complete (e, payload)) (hb : m.events.bytes = e.encode ++ payload ++ rest)
    (hpos : 0 < e.size) :
    m.drainStep =
      (if e.protocol == 0 then
        match m.buffers[e.index]? with
        | none => Step.fault
        | some buffer =>
          if floatNe buffer.getValue (ofLe32 ((overwriteFront m.evbuf payload).take 4)) then
            if m.notifications.canWrite ((pesize + e.size) % 4294967296) then
              Step.next { m with
                events := { m.events with bytes := rest }
                evbuf := overwriteFront m.evbuf payload
                buffers := m.buffers.set e.index
                  (buffer.setValue (ofLe32 ((overwriteFront m.evbuf payload).take 4)))
                notifications := (m.notifications.write e.encode).write payload }
            else
              Step.next { m with
                events := { m.events with bytes := rest }
                evbuf := overwriteFront m.evbuf payload
                buffers := m.buffers.set e.index
                  (buffer.setValue (ofLe32 ((overwriteFront m.evbuf payload).take 4))) }
          else
            Step.next { m with
              events := { m.events with bytes := rest }
              evbuf := overwriteFront m.evbuf payload }
      else
        Step.next { m with
          events := { m.events with bytes := rest }
          evbuf := overwriteFront m.evbuf payload }) := by
  obtain ⟨hi, hs, hp, hl⟩ := hc
  simp only [] at hi hs hp hl
  have hlen : m.events.bytes.length = pesize + e.size + rest.length := by
    rw [hb]; simp [encode_length, hl]; omega
  have hpeek : m.events.peek pesize = e.encode := by
    simp [RingBuffer.peek, hb, List.append_assoc, List.take_append_of_le_length, encode_length]
  have hdec : PortEvent.decode e.encode = e := by
    have := decode_encode_append e [] hi hs hp
    simpa using this
  have hcr : m.events.canRead pesize = true := by
    simp [RingBuffer.canRead, hlen]; omega
  have hcr2 : m.events.canRead ((pesize + e.size) % 4294967296) = true := by
    simp only [RingBuffer.canRead, hlen, decide_eq_true_eq]
    have := Nat.mod_le (pesize + e.size) 4294967296
    omega
  have hadv : (m.events.advance pesize).bytes = payload ++ rest := by
    simp [RingBuffer.advance, hb, List.append_assoc, encode_length]
  have hpay : (m.events.advance pesize).peek e.size = payload := by
    simp [RingBuffer.peek, hadv, ← hl]
  have hadv2 : ((m.events.advance pesize).advance e.size) = { m.events with bytes := rest } := by
    simp [RingBuffer.advance, hb, List.append_assoc, encode_length, ← hl]
  have htake : (overwriteFront m.evbuf payload).take e.size = payload := by
    rw [← hl]; exact overwriteFront_take _ _
  unfold LV2Module.drainStep
  simp only [hcr, hdec, hcr2, hpos, hpay, hadv2, hpeek, htake, Bool.not_true, decide_True,
    Bool.and_self, if_true, Bool.false_eq_true, if_false]

/-- A pass of the drain loop over a queue that starts with a header of size 0 changes
nothing: the header is not consumed. -/
theorem drainStep_size_zero (m : LV2Module) (e : PortEvent) (rest : List Nat)
    (hi : e.index < 4294967296) (hz : e.size = 0) (hp : e.protocol < 4294967296)
    (hb : m.events.bytes = e.encode ++ rest) :
    m.drainStep = Step.next m := by
  have hpeek : m.events.peek pesize = e.encode := by
    simp [RingBuffer.peek, hb, List.take_append_of_le_length, encode_length]
  have hdec : PortEvent.decode e.encode = e := by
    have := decode_encode_append e [] hi (by omega) hp
    simpa using this
  have hcr : m.events.canRead pesize = true := by
    simp [RingBuffer.canRead, hb, encode_length]
  unfold LV2Module.drainStep
  simp [hcr, hpeek, hdec, hz]

theorem drainStep_nil (m : LV2Module) (hb : m.events.bytes = []) :
    m.drainStep = Step.stop := by
  unfold LV2Module.drainStep
  simp [RingBuffer.canRead, hb, pesize]

/-- A pass that does not change the state is repeated until the bound is reached. -/
theorem drainLoop_stall (m : LV2Module) (h : m.drainStep = Step.next m) (fuel : Nat) :
    LV2Module.drainLoop fuel m = Outcome.outOfFuel m := by
  induction fuel with
  | zero => rfl
  | succ n ih => simp [LV2Module.drainLoop, h, ih]

theorem frame_cons (e : PortEvent × List Nat) (evs : List (PortEvent × List Nat)) :
    frame (e :: evs) = e.1.encode ++ e.2 ++ frame evs := by
  simp [frame]

theorem frame_append (xs ys : List (PortEvent × List Nat)) :
    frame (xs ++ ys) = frame xs ++ frame ys := by
  simp [frame]

theorem write_accept (m : LV2Module) (port size protocol : Nat) (buffer : List Nat)
    (h : m.events.canWrite (pesize + size) = true) :
    m.write port size protocol buffer
      = { m with events := { m.events with
            bytes := m.events.bytes ++ (PortEvent.mk port size protocol).encode
              ++ buffer.take size } } := by
  simp only [RingBuffer.canWrite, decide_eq_true_eq] at h
  have hw1 : m.events.write (PortEvent.mk port size protocol).encode
      = { m.events with bytes := m.events.bytes ++ (PortEvent.mk port size protocol).encode } := by
    have : m.events.bytes.length + pesize ≤ m.events.capacity := by omega
    simp [RingBuffer.write, RingBuffer.canWrite, encode_length, this]
  have hw2 : ({ m.events with
        bytes := m.events.bytes ++ (PortEvent.mk port size protocol).encode } : RingBuffer).write
        (buffer.take size)
      = { m.events with bytes := m.events.bytes ++ (PortEvent.mk port size protocol).encode
            ++ buffer.take size } := by
    have : m.events.bytes.length + pesize + min size buffer.length ≤ m.events.capacity := by
      omega
    simp [RingBuffer.write, RingBuffer.canWrite, encode_length, this]
  unfold LV2Module.write
  simp only [RingBuffer.canWrite, decide_eq_true_eq, h, if_true]
  rw [hw1, hw2]

theorem write_reject (m : LV2Module) (port size protocol : Nat) (buffer : List Nat)
    (h : m.events.canWrite (pesize + size) = false) :
    m.write port size protocol buffer = m := by
  unfold LV2Module.write
  simp [h]

/-- Framing is kept by `write`. -/
theorem framed_write (m : LV2Module) (port size protocol : Nat) (buffer : List Nat)
    (hv : InboundOp.Valid (InboundOp.write port size protocol buffer))
    (hf : Framed m.events.bytes) :
    Framed (m.write port size protocol buffer).events.bytes := by
  obtain ⟨hi, hs, hp, hl⟩ := hv
  cases hw : m.events.canWrite (pesize + size) with
  | false => rw [write_reject m port size protocol buffer hw]; exact hf
  | true =>
    rw [write_accept m port size protocol buffer hw]
    obtain ⟨evs, hb, hc⟩ := hf
    refine ⟨evs ++ [(PortEvent.mk port size protocol, buffer.take size)], ?_, ?_⟩
    · simp [frame_append, frame_cons, frame, hb]
    · intro e he
      rcases List.mem_append.mp he with h | h
      · exact hc e h
      · simp only [List.mem_singleton] at h
        subst h
        exact ⟨hi, hs, hp, by simp [List.length_take]; omega⟩

/-- Framing is kept by a pass of the drain loop: a pass removes a whole event or nothing. -/
theorem framed_drainStep (m m1 : LV2Module) (hf : Framed m.events.bytes)
    (hstep : m.drainStep = Step.next m1) : Framed m1.events.bytes := by
  obtain ⟨evs, hb, hc⟩ := hf
  cases evs with
  | nil =>
    rw [drainStep_nil m (by simpa [frame] using hb)] at hstep
    cases hstep
  | cons e evs =>
    have hce := hc e (List.mem_cons_self _ _)
    have hrest : Framed (frame evs) :=
      ⟨evs, rfl, fun x hx => hc x (List.mem_cons_of_mem _ hx)⟩
    rw [frame_cons] at hb
    by_cases hz : e.1.size = 0
    · rw [drainStep_size_zero m e.1 (e.2 ++ frame evs) hce.1 hz hce.2.2.1
        (by rw [hb, List.append_assoc])] at hstep
      cases hstep
      exact ⟨e :: evs, by rw [frame_cons, hb], hc⟩
    · rw [drainStep_event m e.1 e.2 (frame evs) hce hb (by omega)] at hstep
      split at hstep
      · split at hstep
        · cases hstep
        · split at hstep
          · split at hstep <;> (cases hstep; exact hrest)
          · cases hstep; exact hrest
      · cases hstep; exact hrest

theorem framed_apply (m : LV2Module) (op : InboundOp) (hv : op.Valid)
    (hf : Framed m.events.bytes) : Framed (op.apply m).events.bytes := by
  cases op with
  | write port size protocol buffer => exact framed_write m port size protocol buffer hv hf
  | drainPass =>
    simp only [InboundOp.apply]
    split
    · next m1 h => exact framed_drainStep m m1 hf h
    · exact hf

theorem framed_foldl (ops : List InboundOp) (m : LV2Module)
    (hv : ∀ op ∈ ops, op.Valid) (hf : Framed m.events.bytes) :
    Framed (ops.foldl InboundOp.apply m).events.bytes := by
  induction ops generalizing m with
  | nil => exact hf
  | cons op ops ih =>
    simp only [List.foldl_cons]
    exact ih (op.apply m) (fun o ho => hv o (List.mem_cons_of_mem _ ho))
      (framed_apply m op (hv op (List.mem_cons_self _ _)) hf)

theorem ring_write_two (rb : RingBuffer) (a b : List Nat)
    (h : rb.canWrite (a.length + b.length) = true) :
    (rb.write a).write b = { rb with bytes := rb.bytes ++ a ++ b } := by
  simp only [RingBuffer.canWrite, decide_eq_true_eq] at h
  have h1 : rb.bytes.length + a.length ≤ rb.capacity := by omega
  have h2 : rb.bytes.length + a.length + b.length ≤ rb.capacity := by omega
  simp [RingBuffer.write, RingBuffer.canWrite, h1, h2]

theorem eventValue_of_four (evbuf payload : List Nat) (h : 4 ≤ payload.length) :
    eventValue evbuf payload = ofLe32 payload := by
  match payload, h with
  | a :: b :: c :: d :: tl, _ => simp [eventValue, overwriteFront, ofLe32]

/-- C4: `write` is all-or-nothing. When the inbound queue cannot take header plus payload
the module is left exactly as it was; otherwise exactly the header `{port, size, protocol}`
immediately followed by the `size` payload bytes is appended and nothing else changes.
Consequently, starting from an empty inbound queue, after any sequence of `write` calls
and drain passes the queue is a sequence of complete events. -/
theorem write_all_or_nothing (m : LV2Module) (port size protocol : Nat) (buffer : List Nat)
    (hv : InboundOp.Valid (InboundOp.write port size protocol buffer)) :
    (m.events.canWrite (pesize + size) = false → m.write port size protocol buffer = m)
    ∧ (m.events.canWrite (pesize + size) = true →
        m.write port size protocol buffer
          = { m with events := { m.events with
                bytes := m.events.bytes ++ (PortEvent.mk port size protocol).encode
                  ++ buffer.take size } }
        ∧ PortEvent.decode (PortEvent.mk port size protocol).encode
            = PortEvent.mk port size protocol
        ∧ (buffer.take size).length = size)
    ∧ (∀ ops : List InboundOp, (∀ op ∈ ops, op.Valid) → m.events.bytes = [] →
        Framed (ops.foldl InboundOp.apply m).events.bytes) := by
  obtain ⟨hi, hs, hp, hl⟩ := hv
  refine ⟨write_reject m port size protocol buffer, ?_, ?_⟩
  · intro h
    refine ⟨write_accept m port size protocol buffer h, ?_, ?_⟩
    · have := decode_encode_append (PortEvent.mk port size protocol) [] hi hs hp
      simpa using this
    · simp [List.length_take]; omega
  · intro ops hops hnil
    exact framed_foldl ops m hops ⟨[], by simp [frame, hnil], by simp⟩

theorem write_all_or_nothing_witness :
    InboundOp.Valid (InboundOp.write 4 4 0 (le32 half))
    ∧ sampleModule.events.canWrite (pesize + 4) = true
    ∧ (sampleModule.write 4 4 0 (le32 half)).events.bytes
        = [4, 0, 0, 0, 4, 0, 0, 0, 0, 0, 0, 0, 0, 0, 0, 63] :=
  ⟨by unfold InboundOp.Valid; decide, by decide,
    by
      rw [((write_all_or_nothing sampleModule 4 4 0 (le32 half)
        (by unfold InboundOp.Valid; decide)).2.1 (by decide)).1]
      decide⟩

/-- C2 (fails on the code): a `write` of size 0 is accepted, and the drain loop of `run`
never consumes its header: on an empty inbound queue with room for a header, after
`write (port, 0, protocol, buffer)` the call of `run` does not leave its drain loop within
any number of passes, and the state does not change. -/
theorem run_stalls_on_empty_payload (plugin : Plugin) (m : LV2Module) (port protocol : Nat)
    (buffer : List Nat) (hq : m.events.bytes = []) (hroom : m.events.canWrite pesize = true)
    (hport : port < 4294967296) (hprot : protocol < 4294967296) (fuel nframes : Nat) :
    (m.write port 0 protocol buffer).run plugin fuel nframes
      = Outcome.outOfFuel (m.write port 0 protocol buffer) := by
  have hb : (m.write port 0 protocol buffer).events.bytes
      = (PortEvent.mk port 0 protocol).encode ++ [] := by
    rw [write_accept m port 0 protocol buffer (by simpa using hroom)]
    simp [hq]
  have hstep := drainStep_size_zero (m.write port 0 protocol buffer)
    (PortEvent.mk port 0 protocol) [] hport rfl hprot hb
  simp only [LV2Module.run, drainLoop_stall _ hstep fuel]

theorem run_stalls_on_empty_payload_witness :
    sampleModule.events.bytes = [] ∧ sampleModule.events.canWrite pesize = true
    ∧ (sampleModule.write 4 0 0 []).run samplePlugin 1000 512
        = Outcome.outOfFuel (sampleModule.write 4 0 0 []) :=
  ⟨rfl, by decide,
    run_stalls_on_empty_payload samplePlugin sampleModule 4 0 [] rfl (by decide) (by decide)
      (by decide) 1000 512⟩

/-- C6 (fails on the code): an inbound protocol-0 event whose port index is not below the
number of port buffers is not skipped. On an empty inbound queue with room, after
`write (port, size, 0, buffer)` with such a port the drain loop of `run` indexes the
buffer array with `getUnchecked (port)` outside its bounds. -/
theorem run_faults_on_invalid_port (plugin : Plugin) (m : LV2Module) (port size : Nat)
    (buffer : List Nat) (hq : m.events.bytes = [])
    (hroom : m.events.canWrite (pesize + size) = true)
    (hinvalid : m.buffers.length ≤ port) (hport : port < 4294967296)
    (hpos : 0 < size) (hsize : size < 4294967296) (hbuf : size ≤ buffer.length)
    (fuel nframes : Nat) :
    (m.write port size 0 buffer).run plugin (fuel + 1) nframes = Outcome.fault := by
  have hb : (m.write port size 0 buffer).events.bytes
      = (PortEvent.mk port size 0).encode ++ buffer.take size ++ [] := by
    rw [write_accept m port size 0 buffer hroom]
    simp [hq]
  have hbufs : (m.write port size 0 buffer).buffers = m.buffers := by
    rw [write_accept m port size 0 buffer hroom]
  have hnone : (m.write port size 0 buffer).buffers[port]? = none := by
    rw [hbufs]; exact List.getElem?_eq_none hinvalid
  have hstep := drainStep_event (m.write port size 0 buffer) (PortEvent.mk port size 0)
    (buffer.take size) []
    ⟨hport, hsize, by norm_num, by simp [List.length_take]; omega⟩ hb hpos
  simp only [beq_self_eq_true, if_true, hnone] at hstep
  simp only [LV2Module.run, LV2Module.drainLoop, hstep]

theorem run_faults_on_invalid_port_witness :
    sampleModule.events.bytes = [] ∧ sampleModule.buffers.length ≤ 5
    ∧ (sampleModule.write 5 4 0 (le32 half)).run samplePlugin 1 512 = Outcome.fault :=
  ⟨rfl, by decide,
    run_faults_on_invalid_port samplePlugin sampleModule 5 4 (le32 half) rfl (by decide)
      (by decide) (by decide) (by decide) (by decide) (by decide) 0 512⟩

/-- The scalar left by the comparison and assignment of the drain loop holds the new value. -/
theorem holdsFloat_update (old v : Nat) :
    HoldsFloat (if floatNe old v then v else old) v := by
  unfold HoldsFloat floatNe
  cases hn : floatIsNaN v with
  | true => simp [floatEq, hn]
  | false =>
    cases he : floatEq old v with
    | true => simp [he]
    | false => simp [he, floatEq, hn]

/-- One pass of the drain loop over a drainable event: the event is consumed whole, only
the buffer of the port it targets can change, and that buffer gets the value of the event
when the value differs from the one it holds. -/
theorem drainStep_drainable (m : LV2Module) (e : PortEvent) (payload rest : List Nat)
    (hd : Drainable m.buffers.length (e, payload))
    (hb : m.events.bytes = e.encode ++ payload ++ rest) :
    ∃ m1, m.drainStep = Step.next m1 ∧ m1.events.bytes = rest ∧ m1.inst = m.inst
      ∧ m1.worker = m.worker ∧ m1.calls = m.calls
      ∧ m1.buffers.length = m.buffers.length
      ∧ (∀ q, ¬ Targets q (e, payload) → m1.buffers[q]? = m.buffers[q]?)
      ∧ (e.protocol = 0 → ∃ b0 b1, m.buffers[e.index]? = some b0
          ∧ m1.buffers[e.index]? = some b1
          ∧ b1.getValue = (if floatNe b0.getValue (eventValue m.evbuf payload)
              then eventValue m.evbuf payload else b0.getValue)) := by
  obtain ⟨hc, hpos, hidx⟩ := hd
  simp only [] at hpos hidx
  rw [drainStep_event m e payload rest hc hb hpos]
  by_cases hp : e.protocol = 0
  · have hlt := hidx hp
    have hsome : m.buffers[e.index]? = some m.buffers[e.index] := List.getElem?_eq_getElem hlt
    simp only [hp, beq_self_eq_true, if_true, hsome]
    have hne : ∀ q, ¬ Targets q (e, payload) → e.index ≠ q := by
      intro q hq heq
      exact hq ⟨hp, heq⟩
    cases hf : floatNe m.buffers[e.index].getValue
        (ofLe32 ((overwriteFront m.evbuf payload).take 4)) with
    | false =>
      refine ⟨_, rfl, rfl, rfl, rfl, rfl, rfl, fun _ _ => rfl, fun _ => ?_⟩
      exact ⟨_, _, rfl, hsome, by simp [eventValue, hf]⟩
    | true =>
      simp only [if_true]
      split
      · refine ⟨_, rfl, rfl, rfl, rfl, rfl, by simp, ?_, fun _ => ?_⟩
        · intro q hq
          simp [List.getElem?_set_ne (hne q hq)]
        · refine ⟨_, m.buffers[e.index].setValue
            (ofLe32 ((overwriteFront m.evbuf payload).take 4)), rfl, ?_, ?_⟩
          · simp only [List.getElem?_set_self hlt]
          · simp only [PortBuffer.getValue] at hf
            simp [eventValue, hf, PortBuffer.setValue, PortBuffer.getValue]
      · refine ⟨_, rfl, rfl, rfl, rfl, rfl, by simp, ?_, fun _ => ?_⟩
        · intro q hq
          simp [List.getElem?_set_ne (hne q hq)]
        · refine ⟨_, m.buffers[e.index].setValue
            (ofLe32 ((overwriteFront m.evbuf payload).take 4)), rfl, ?_, ?_⟩
          · simp only [List.getElem?_set_self hlt]
          · simp only [PortBuffer.getValue] at hf
            simp [eventValue, hf, PortBuffer.setValue, PortBuffer.getValue]
  · have hp2 : (e.protocol == 0) = false := by simpa using hp
    simp only [hp2, Bool.false_eq_true, if_false]
    exact ⟨_, rfl, rfl, rfl, rfl, rfl, rfl, fun _ _ => rfl, fun h => absurd h hp⟩

theorem drainLoop_succ_next (m m1 : LV2Module) (fuel : Nat) (h : m.drainStep = Step.next m1) :
    LV2Module.drainLoop (fuel + 1) m = LV2Module.drainLoop fuel m1 := by
  simp only [LV2Module.drainLoop, h]

/-- The drain loop consumes a run of drainable events at the head of the queue, one per
pass, and touches only the buffers of the ports these events target. -/
theorem drainLoop_events (evs : List (PortEvent × List Nat)) :
    ∀ (m : LV2Module) (tail : List Nat), m.events.bytes = frame evs ++ tail →
      (∀ e ∈ evs, Drainable m.buffers.length e) →
      ∃ m', (∀ fuel, LV2Module.drainLoop (evs.length + fuel) m = LV2Module.drainLoop fuel m')
        ∧ m'.events.bytes = tail ∧ m'.inst = m.inst ∧ m'.worker = m.worker
        ∧ m'.calls = m.calls ∧ m'.buffers.length = m.buffers.length
        ∧ (∀ q, (∀ x ∈ evs, ¬ Targets q x) → m'.buffers[q]? = m.buffers[q]?) := by
  induction evs with
  | nil =>
    intro m tail hb _
    exact ⟨m, by simp, by simpa [frame] using hb, rfl, rfl, rfl, rfl, fun _ _ => rfl⟩
  | cons e evs ih =>
    intro m tail hb hd
    obtain ⟨m1, hstep, hb1, hi1, hw1, hc1, hl1, hq1, _⟩ :=
      drainStep_drainable m e.1 e.2 (frame evs ++ tail) (hd e (List.mem_cons_self _ _))
        (by rw [hb, frame_cons, List.append_assoc])
    obtain ⟨m', hloop, hb', hi', hw', hc', hl', hq'⟩ := ih m1 tail hb1
      (by rw [hl1]; intro x hx; exact hd x (List.mem_cons_of_mem _ hx))
    refine ⟨m', ?_, hb', hi'.trans hi1, hw'.trans hw1, hc'.trans hc1, hl'.trans hl1, ?_⟩
    · intro fuel
      have hlen : (e :: evs).length + fuel = (evs.length + fuel) + 1 := by
        simp only [List.length_cons]; omega
      rw [hlen, drainLoop_succ_next m m1 _ hstep]
      exact hloop fuel
    · intro q hq
      rw [hq' q (fun x hx => hq x (List.mem_cons_of_mem _ hx)),
        hq1 q (hq e (List.mem_cons_self _ _))]

/-- On a queue of drainable events the drain loop terminates with the queue empty; a port
that no event targets keeps its buffer, and a port that is targeted holds the value of the
last protocol-0 event queued for it. -/
theorem drainLoop_framed (m : LV2Module) (evs : List (PortEvent × List Nat))
    (hb : m.events.bytes = frame evs) (hd : ∀ e ∈ evs, Drainable m.buffers.length e) :
    ∃ m', (∀ fuel, evs.length + 1 ≤ fuel → LV2Module.drainLoop fuel m = Outcome.done m')
      ∧ m'.events.bytes = [] ∧ m'.inst = m.inst ∧ m'.worker = m.worker
      ∧ m'.calls = m.calls ∧ m'.buffers.length = m.buffers.length
      ∧ (∀ q, (∀ x ∈ evs, ¬ Targets q x) → m'.buffers[q]? = m.buffers[q]?)
      ∧ (∀ pre e post, evs = pre ++ e :: post → e.1.protocol = 0 → 4 ≤ e.1.size →
          (∀ x ∈ post, ¬ Targets e.1.index x) →
          ∃ b, m'.buffers[e.1.index]? = some b ∧ HoldsFloat b.getValue (ofLe32 e.2)) := by
  obtain ⟨m', hloop, hb', hi', hw', hc', hl', hq'⟩ :=
    drainLoop_events evs m [] (by simpa using hb) hd
  have hdone : ∀ (x : LV2Module), x.events.bytes = [] →
      LV2Module.drainLoop 1 x = Outcome.done x := by
    intro x hx
    simp [LV2Module.drainLoop, drainStep_nil x hx]
  have hfin : ∀ fuel, evs.length + 1 ≤ fuel → LV2Module.drainLoop fuel m = Outcome.done m' := by
    intro fuel hf
    obtain ⟨k, rfl⟩ : ∃ k, fuel = evs.length + (k + 1) := ⟨fuel - evs.length - 1, by omega⟩
    rw [hloop (k + 1)]
    simp [LV2Module.drainLoop, drainStep_nil m' hb']
  refine ⟨m', hfin, hb', hi', hw', hc', hl', hq', ?_⟩
  intro pre e post hsplit hproto hsize hpost
  subst hsplit
  have hdpre : ∀ x ∈ pre, Drainable m.buffers.length x :=
    fun x hx => hd x (List.mem_append_left _ hx)
  have hde : Drainable m.buffers.length e :=
    hd e (List.mem_append_right _ (List.mem_cons_self _ _))
  have hdpost : ∀ x ∈ post, Drainable m.buffers.length x :=
    fun x hx => hd x (List.mem_append_right _ (List.mem_cons_of_mem _ hx))
  obtain ⟨ma, hla, hba, -, -, -, hlena, -⟩ :=
    drainLoop_events pre m (frame (e :: post)) (by rw [hb, frame_append]) hdpre
  obtain ⟨mb, hstepb, hbb, -, -, -, hlenb, -, hvalb⟩ :=
    drainStep_drainable ma e.1 e.2 (frame post) (by rw [hlena]; exact hde)
      (by rw [hba, frame_cons])
  obtain ⟨mc, hlc, hbc, -, -, -, -, hqc⟩ :=
    drainLoop_events post mb [] (by simpa using hbb)
      (by rw [hlenb, hlena]; exact hdpost)
  have hrun : LV2Module.drainLoop (pre.length + ((post.length + 1) + 1)) m = Outcome.done mc := by
    rw [hla ((post.length + 1) + 1), drainLoop_succ_next ma mb (post.length + 1) hstepb, hlc 1]
    exact hdone mc hbc
  have hrun' := hfin (pre.length + ((post.length + 1) + 1))
    (by simp only [List.length_append, List.length_cons]; omega)
  rw [hrun] at hrun'
  have hmc : mc = m' := by injection hrun'
  subst hmc
  obtain ⟨b0, b1, -, hb1, hv1⟩ := hvalb hproto
  refine ⟨b1, by rw [hqc e.1.index hpost]; exact hb1, ?_⟩
  rw [hv1, eventValue_of_four ma.evbuf e.2 (by rw [hde.1.2.2.2]; exact hsize)]
  exact holdsFloat_update _ _

theorem getElem?_map_reset_value (buffers : List PortBuffer) (q : Nat) :
    ((buffers.map (fun b => if b.isSequence && !b.isInput then b.reset else b))[q]?).map
        PortBuffer.getValue
      = (buffers[q]?).map PortBuffer.getValue := by
  rw [List.getElem?_map]
  cases buffers[q]? with
  | none => rfl
  | some b =>
    simp only [Option.map_some']
    split <;> rfl

theorem run_of_drained (plugin : Plugin) (m m1 : LV2Module) (h fuel nframes : Nat)
    (hdrain : LV2Module.drainLoop fuel m = Outcome.done m1) (hinst : m1.inst = some h) :
    ∃ m', m.run plugin fuel nframes = Outcome.done m'
      ∧ ∀ q, ProcessKeeps plugin h nframes q →
          (m'.buffers[q]?).map PortBuffer.getValue = (m1.buffers[q]?).map PortBuffer.getValue := by
  simp only [LV2Module.run, hdrain, LV2Module.runBlock, hinst]
  refine ⟨_, rfl, ?_⟩
  intro q hq
  simp only []
  rw [hq, getElem?_map_reset_value]

/-- C3: one pass of the drain loop over a complete protocol-0 event of positive size for a
valid port, whose value (the float read from `evbuf` once the payload is copied there, the
first four payload bytes when the payload has at least four) is `v`. The event is consumed
and draining continues with the next event in every case. A copy of the event, identical
header followed by identical payload, is appended to the notification queue if and only if
`v` differs from the value of the port and the notification queue can take header plus
payload. When `v` equals the value of the port, neither the port buffers nor the
notification queue change. When `v` differs, the port buffer is set to `v`, also when the
notification queue lacks room, and then the notification queue stays exactly as it was. -/
theorem drain_requeues_changes (m : LV2Module) (e : PortEvent) (payload rest : List Nat)
    (buffer : PortBuffer)
    (hc : Complete (e, payload)) (hpos : 0 < e.size) (hsum : pesize + e.size < 4294967296)
    (hproto : e.protocol = 0)
    (hb : m.events.bytes = e.encode ++ payload ++ rest)
    (hport : m.buffers[e.index]? = some buffer) :
    ∃ m1, m.drainStep = Step.next m1 ∧ m1.events.bytes = rest
      ∧ (m1.notifications.bytes = m.notifications.bytes ++ e.encode ++ payload
          ↔ (floatNe buffer.getValue (eventValue m.evbuf payload) = true
              ∧ m.notifications.canWrite (pesize + e.size) = true))
      ∧ (floatNe buffer.getValue (eventValue m.evbuf payload) = false →
          m1.buffers = m.buffers ∧ m1.notifications = m.notifications)
      ∧ (floatNe buffer.getValue (eventValue m.evbuf payload) = true →
          m1.buffers = m.buffers.set e.index (buffer.setValue (eventValue m.evbuf payload)))
      ∧ (m.notifications.canWrite (pesize + e.size) = false →
          m1.notifications = m.notifications)
      ∧ (4 ≤ e.size → eventValue m.evbuf payload = ofLe32 payload) := by
  have hmod : (pesize + e.size) % 4294967296 = pesize + e.size := Nat.mod_eq_of_lt hsum
  have hl : payload.length = e.size := hc.2.2.2
  have hneq : m.notifications.bytes ≠ m.notifications.bytes ++ e.encode ++ payload := by
    intro h
    have := congrArg List.length h
    simp [encode_length, pesize] at this
  have hfour : 4 ≤ e.size → eventValue m.evbuf payload = ofLe32 payload :=
    fun h => eventValue_of_four m.evbuf payload (by rw [hl]; exact h)
  rw [drainStep_event m e payload rest hc hb hpos]
  simp only [hproto, beq_self_eq_true, if_true, hport, hmod]
  have hev : ofLe32 ((overwriteFront m.evbuf payload).take 4) = eventValue m.evbuf payload := rfl
  rw [hev]
  cases hf : floatNe buffer.getValue (eventValue m.evbuf payload) with
  | false =>
    refine ⟨{ m with events := { m.events with bytes := rest },
                     evbuf := overwriteFront m.evbuf payload }, ?_, rfl, ?_, ?_, ?_, ?_, hfour⟩
    · simp
    · exact ⟨fun h => absurd h hneq, fun h => Bool.noConfusion h.1⟩
    · intro _; exact ⟨rfl, rfl⟩
    · intro h; exact Bool.noConfusion h
    · intro _; rfl
  | true =>
    cases hw : m.notifications.canWrite (pesize + e.size) with
    | false =>
      refine ⟨{ m with events := { m.events with bytes := rest },
                       evbuf := overwriteFront m.evbuf payload,
                       buffers := m.buffers.set e.index
                         (buffer.setValue (eventValue m.evbuf payload)) },
        ?_, rfl, ?_, ?_, ?_, ?_, hfour⟩
      · simp
      · exact ⟨fun h => absurd h hneq, fun h => Bool.noConfusion h.2⟩
      · intro h; exact Bool.noConfusion h
      · intro _; rfl
      · intro _; rfl
    | true =>
      have hw2 := ring_write_two m.notifications e.encode payload
        (by rw [encode_length, hl]; exact hw)
      refine ⟨{ m with events := { m.events with bytes := rest },
                       evbuf := overwriteFront m.evbuf payload,
                       buffers := m.buffers.set e.index
                         (buffer.setValue (eventValue m.evbuf payload)),
                       notifications := (m.notifications.write e.encode).write payload },
        ?_, rfl, ?_, ?_, ?_, ?_, hfour⟩
      · simp
      · rw [hw2]; exact ⟨fun _ => ⟨rfl, rfl⟩, fun _ => rfl⟩
      · intro h; exact Bool.noConfusion h
      · intro _; rfl
      · intro h; exact Bool.noConfusion h

theorem drain_requeues_changes_witness :
    Complete (PortEvent.mk 4 4 0, le32 half)
    ∧ (sampleModule.write 4 4 0 (le32 half)).events.bytes
        = (PortEvent.mk 4 4 0).encode ++ le32 half ++ []
    ∧ ∃ m1, (sampleModule.write 4 4 0 (le32 half)).drainStep = Step.next m1
        ∧ m1.buffers = sampleModule.buffers.set 4 ((controlBuffer 0).setValue half)
        ∧ m1.notifications.bytes = (PortEvent.mk 4 4 0).encode ++ le32 half := by
  have hc : Complete (PortEvent.mk 4 4 0, le32 half) := by unfold Complete; decide
  obtain ⟨m1, hstep, -, hiff, -, hset, -, hfour⟩ :=
    drain_requeues_changes (sampleModule.write 4 4 0 (le32 half)) (PortEvent.mk 4 4 0)
      (le32 half) [] (controlBuffer 0) hc (by decide) (by decide) rfl (by decide) (by decide)
  have hval : eventValue (sampleModule.write 4 4 0 (le32 half)).evbuf (le32 half) = half := by
    rw [hfour (by decide)]; decide
  rw [hval] at hset hiff
  refine ⟨hc, by decide, m1, hstep, hset (by decide), ?_⟩
  have := hiff.mpr ⟨by decide, by decide⟩
  simpa using this

/-! ## State restore and the lifecycle -/

theorem setPortValue_frame (world : World) (m : LV2Module) (pv : PortValue) :
    (m.setPortValue world pv).ports = m.ports ∧ (m.setPortValue world pv).inst = m.inst
      ∧ (m.setPortValue world pv).calls = m.calls
      ∧ (m.setPortValue world pv).hasUI = m.hasUI
      ∧ (m.setPortValue world pv).hasOnPortNotify = m.hasOnPortNotify := by
  unfold LV2Module.setPortValue
  split
  · exact ⟨rfl, rfl, rfl, rfl, rfl⟩
  · split
    · exact ⟨rfl, rfl, rfl, rfl, rfl⟩
    · split <;> exact ⟨rfl, rfl, rfl, rfl, rfl⟩

theorem setPortValue_congr (world : World) (m m1 : LV2Module) (pv : PortValue)
    (hp : m.ports = m1.ports) (hb : m.buffers = m1.buffers) :
    (m.setPortValue world pv).buffers = (m1.setPortValue world pv).buffers := by
  unfold LV2Module.setPortValue
  rw [hp, hb]
  split
  · exact hb
  · split
    · exact hb
    · split
      · exact hb
      · rfl

theorem restoreState_congr (world : World) (state : List PortValue) :
    ∀ (m m1 : LV2Module), m.ports = m1.ports → m.buffers = m1.buffers →
      (m.restoreState world state).buffers = (m1.restoreState world state).buffers := by
  induction state with
  | nil => intro m m1 _ hb; exact hb
  | cons pv state ih =>
    intro m m1 hp hb
    simp only [LV2Module.restoreState, List.foldl_cons]
    exact ih _ _
      ((setPortValue_frame world m pv).1.trans (hp.trans (setPortValue_frame world m1 pv).1.symm))
      (setPortValue_congr world m m1 pv hp hb)

theorem sendControlValues_buffers (m : LV2Module) :
    m.sendControlValues.buffers = m.buffers := by
  unfold LV2Module.sendControlValues
  split <;> rfl

theorem deactivate_frame (m : LV2Module) :
    m.deactivate.buffers = m.buffers ∧ m.deactivate.ports = m.ports
      ∧ m.deactivate.inst = m.inst ∧ m.deactivate.worker = m.worker
      ∧ m.deactivate.instantiations = m.instantiations := by
  unfold LV2Module.deactivate
  split
  · split <;> exact ⟨rfl, rfl, rfl, rfl, rfl⟩
  · exact ⟨rfl, rfl, rfl, rfl, rfl⟩

theorem freeInstance_frame (m : LV2Module) :
    m.freeInstance.buffers = m.buffers ∧ m.freeInstance.ports = m.ports
      ∧ m.freeInstance.inst = none ∧ m.freeInstance.instantiations = m.instantiations := by
  unfold LV2Module.freeInstance
  simp only []
  split
  · refine ⟨?_, ?_, rfl, ?_⟩
    · exact (deactivate_frame _).1
    · exact (deactivate_frame _).2.1
    · exact (deactivate_frame _).2.2.2.2
  · next h => exact ⟨rfl, rfl, h, rfl⟩

theorem attachWorker_foldl_frame (world : World) (nodes : List Nat) :
    ∀ m : LV2Module,
      (nodes.foldl (LV2Module.attachWorker world) m).buffers = m.buffers
      ∧ (nodes.foldl (LV2Module.attachWorker world) m).ports = m.ports
      ∧ (nodes.foldl (LV2Module.attachWorker world) m).inst = m.inst
      ∧ (nodes.foldl (LV2Module.attachWorker world) m).instantiations = m.instantiations
      ∧ (nodes.foldl (LV2Module.attachWorker world) m).calls = m.calls
      ∧ (nodes.foldl (LV2Module.attachWorker world) m).active = m.active
      ∧ (nodes.foldl (LV2Module.attachWorker world) m).currentSampleRate = m.currentSampleRate
      ∧ (nodes.foldl (LV2Module.attachWorker world) m).features
          = m.features ++ (nodes.filter (fun node => node == world.work_interface)).map
              (fun _ => Feature.worker)
      ∧ (nodes.foldl (LV2Module.attachWorker world) m).worker
          = (if world.work_interface ∈ nodes then some { bufferSize := 1, iface := none }
             else m.worker) := by
  induction nodes with
  | nil => intro m; simp
  | cons n nodes ih =>
    intro m
    simp only [List.foldl_cons]
    obtain ⟨h1, h2, h3, h4, h5, h6, h7, h8, h9⟩ := ih (LV2Module.attachWorker world m n)
    rw [h1, h2, h3, h4, h5, h6, h7, h8, h9]
    unfold LV2Module.attachWorker
    by_cases hn : n = world.work_interface
    · subst hn
      simp
    · have hn2 : (n == world.work_interface) = false := by simpa using hn
      have hn3 : ¬ world.work_interface = n := fun h => hn h.symm
      simp [hn2, hn3, List.filter_cons]

theorem sameHost_refl (m : LV2Module) : m.SameHost m :=
  ⟨rfl, rfl, rfl, rfl, rfl, rfl, rfl, rfl, rfl⟩

theorem sameHost_trans (a b c : LV2Module) (h1 : a.SameHost b) (h2 : b.SameHost c) :
    a.SameHost c := by
  obtain ⟨a1, a2, a3, a4, a5, a6, a7, a8, a9⟩ := h1
  obtain ⟨b1, b2, b3, b4, b5, b6, b7, b8, b9⟩ := h2
  exact ⟨b1.trans a1, b2.trans a2, b3.trans a3, b4.trans a4, b5.trans a5, b6.trans a6,
    b7.trans a7, b8.trans a8, b9.trans a9⟩

theorem logExtends_refl (m : LV2Module) : m.LogExtends m :=
  ⟨[], by simp, by simp⟩

theorem logExtends_trans (a b c : LV2Module) (h1 : a.LogExtends b) (h2 : b.LogExtends c) :
    a.LogExtends c := by
  obtain ⟨x, hx, hxl⟩ := h1
  obtain ⟨y, hy, hyl⟩ := h2
  refine ⟨x ++ y, by rw [hy, hx, List.append_assoc], ?_⟩
  intro c hc
  rcases List.mem_append.mp hc with h | h
  · exact hxl c h
  · exact hyl c h

theorem setPortValue_same (world : World) (m : LV2Module) (pv : PortValue) :
    m.SameHost (m.setPortValue world pv) ∧ (m.setPortValue world pv).calls = m.calls := by
  unfold LV2Module.setPortValue
  split
  · exact ⟨sameHost_refl m, rfl⟩
  · split
    · exact ⟨sameHost_refl m, rfl⟩
    · split
      · exact ⟨sameHost_refl m, rfl⟩
      · exact ⟨⟨rfl, rfl, rfl, rfl, rfl, rfl, rfl, rfl, rfl⟩, rfl⟩

theorem restoreState_same (world : World) (state : List PortValue) :
    ∀ m : LV2Module, m.SameHost (m.restoreState world state)
      ∧ (m.restoreState world state).calls = m.calls := by
  induction state with
  | nil => intro m; exact ⟨sameHost_refl m, rfl⟩
  | cons pv state ih =>
    intro m
    simp only [LV2Module.restoreState, List.foldl_cons]
    obtain ⟨h1, h2⟩ := setPortValue_same world m pv
    obtain ⟨h3, h4⟩ := ih (m.setPortValue world pv)
    exact ⟨sameHost_trans _ _ _ h1 h3, h4.trans h2⟩

theorem controlValueCalls_not_lifecycle (m : LV2Module) (port : PortDescription) :
    ∀ c ∈ m.controlValueCalls port, c.isLifecycle = false := by
  intro c hc
  unfold LV2Module.controlValueCalls at hc
  split at hc
  · simp at hc
  · simp only [List.mem_append] at hc
    rcases hc with h | h
    · split at h
      · simp only [List.mem_singleton] at h; subst h; rfl
      · simp at h
    · split at h
      · simp only [List.mem_singleton] at h; subst h; rfl
      · simp at h

theorem sendControlValues_same (m : LV2Module) :
    m.SameHost m.sendControlValues ∧ m.LogExtends m.sendControlValues := by
  unfold LV2Module.sendControlValues
  split
  · exact ⟨sameHost_refl m, logExtends_refl m⟩
  · refine ⟨⟨rfl, rfl, rfl, rfl, rfl, rfl, rfl, rfl, rfl⟩, _, rfl, ?_⟩
    intro c hc
    simp only [List.mem_flatten, List.mem_map] at hc
    obtain ⟨l, ⟨port, -, rfl⟩, hcl⟩ := hc
    exact controlValueCalls_not_lifecycle m port c hcl

/-- The default-state load changes the port buffers only through the state-restore
callback, and keeps the lifecycle state. -/
theorem loadDefaultState_spec (world : World) (plugin : Plugin) (m : LV2Module) :
    m.SameHost (m.loadDefaultState world plugin)
      ∧ m.LogExtends (m.loadDefaultState world plugin)
      ∧ ((m.loadDefaultState world plugin).buffers = m.buffers
          ∨ ∃ st, plugin.defaultState = some st ∧ m.inst.isSome = true
              ∧ (m.loadDefaultState world plugin).buffers = (m.restoreState world st).buffers) := by
  unfold LV2Module.loadDefaultState
  split
  · exact ⟨sameHost_refl m, logExtends_refl m, Or.inl rfl⟩
  · next h hinst =>
    split
    · exact ⟨sameHost_refl m, logExtends_refl m, Or.inl rfl⟩
    · next st hst =>
      obtain ⟨r1, r2⟩ := restoreState_same world st m
      obtain ⟨s1, s2⟩ := sendControlValues_same (m.restoreState world st)
      refine ⟨sameHost_trans _ _ _ r1 s1, ?_, Or.inr ⟨st, hst, by simp [hinst], ?_⟩⟩
      · obtain ⟨x, hx, hxl⟩ := s2
        exact ⟨x, by rw [hx, r2], hxl⟩
      · exact sendControlValues_buffers _

/-- The Worker Bridge that is attached when `instantiate` calls the native instantiate. -/
theorem attached_worker (world : World) (plugin : Plugin) (r : Nat) (m : LV2Module) :
    (plugin.extensionData.foldl (LV2Module.attachWorker world)
        { m.freeInstance with currentSampleRate := r, features := world.hostFeatures }).worker
      = (if world.work_interface ∈ plugin.extensionData
          then some { bufferSize := 1, iface := none } else m.freeInstance.worker) :=
  (attachWorker_foldl_frame world plugin.extensionData
    { m.freeInstance with currentSampleRate := r, features := world.hostFeatures }).2.2.2.2.2.2.2.2

/-- The branch of `instantiate` in which the native instantiate returns no handle. -/
theorem instantiate_native_none (world : World) (plugin : Plugin) (r : Nat) (m : LV2Module)
    (hnat : plugin.nativeInstantiate m.instantiations r (featureArray world plugin) = none) :
    (m.instantiate world plugin r).1 = Result.fail "Could not instantiate plugin."
      ∧ (m.instantiate world plugin r).2.inst = none
      ∧ (m.instantiate world plugin r).2.worker = none
      ∧ (m.instantiate world plugin r).2.buffers = m.buffers
      ∧ (m.instantiate world plugin r).2.active = m.freeInstance.active
      ∧ (m.instantiate world plugin r).2.currentSampleRate = r
      ∧ (m.instantiate world plugin r).2.calls
          = m.freeInstance.calls ++ [Call.nativeInstantiate r (featureArray world plugin)] := by
  obtain ⟨f1, -, -, f4, f5, f6, f7, f8, -⟩ :=
    attachWorker_foldl_frame world plugin.extensionData
      { m.freeInstance with currentSampleRate := r, features := world.hostFeatures }
  simp only [] at f1 f4 f5 f6 f7 f8
  unfold LV2Module.instantiate
  simp only []
  generalize plugin.extensionData.foldl (LV2Module.attachWorker world)
    { m.freeInstance with currentSampleRate := r, features := world.hostFeatures } = pre at *
  have hfeat : pre.features ++ [Feature.terminator] = featureArray world plugin := by
    rw [f8]; rfl
  rw [hfeat, f4, (freeInstance_frame m).2.2.2, hnat]
  exact ⟨rfl, rfl, rfl, f1.trans (freeInstance_frame m).1, f6, f7, by rw [← f5]⟩

/-- The branch of `instantiate` in which the instance reports worker-interface extension
data while no Worker Bridge is attached: the early return keeps the new instance. -/
theorem instantiate_worker_missing (world : World) (plugin : Plugin) (r : Nat) (m : LV2Module)
    (h : Nat)
    (hnat : plugin.nativeInstantiate m.instantiations r (featureArray world plugin) = some h)
    (hdata : plugin.workerInterfaceData h = true)
    (hnone : (if world.work_interface ∈ plugin.extensionData
        then some { bufferSize := 1, iface := none } else m.freeInstance.worker) = none) :
    (m.instantiate world plugin r).1
        = Result.fail "Could not get worker feature whereas extension data exists."
      ∧ (m.instantiate world plugin r).2.inst = some h
      ∧ (m.instantiate world plugin r).2.worker = none
      ∧ (m.instantiate world plugin r).2.buffers = m.buffers
      ∧ (m.instantiate world plugin r).2.active = m.freeInstance.active
      ∧ (m.instantiate world plugin r).2.currentSampleRate = r
      ∧ (m.instantiate world plugin r).2.calls
          = m.freeInstance.calls ++ [Call.nativeInstantiate r (featureArray world plugin)] := by
  obtain ⟨f1, -, -, f4, f5, f6, f7, f8, f9⟩ :=
    attachWorker_foldl_frame world plugin.extensionData
      { m.freeInstance with currentSampleRate := r, features := world.hostFeatures }
  simp only [] at f1 f4 f5 f6 f7 f8 f9
  rw [hnone] at f9
  unfold LV2Module.instantiate
  simp only []
  generalize plugin.extensionData.foldl (LV2Module.attachWorker world)
    { m.freeInstance with currentSampleRate := r, features := world.hostFeatures } = pre at *
  have hfeat : pre.features ++ [Feature.terminator] = featureArray world plugin := by
    rw [f8]; rfl
  rw [hfeat, f4, (freeInstance_frame m).2.2.2, hnat]
  dsimp only
  rw [if_pos hdata]
  split
  · exact ⟨rfl, rfl, by assumption, f1.trans (freeInstance_frame m).1, f6, f7, by rw [← f5]⟩
  · next w hw => rw [f9] at hw; cases hw

/-- The remaining branches of `instantiate`: the result is ok, the new instance is held,
the Worker Bridge stays exactly when the instance reports the worker interface, the port
buffers change through the default-state load only, and the log gains the native
instantiate followed by calls that are no lifecycle entry points. -/
theorem instantiate_ok (world : World) (plugin : Plugin) (r : Nat) (m : LV2Module) (h : Nat)
    (hnat : plugin.nativeInstantiate m.instantiations r (featureArray world plugin) = some h)
    (hok : ¬ (plugin.workerInterfaceData h = true
      ∧ (if world.work_interface ∈ plugin.extensionData
          then some { bufferSize := 1, iface := none } else m.freeInstance.worker) = none)) :
    (m.instantiate world plugin r).1 = Result.ok
      ∧ (m.instantiate world plugin r).2.inst = some h
      ∧ (m.instantiate world plugin r).2.worker
          = (if plugin.workerInterfaceData h then some { bufferSize := 2048, iface := some h }
             else none)
      ∧ ((m.instantiate world plugin r).2.buffers = m.buffers
          ∨ ∃ st, plugin.defaultState = some st
              ∧ (m.instantiate world plugin r).2.buffers = (m.restoreState world st).buffers)
      ∧ (m.instantiate world plugin r).2.active = m.freeInstance.active
      ∧ (m.instantiate world plugin r).2.currentSampleRate = r
      ∧ ∃ extra, (m.instantiate world plugin r).2.calls
          = m.freeInstance.calls ++ [Call.nativeInstantiate r (featureArray world plugin)]
              ++ extra
          ∧ ∀ c ∈ extra, c.isLifecycle = false := by
  obtain ⟨f1, f2, -, f4, f5, f6, f7, f8, f9⟩ :=
    attachWorker_foldl_frame world plugin.extensionData
      { m.freeInstance with currentSampleRate := r, features := world.hostFeatures }
  simp only [] at f1 f2 f4 f5 f6 f7 f8 f9
  rw [← f9] at hok
  unfold LV2Module.instantiate
  simp only []
  generalize plugin.extensionData.foldl (LV2Module.attachWorker world)
    { m.freeInstance with currentSampleRate := r, features := world.hostFeatures } = pre at *
  have hfeat : pre.features ++ [Feature.terminator] = featureArray world plugin := by
    rw [f8]; rfl
  have hbuf : pre.buffers = m.buffers := f1.trans (freeInstance_frame m).1
  have hports : pre.ports = m.ports := f2.trans (freeInstance_frame m).2.1
  rw [hfeat, f4, (freeInstance_frame m).2.2.2, hnat]
  dsimp only
  have key : ∀ m6 : LV2Module, m6.inst = some h → m6.buffers = m.buffers → m6.ports = m.ports →
      m6.active = m.freeInstance.active → m6.currentSampleRate = r →
      m6.calls = m.freeInstance.calls ++ [Call.nativeInstantiate r (featureArray world plugin)] →
      (m6.loadDefaultState world plugin).inst = some h
      ∧ (m6.loadDefaultState world plugin).worker = m6.worker
      ∧ ((m6.loadDefaultState world plugin).buffers = m.buffers
          ∨ ∃ st, plugin.defaultState = some st
              ∧ (m6.loadDefaultState world plugin).buffers = (m.restoreState world st).buffers)
      ∧ (m6.loadDefaultState world plugin).active = m.freeInstance.active
      ∧ (m6.loadDefaultState world plugin).currentSampleRate = r
      ∧ ∃ extra, (m6.loadDefaultState world plugin).calls ++ [Call.startTimerHz 60]
          = m.freeInstance.calls ++ [Call.nativeInstantiate r (featureArray world plugin)]
              ++ extra
          ∧ ∀ c ∈ extra, c.isLifecycle = false := by
    intro m6 h1 h2 h3 h4 h5 h6
    obtain ⟨⟨s1, s2, s3, s4, -⟩, ⟨x, hx, hxl⟩, hb⟩ := loadDefaultState_spec world plugin m6
    refine ⟨s1.trans h1, s3, ?_, s2.trans h4, s4.trans h5, x ++ [Call.startTimerHz 60], ?_, ?_⟩
    · rcases hb with hb | ⟨st, hst, -, hb⟩
      · exact Or.inl (hb.trans h2)
      · exact Or.inr ⟨st, hst, hb.trans (restoreState_congr world st m6 m h3 h2)⟩
    · rw [hx, h6, List.append_assoc]
    · intro c hc
      rcases List.mem_append.mp hc with hc | hc
      · exact hxl c hc
      · simp only [List.mem_singleton] at hc; subst hc; rfl
  by_cases hdata : plugin.workerInterfaceData h = true
  · rw [if_pos hdata]
    simp only [hdata, true_and] at hok
    split
    · next hw => exact absurd hw hok
    · obtain ⟨k1, k2, k3, k4, k5, k6⟩ := key
        { pre with
          inst := some h, instantiations := m.instantiations + 1
          calls := pre.calls ++ [Call.nativeInstantiate r (featureArray world plugin)]
          features := featureArray world plugin
          worker := some { bufferSize := 2048, iface := some h } }
        rfl hbuf hports f6 f7 (by simp only [f5])
      exact ⟨rfl, k1, by rw [if_pos hdata]; exact k2, k3, k4, k5, k6⟩
  · rw [if_neg hdata]
    split
    · obtain ⟨k1, k2, k3, k4, k5, k6⟩ := key
        { pre with
          inst := some h, instantiations := m.instantiations + 1
          calls := pre.calls ++ [Call.nativeInstantiate r (featureArray world plugin)]
          features := (featureArray world plugin).erase Feature.worker
          worker := none }
        rfl hbuf hports f6 f7 (by simp only [f5])
      exact ⟨rfl, k1, by rw [if_neg hdata]; exact k2, k3, k4, k5, k6⟩
    · next hw =>
      obtain ⟨k1, k2, k3, k4, k5, k6⟩ := key
        { pre with
          inst := some h, instantiations := m.instantiations + 1
          calls := pre.calls ++ [Call.nativeInstantiate r (featureArray world plugin)]
          features := featureArray world plugin }
        rfl hbuf hports f6 f7 (by simp only [f5])
      exact ⟨rfl, k1, by rw [if_neg hdata]; exact k2.trans hw, k3, k4, k5, k6⟩

theorem freeInstance_spec (m : LV2Module) :
    m.freeInstance.worker = (if m.inst.isSome then none else m.worker)
      ∧ m.freeInstance.active = (if m.inst.isSome then false else m.active)
      ∧ m.freeInstance.calls = m.calls ++ [Call.stopTimer]
          ++ (match m.inst with
              | some h => (if m.active then [Call.nativeDeactivate h] else []) ++ [Call.nativeFree h]
              | none => []) := by
  unfold LV2Module.freeInstance LV2Module.deactivate
  cases hi : m.inst with
  | none => simp
  | some h =>
    cases ha : m.active <;> simp [ha]

/-- In a module that keeps its Worker Bridge only while it holds an instance, the bridge
attached when `instantiate` reaches the native instantiate is the one created for the
declared worker interface, if any. -/
theorem attached_none_iff (world : World) (plugin : Plugin) (m : LV2Module)
    (hinv : m.inst = none → m.worker = none) :
    (if world.work_interface ∈ plugin.extensionData
        then some ({ bufferSize := 1, iface := none } : WorkerFeature)
        else m.freeInstance.worker) = none
      ↔ world.work_interface ∉ plugin.extensionData := by
  have hfree : m.freeInstance.worker = none := by
    rw [(freeInstance_spec m).1]
    cases hi : m.inst with
    | none => simpa using hinv hi
    | some h => simp
  by_cases hmem : world.work_interface ∈ plugin.extensionData
  · simp [hmem]
  · simp [hmem, hfree]

/-- C7: `instantiate` returns a failure exactly when the native instantiate returns no
handle, or the new instance reports worker-interface extension data while no Worker Bridge
was attached, which is when the extension data declared by the plugin does not include the
worker interface; in every other case it returns ok. -/
theorem instantiate_fails_iff (world : World) (plugin : Plugin) (r : Nat) (m : LV2Module)
    (hinv : m.inst = none → m.worker = none) :
    ((m.instantiate world plugin r).1.failed = true ↔
      (plugin.nativeInstantiate m.instantiations r (featureArray world plugin) = none
        ∨ ∃ h, plugin.nativeInstantiate m.instantiations r (featureArray world plugin) = some h
            ∧ plugin.workerInterfaceData h = true
            ∧ world.work_interface ∉ plugin.extensionData))
    ∧ ((m.instantiate world plugin r).1.failed = false ↔
        (m.instantiate world plugin r).1 = Result.ok) := by
  constructor
  · cases hnat : plugin.nativeInstantiate m.instantiations r (featureArray world plugin) with
    | none =>
      rw [(instantiate_native_none world plugin r m hnat).1]
      simp [Result.failed]
    | some h =>
      by_cases hc : plugin.workerInterfaceData h = true
          ∧ (if world.work_interface ∈ plugin.extensionData
              then some { bufferSize := 1, iface := none } else m.freeInstance.worker) = none
      · rw [(instantiate_worker_missing world plugin r m h hnat hc.1 hc.2).1]
        have := (attached_none_iff world plugin m hinv).mp hc.2
        simp [Result.failed, hc.1, this]
      · rw [(instantiate_ok world plugin r m h hnat hc).1]
        simp only [Result.failed, Bool.false_eq_true, false_iff, not_or, not_exists, not_and]
        refine ⟨by simp, ?_⟩
        intro h1 hh hd hnot
        cases hh
        exact hc ⟨hd, (attached_none_iff world plugin m hinv).mpr hnot⟩
  · cases (m.instantiate world plugin r).1 <;> simp [Result.failed]

theorem instantiate_fails_iff_witness :
    (freshModule.inst = none → freshModule.worker = none)
    ∧ (freshModule.instantiate sampleWorld undeclaredWorkerPlugin 48000).1.failed = true
    ∧ (freshModule.instantiate sampleWorld failingPlugin 48000).1.failed = true
    ∧ (freshModule.instantiate sampleWorld samplePlugin 48000).1 = Result.ok :=
  ⟨fun _ => rfl,
    (instantiate_fails_iff sampleWorld undeclaredWorkerPlugin 48000 freshModule (fun _ => rfl)).1.mpr
      (Or.inr ⟨1, rfl, rfl, by decide⟩),
    (instantiate_fails_iff sampleWorld failingPlugin 48000 freshModule (fun _ => rfl)).1.mpr
      (Or.inl rfl),
    (instantiate_fails_iff sampleWorld samplePlugin 48000 freshModule (fun _ => rfl)).2.mp
      (by decide)⟩

/-- C8: when the native instantiate returns no handle, `instantiate` reports a failure and
leaves the module uninstantiated whatever its prior state: `isLoaded` is false, `isActive`
is false, and no Worker Bridge is attached. -/
theorem instantiate_native_failure (world : World) (plugin : Plugin) (r : Nat) (m : LV2Module)
    (hnat : plugin.nativeInstantiate m.instantiations r (featureArray world plugin) = none) :
    (m.instantiate world plugin r).1.failed = true
      ∧ (m.instantiate world plugin r).2.isLoaded = false
      ∧ (m.instantiate world plugin r).2.isActive = false
      ∧ (m.instantiate world plugin r).2.worker = none := by
  obtain ⟨h1, h2, h3, -⟩ := instantiate_native_none world plugin r m hnat
  refine ⟨by rw [h1]; rfl, by simp [LV2Module.isLoaded, h2], by simp [LV2Module.isActive, h2], h3⟩

theorem instantiate_native_failure_witness :
    activeModule.isActive = true ∧ activeModule.worker.isSome = true
    ∧ (activeModule.instantiate sampleWorld failingPlugin 44100).1.failed = true
    ∧ (activeModule.instantiate sampleWorld failingPlugin 44100).2.isLoaded = false
    ∧ (activeModule.instantiate sampleWorld failingPlugin 44100).2.isActive = false
    ∧ (activeModule.instantiate sampleWorld failingPlugin 44100).2.worker = none :=
  ⟨by decide, by decide, instantiate_native_failure sampleWorld failingPlugin 44100 activeModule rfl⟩

/-- C9 (fails on the code): when the new instance reports worker-interface extension data
while the plugin did not declare the worker interface, `instantiate` returns a failure by
an early return that neither frees nor clears the new instance: the module stays loaded
with the handle the native instantiate returned, and no native free was called for it. -/
theorem instantiate_worker_failure_stays_loaded (world : World) (plugin : Plugin) (r : Nat)
    (m : LV2Module) (h : Nat)
    (hinv : m.inst = none → m.worker = none)
    (hnat : plugin.nativeInstantiate m.instantiations r (featureArray world plugin) = some h)
    (hdata : plugin.workerInterfaceData h = true)
    (hundeclared : world.work_interface ∉ plugin.extensionData) :
    (m.instantiate world plugin r).1.failed = true
      ∧ (m.instantiate world plugin r).2.isLoaded = true
      ∧ (m.instantiate world plugin r).2.inst = some h
      ∧ (m.instantiate world plugin r).2.calls
          = m.freeInstance.calls ++ [Call.nativeInstantiate r (featureArray world plugin)] := by
  obtain ⟨h1, h2, -, -, -, -, h7⟩ := instantiate_worker_missing world plugin r m h hnat hdata
    ((attached_none_iff world plugin m hinv).mpr hundeclared)
  exact ⟨by rw [h1]; rfl, by simp [LV2Module.isLoaded, h2], h2, h7⟩

theorem instantiate_worker_failure_stays_loaded_witness :
    (freshModule.inst = none → freshModule.worker = none)
    ∧ sampleWorld.work_interface ∉ undeclaredWorkerPlugin.extensionData
    ∧ (freshModule.instantiate sampleWorld undeclaredWorkerPlugin 48000).1.failed = true
    ∧ (freshModule.instantiate sampleWorld undeclaredWorkerPlugin 48000).2.isLoaded = true :=
  ⟨fun _ => rfl, by decide,
    (instantiate_worker_failure_stays_loaded sampleWorld undeclaredWorkerPlugin 48000 freshModule
      1 (fun _ => rfl) rfl rfl (by decide)).1,
    (instantiate_worker_failure_stays_loaded sampleWorld undeclaredWorkerPlugin 48000 freshModule
      1 (fun _ => rfl) rfl rfl (by decide)).2.1⟩

/-- The native calls `instantiate` makes before it calls the native instantiate. -/
theorem instantiate_calls (world : World) (plugin : Plugin) (r : Nat) (m : LV2Module) :
    ∃ extra, (m.instantiate world plugin r).2.calls
        = m.freeInstance.calls ++ [Call.nativeInstantiate r (featureArray world plugin)] ++ extra
      ∧ ∀ c ∈ extra, c.isLifecycle = false := by
  cases hnat : plugin.nativeInstantiate m.instantiations r (featureArray world plugin) with
  | none =>
    exact ⟨[], by rw [(instantiate_native_none world plugin r m hnat).2.2.2.2.2.2]; simp,
      by simp⟩
  | some h =>
    by_cases hc : plugin.workerInterfaceData h = true
        ∧ (if world.work_interface ∈ plugin.extensionData
            then some { bufferSize := 1, iface := none } else m.freeInstance.worker) = none
    · exact ⟨[], by
        rw [(instantiate_worker_missing world plugin r m h hnat hc.1 hc.2).2.2.2.2.2.2]; simp,
        by simp⟩
    · exact (instantiate_ok world plugin r m h hnat hc).2.2.2.2.2.2

theorem instantiate_ok_lifecycle (world : World) (plugin : Plugin) (r : Nat) (m : LV2Module)
    (hinv : m.inst = none → m.active = false)
    (hok : (m.instantiate world plugin r).1 = Result.ok) :
    (m.instantiate world plugin r).2.lifecycle = (true, false, r) := by
  have hfree : m.freeInstance.active = false := by
    rw [(freeInstance_spec m).2.1]
    cases hi : m.inst with
    | none => simpa using hinv hi
    | some h => simp
  cases hnat : plugin.nativeInstantiate m.instantiations r (featureArray world plugin) with
  | none =>
    rw [(instantiate_native_none world plugin r m hnat).1] at hok
    cases hok
  | some h =>
    by_cases hc : plugin.workerInterfaceData h = true
        ∧ (if world.work_interface ∈ plugin.extensionData
            then some { bufferSize := 1, iface := none } else m.freeInstance.worker) = none
    · rw [(instantiate_worker_missing world plugin r m h hnat hc.1 hc.2).1] at hok
      cases hok
    · obtain ⟨-, h2, -, -, h5, h6, -⟩ := instantiate_ok world plugin r m h hnat hc
      simp [LV2Module.lifecycle, LV2Module.isLoaded, LV2Module.isActive, h2, h5, h6, hfree]

/-- C10: `instantiate` frees first and is idempotent. From any prior state the log gains,
in this order: the stop of the timer, for an existing instance its native deactivate (only
when it is active) and exactly one native free, then the native instantiate, then no
further lifecycle call. On success the module is loaded, inactive, at sample rate `r`; so a
second successful `instantiate (r)` leaves the lifecycle state of the first. -/
theorem instantiate_frees_first (world : World) (plugin : Plugin) (r : Nat) (m : LV2Module)
    (hinv : m.inst = none → m.active = false) :
    (∃ extra, (m.instantiate world plugin r).2.calls
        = m.calls ++ [Call.stopTimer]
          ++ (match m.inst with
              | some h => (if m.active then [Call.nativeDeactivate h] else []) ++ [Call.nativeFree h]
              | none => [])
          ++ [Call.nativeInstantiate r (featureArray world plugin)] ++ extra
      ∧ ∀ c ∈ extra, c.isLifecycle = false)
    ∧ ((m.instantiate world plugin r).1 = Result.ok →
        (m.instantiate world plugin r).2.lifecycle = (true, false, r))
    ∧ ((m.instantiate world plugin r).1 = Result.ok →
        ((m.instantiate world plugin r).2.instantiate world plugin r).1 = Result.ok →
        ((m.instantiate world plugin r).2.instantiate world plugin r).2.lifecycle
          = (m.instantiate world plugin r).2.lifecycle) := by
  refine ⟨?_, instantiate_ok_lifecycle world plugin r m hinv, ?_⟩
  · obtain ⟨extra, hcalls, hextra⟩ := instantiate_calls world plugin r m
    exact ⟨extra, by rw [hcalls, (freeInstance_spec m).2.2], hextra⟩
  · intro h1 h2
    have hl1 := instantiate_ok_lifecycle world plugin r m hinv h1
    have hloaded : (m.instantiate world plugin r).2.inst ≠ none := by
      intro hn
      have := congrArg Prod.fst hl1
      simp [LV2Module.lifecycle, LV2Module.isLoaded, hn] at this
    rw [instantiate_ok_lifecycle world plugin r _ (fun hn => absurd hn hloaded) h2, hl1]

theorem instantiate_frees_first_witness :
    (activeModule.inst = none → activeModule.active = false)
    ∧ (activeModule.instantiate sampleWorld samplePlugin 44100).1 = Result.ok
    ∧ (activeModule.instantiate sampleWorld samplePlugin 44100).2.lifecycle = (true, false, 44100)
    ∧ (activeModule.instantiate sampleWorld samplePlugin 44100).2.calls
        = [Call.stopTimer, Call.nativeDeactivate 1, Call.nativeFree 1,
            Call.nativeInstantiate 44100 [Feature.host 0, Feature.terminator],
            Call.startTimerHz 60] :=
  ⟨fun h => Option.noConfusion h, by decide,
    (instantiate_frees_first sampleWorld samplePlugin 44100 activeModule
      (fun h => Option.noConfusion h)).2.1 (by decide),
    by decide⟩

/-! ## Activation and sample rate -/

theorem activate_eq (m : LV2Module) (h : Nat) (hi : m.inst = some h) (ha : m.active = false) :
    m.activate = { m with calls := m.calls ++ [Call.nativeActivate h], active := true } := by
  unfold LV2Module.activate
  simp [hi, ha]

theorem activate_noop (m : LV2Module) (h : m.inst = none ∨ m.active = true) :
    m.activate = m := by
  unfold LV2Module.activate
  rcases h with h | h
  · simp [h]
  · cases hi : m.inst <;> simp [h]

theorem deactivate_eq (m : LV2Module) (h : Nat) (hi : m.inst = some h) (ha : m.active = true) :
    m.deactivate = { m with calls := m.calls ++ [Call.nativeDeactivate h], active := false } := by
  unfold LV2Module.deactivate
  simp [hi, ha]

theorem deactivate_noop (m : LV2Module) (h : m.inst = none ∨ m.active = false) :
    m.deactivate = m := by
  unfold LV2Module.deactivate
  rcases h with h | h
  · simp [h]
  · cases hi : m.inst <;> simp [h]

/-- C11: `activate` has an effect only when the module is instantiated and inactive, and
then calls the native activate exactly once and sets the active flag; in every other state
it returns the module unchanged, with no call. Symmetrically `deactivate` has an effect
only when instantiated and active. Hence `activate (); activate ()` equals `activate ()`
and `deactivate (); deactivate ()` equals `deactivate ()`. -/
theorem activate_deactivate_guarded (m : LV2Module) :
    (∀ h, m.inst = some h → m.active = false →
        m.activate = { m with calls := m.calls ++ [Call.nativeActivate h], active := true })
    ∧ ((m.inst = none ∨ m.active = true) → m.activate = m)
    ∧ (∀ h, m.inst = some h → m.active = true →
        m.deactivate
          = { m with calls := m.calls ++ [Call.nativeDeactivate h], active := false })
    ∧ ((m.inst = none ∨ m.active = false) → m.deactivate = m)
    ∧ m.activate.activate = m.activate
    ∧ m.deactivate.deactivate = m.deactivate := by
  refine ⟨activate_eq m, activate_noop m, deactivate_eq m, deactivate_noop m, ?_, ?_⟩
  · cases hi : m.inst with
    | none => rw [activate_noop m (Or.inl hi), activate_noop m (Or.inl hi)]
    | some h =>
      cases ha : m.active with
      | true => rw [activate_noop m (Or.inr ha), activate_noop m (Or.inr ha)]
      | false =>
        rw [activate_eq m h hi ha]
        exact activate_noop _ (Or.inr rfl)
  · cases hi : m.inst with
    | none => rw [deactivate_noop m (Or.inl hi), deactivate_noop m (Or.inl hi)]
    | some h =>
      cases ha : m.active with
      | false => rw [deactivate_noop m (Or.inr ha), deactivate_noop m (Or.inr ha)]
      | true =>
        rw [deactivate_eq m h hi ha]
        exact deactivate_noop _ (Or.inr rfl)

theorem activate_deactivate_guarded_witness :
    sampleModule.inst = some 1 ∧ sampleModule.active = false
    ∧ sampleModule.activate.calls = [Call.nativeActivate 1]
    ∧ sampleModule.activate.active = true
    ∧ freshModule.activate = freshModule := by
  refine ⟨rfl, rfl, ?_, ?_, (activate_deactivate_guarded freshModule).2.1 (Or.inl rfl)⟩
  · rw [(activate_deactivate_guarded sampleModule).1 1 rfl rfl]; rfl
  · rw [(activate_deactivate_guarded sampleModule).1 1 rfl rfl]

/-- C14: `setSampleRate (r)` changes nothing unless the module is instantiated and `r`
differs from the current rate: when `r` equals the current sample rate (the C++ `==` on
doubles), or when the module holds no instance, the module is returned as it is: no call is
logged, and the instance, the active flag and the stored sample rate are unchanged. -/
theorem setSampleRate_noop (world : World) (plugin : Plugin) (r : Nat) (m : LV2Module)
    (h : doubleEq r m.currentSampleRate = true ∨ m.inst = none) :
    m.setSampleRate world plugin r = m := by
  unfold LV2Module.setSampleRate
  rcases h with h | h
  · simp [h]
  · split
    · rfl
    · simp [h]

theorem setSampleRate_noop_witness :
    freshModule.inst = none ∧ freshModule.setSampleRate sampleWorld samplePlugin 96000 = freshModule
    ∧ doubleEq 48000 sampleModule.currentSampleRate = true
    ∧ sampleModule.setSampleRate sampleWorld samplePlugin 48000 = sampleModule :=
  ⟨rfl, setSampleRate_noop sampleWorld samplePlugin 96000 freshModule (Or.inr rfl), by decide,
    setSampleRate_noop sampleWorld samplePlugin 48000 sampleModule (Or.inl (by decide))⟩

/-- C13: for an instantiated module and a rate `r` that differs from the current sample
rate, if the re-instantiation succeeds then after `setSampleRate (r)` the module is
instantiated, its current sample rate is `r`, and `isActive ()` has the value it had before
the call; an active module ends active at the new rate. -/
theorem setSampleRate_keeps_active (world : World) (plugin : Plugin) (r : Nat) (m : LV2Module)
    (hloaded : m.isLoaded = true) (hdiff : doubleEq r m.currentSampleRate = false)
    (hok : (m.freeInstance.instantiate world plugin r).1 = Result.ok) :
    (m.setSampleRate world plugin r).isLoaded = true
      ∧ (m.setSampleRate world plugin r).currentSampleRate = r
      ∧ (m.setSampleRate world plugin r).isActive = m.isActive := by
  obtain ⟨h0, hi⟩ : ∃ h0, m.inst = some h0 := by
    cases hm : m.inst with
    | none => simp [LV2Module.isLoaded, hm] at hloaded
    | some h0 => exact ⟨h0, rfl⟩
  have hfree := freeInstance_frame m
  have hl := instantiate_ok_lifecycle world plugin r m.freeInstance
    (fun _ => by rw [(freeInstance_spec m).2.1]; simp [hi]) hok
  simp only [LV2Module.lifecycle, Prod.mk.injEq] at hl
  obtain ⟨hl1, hl2, hl3⟩ := hl
  obtain ⟨h1, hi1⟩ : ∃ h1, (m.freeInstance.instantiate world plugin r).2.inst = some h1 := by
    cases hm : (m.freeInstance.instantiate world plugin r).2.inst with
    | none => simp [LV2Module.isLoaded, hm] at hl1
    | some h1 => exact ⟨h1, rfl⟩
  have ha1 : (m.freeInstance.instantiate world plugin r).2.active = false := by
    simpa [LV2Module.isActive, hi1] using hl2
  unfold LV2Module.setSampleRate
  simp only [hdiff, Bool.false_eq_true, if_false, hi]
  cases hact : m.isActive with
  | false => simp [hl1, hl2, hl3]
  | true =>
    simp only [if_true]
    rw [activate_eq _ h1 hi1 ha1]
    simp [LV2Module.isLoaded, LV2Module.isActive, hi1, hl3]

theorem setSampleRate_keeps_active_witness :
    activeModule.isLoaded = true ∧ activeModule.isActive = true
    ∧ doubleEq 96000 activeModule.currentSampleRate = false
    ∧ (activeModule.setSampleRate sampleWorld samplePlugin 96000).isLoaded = true
    ∧ (activeModule.setSampleRate sampleWorld samplePlugin 96000).currentSampleRate = 96000
    ∧ (activeModule.setSampleRate sampleWorld samplePlugin 96000).isActive
        = activeModule.isActive :=
  ⟨by decide, by decide, by decide,
    setSampleRate_keeps_active sampleWorld samplePlugin 96000 activeModule (by decide) (by decide)
      (by decide)⟩

/-! ## The protocol of the native instance -/

theorem setPortValue_instantiations (world : World) (m : LV2Module) (pv : PortValue) :
    (m.setPortValue world pv).instantiations = m.instantiations := by
  unfold LV2Module.setPortValue
  split
  · rfl
  · split
    · rfl
    · split <;> rfl

theorem restoreState_instantiations (world : World) (state : List PortValue) :
    ∀ m : LV2Module, (m.restoreState world state).instantiations = m.instantiations := by
  induction state with
  | nil => intro m; rfl
  | cons pv state ih =>
    intro m
    simp only [LV2Module.restoreState, List.foldl_cons]
    have := ih (m.setPortValue world pv)
    simp only [LV2Module.restoreState] at this
    rw [this, setPortValue_instantiations]

theorem loadDefaultState_instantiations (world : World) (plugin : Plugin) (m : LV2Module) :
    (m.loadDefaultState world plugin).instantiations = m.instantiations := by
  unfold LV2Module.loadDefaultState
  split
  · rfl
  · split
    · rfl
    · unfold LV2Module.sendControlValues
      split
      · exact restoreState_instantiations world _ m
      · exact restoreState_instantiations world _ m

theorem instantiate_instantiations (world : World) (plugin : Plugin) (r : Nat) (m : LV2Module) :
    (m.instantiate world plugin r).2.instantiations = m.instantiations + 1 := by
  obtain ⟨-, -, -, f4, -, -, -, -, -⟩ :=
    attachWorker_foldl_frame world plugin.extensionData
      { m.freeInstance with currentSampleRate := r, features := world.hostFeatures }
  simp only [] at f4
  unfold LV2Module.instantiate
  simp only []
  generalize plugin.extensionData.foldl (LV2Module.attachWorker world)
    { m.freeInstance with currentSampleRate := r, features := world.hostFeatures } = pre at *
  rw [f4, (freeInstance_frame m).2.2.2]
  split
  · rfl
  · split
    · split
      · rfl
      · exact loadDefaultState_instantiations world plugin _
    · dsimp only
      rw [loadDefaultState_instantiations]
      split <;> rfl

/-- The instance, the active flag and the log of calls after `instantiate`. -/
theorem instantiate_native (world : World) (plugin : Plugin) (r : Nat) (m : LV2Module) :
    (m.instantiate world plugin r).2.inst
        = plugin.nativeInstantiate m.instantiations r (featureArray world plugin)
      ∧ (m.instantiate world plugin r).2.active = m.freeInstance.active
      ∧ ∃ extra, (m.instantiate world plugin r).2.calls
          = m.freeInstance.calls ++ [Call.nativeInstantiate r (featureArray world plugin)]
              ++ extra
          ∧ ∀ c ∈ extra, c.isLifecycle = false := by
  refine ⟨?_, ?_, instantiate_calls world plugin r m⟩
  · cases hnat : plugin.nativeInstantiate m.instantiations r (featureArray world plugin) with
    | none => exact (instantiate_native_none world plugin r m hnat).2.1
    | some h =>
      by_cases hc : plugin.workerInterfaceData h = true
          ∧ (if world.work_interface ∈ plugin.extensionData
              then some { bufferSize := 1, iface := none } else m.freeInstance.worker) = none
      · exact (instantiate_worker_missing world plugin r m h hnat hc.1 hc.2).2.1
      · exact (instantiate_ok world plugin r m h hnat hc).2.1
  · cases hnat : plugin.nativeInstantiate m.instantiations r (featureArray world plugin) with
    | none => exact (instantiate_native_none world plugin r m hnat).2.2.2.2.1
    | some h =>
      by_cases hc : plugin.workerInterfaceData h = true
          ∧ (if world.work_interface ∈ plugin.extensionData
              then some { bufferSize := 1, iface := none } else m.freeInstance.worker) = none
      · exact (instantiate_worker_missing world plugin r m h hnat hc.1 hc.2).2.2.2.2.1
      · exact (instantiate_ok world plugin r m h hnat hc).2.2.2.2.1

theorem nativeMonitor_append (plugin : Plugin) (xs ys : List Call) :
    ∀ s : NativeState, nativeMonitor plugin s (xs ++ ys)
      = (nativeMonitor plugin s xs).bind (fun s1 => nativeMonitor plugin s1 ys) := by
  induction xs with
  | nil => intro s; simp [nativeMonitor]
  | cons c cs ih =>
    intro s
    simp only [List.cons_append, nativeMonitor]
    cases nativeStep plugin s c with
    | none => rfl
    | some s1 => exact ih s1

theorem nativeMonitor_skip (plugin : Plugin) (xs : List Call)
    (h : ∀ c ∈ xs, c.isLifecycle = false) :
    ∀ s : NativeState, nativeMonitor plugin s xs = some s := by
  induction xs with
  | nil => intro s; rfl
  | cons c cs ih =>
    intro s
    have hc : nativeStep plugin s c = some s := by
      have := h c (List.mem_cons_self _ _)
      cases c <;> simp_all [nativeStep, Call.isLifecycle]
    simp only [nativeMonitor, hc]
    exact ih (fun x hx => h x (List.mem_cons_of_mem _ hx)) s

theorem protocol_activate (plugin : Plugin) (m : LV2Module) (h : m.FollowsProtocol plugin) :
    m.activate.FollowsProtocol plugin := by
  obtain ⟨hm, hinv⟩ := h
  cases hi : m.inst with
  | none => rw [activate_noop m (Or.inl hi)]; exact ⟨hm, hinv⟩
  | some h0 =>
    cases ha : m.active with
    | true => rw [activate_noop m (Or.inr ha)]; exact ⟨hm, hinv⟩
    | false =>
      rw [activate_eq m h0 hi ha]
      refine ⟨?_, fun hn => by simp [hi] at hn⟩
      simp only [nativeMonitor_append, hm, Option.some_bind]
      simp [nativeMonitor, nativeStep, LV2Module.nativeState, hi, ha]

theorem protocol_deactivate (plugin : Plugin) (m : LV2Module) (h : m.FollowsProtocol plugin) :
    m.deactivate.FollowsProtocol plugin := by
  obtain ⟨hm, hinv⟩ := h
  cases hi : m.inst with
  | none => rw [deactivate_noop m (Or.inl hi)]; exact ⟨hm, hinv⟩
  | some h0 =>
    cases ha : m.active with
    | false => rw [deactivate_noop m (Or.inr ha)]; exact ⟨hm, hinv⟩
    | true =>
      rw [deactivate_eq m h0 hi ha]
      refine ⟨?_, fun _ => rfl⟩
      simp only [nativeMonitor_append, hm, Option.some_bind]
      simp [nativeMonitor, nativeStep, LV2Module.nativeState, hi, ha]

theorem protocol_freeInstance (plugin : Plugin) (m : LV2Module) (h : m.FollowsProtocol plugin) :
    m.freeInstance.FollowsProtocol plugin
      ∧ m.freeInstance.nativeState = { instantiations := m.instantiations, live := none }
      ∧ m.freeInstance.active = false := by
  obtain ⟨hm, hinv⟩ := h
  obtain ⟨-, hact, hcalls⟩ := freeInstance_spec m
  obtain ⟨-, -, hnone, hk⟩ := freeInstance_frame m
  have hactive : m.freeInstance.active = false := by
    rw [hact]
    cases hi : m.inst with
    | none => simpa using hinv hi
    | some h0 => simp
  have hstate : m.freeInstance.nativeState
      = { instantiations := m.instantiations, live := none } := by
    simp [LV2Module.nativeState, hnone, hk]
  refine ⟨⟨?_, fun _ => hactive⟩, hstate, hactive⟩
  rw [hstate, hcalls]
  simp only [nativeMonitor_append, hm, Option.some_bind]
  cases hi : m.inst with
  | none => simp [nativeMonitor, nativeStep, LV2Module.nativeState, hi]
  | some h0 =>
    cases ha : m.active <;>
      simp [nativeMonitor, nativeStep, LV2Module.nativeState, hi, ha]

theorem protocol_instantiate (world : World) (plugin : Plugin) (r : Nat) (m : LV2Module)
    (h : m.FollowsProtocol plugin) :
    (m.instantiate world plugin r).2.FollowsProtocol plugin := by
  obtain ⟨⟨hfm, -⟩, hfs, hfa⟩ := protocol_freeInstance plugin m h
  obtain ⟨hinst, hact, extra, hcalls, hextra⟩ := instantiate_native world plugin r m
  have hk := instantiate_instantiations world plugin r m
  refine ⟨?_, fun _ => by rw [hact]; exact hfa⟩
  rw [hcalls]
  simp only [nativeMonitor_append, hfm, Option.some_bind, hfs]
  simp only [nativeMonitor, nativeStep, Option.some_bind]
  rw [nativeMonitor_skip plugin extra hextra]
  simp only [LV2Module.nativeState, hinst, hact, hfa, hk]

theorem protocol_setSampleRate (world : World) (plugin : Plugin) (r : Nat) (m : LV2Module)
    (h : m.FollowsProtocol plugin) :
    (m.setSampleRate world plugin r).FollowsProtocol plugin := by
  unfold LV2Module.setSampleRate
  split
  · exact h
  · split
    · have h1 := protocol_instantiate world plugin r m.freeInstance
        (protocol_freeInstance plugin m h).1
      dsimp only
      split
      · exact protocol_activate plugin _ h1
      · exact h1
    · exact h

theorem protocol_apply (world : World) (plugin : Plugin) (m : LV2Module) (op : LifecycleOp)
    (h : m.FollowsProtocol plugin) : (op.apply world plugin m).FollowsProtocol plugin := by
  cases op with
  | instantiate rate => exact protocol_instantiate world plugin rate m h
  | activate => exact protocol_activate plugin m h
  | deactivate => exact protocol_deactivate plugin m h
  | freeInstance => exact (protocol_freeInstance plugin m h).1
  | setSampleRate rate => exact protocol_setSampleRate world plugin rate m h

theorem protocol_foldl (world : World) (plugin : Plugin) (ops : List LifecycleOp) :
    ∀ m : LV2Module, m.FollowsProtocol plugin →
      (ops.foldl (LifecycleOp.apply world plugin) m).FollowsProtocol plugin := by
  induction ops with
  | nil => intro m h; exact h
  | cons op ops ih =>
    intro m h
    exact ih _ (protocol_apply world plugin m op h)

/-- The port loop of `init` changes the port list, the channel config and the port buffers
only. -/
theorem initLoop_frame (world : World) (plugin : Plugin) (eventBufferSize : Nat)
    (l : List Nat) :
    ∀ acc : LV2Module,
      (l.foldl (fun acc p =>
          match plugin.ports[p]? with
          | some port => LV2Module.initPort world eventBufferSize acc p port
          | none => acc) acc).inst = acc.inst
      ∧ (l.foldl (fun acc p =>
          match plugin.ports[p]? with
          | some port => LV2Module.initPort world eventBufferSize acc p port
          | none => acc) acc).active = acc.active
      ∧ (l.foldl (fun acc p =>
          match plugin.ports[p]? with
          | some port => LV2Module.initPort world eventBufferSize acc p port
          | none => acc) acc).calls = acc.calls
      ∧ (l.foldl (fun acc p =>
          match plugin.ports[p]? with
          | some port => LV2Module.initPort world eventBufferSize acc p port
          | none => acc) acc).instantiations = acc.instantiations
      ∧ (l.foldl (fun acc p =>
          match plugin.ports[p]? with
          | some port => LV2Module.initPort world eventBufferSize acc p port
          | none => acc) acc).defaults = acc.defaults := by
  induction l with
  | nil => intro acc; exact ⟨rfl, rfl, rfl, rfl, rfl⟩
  | cons p l ih =>
    intro acc
    simp only [List.foldl_cons]
    obtain ⟨h1, h2, h3, h4, h5⟩ := ih (match plugin.ports[p]? with
      | some port => LV2Module.initPort world eventBufferSize acc p port
      | none => acc)
    rw [h1, h2, h3, h4, h5]
    split <;> exact ⟨rfl, rfl, rfl, rfl, rfl⟩

theorem protocol_create (world : World) (plugin : Plugin) (ringBufferSize eventBufferSize : Nat) :
    (LV2Module.create world plugin ringBufferSize eventBufferSize).FollowsProtocol plugin := by
  obtain ⟨h1, h2, h3, h4, -⟩ := initLoop_frame world plugin eventBufferSize
    (List.range plugin.ports.length)
    { LV2Module.blank plugin with
      events := { capacity := ringBufferSize, bytes := [] }
      evbuf := List.replicate (max (LV2Module.blank plugin).evbuf.length ringBufferSize) 0
      notifications := { capacity := ringBufferSize, bytes := [] }
      ntbuf := List.replicate (max (LV2Module.blank plugin).ntbuf.length ringBufferSize) 0
      mins := plugin.ports.map (fun port => port.minValue)
      maxes := plugin.ports.map (fun port => port.maxValue)
      defaults := plugin.ports.map (fun port => port.defaultValue) }
  unfold LV2Module.FollowsProtocol LV2Module.nativeState LV2Module.create LV2Module.init
  refine ⟨?_, fun _ => ?_⟩
  · dsimp only at h1 h2 h3 h4 ⊢
    erw [h1, h2, h3, h4]
    rfl
  · dsimp only at h2 ⊢
    erw [h2]
    rfl

/-- The monitor is not vacuous: it rejects a second native activate of an active instance,
a native free of an active instance, and a native deactivate of an inactive one. -/
theorem nativeMonitor_rejects :
    nativeMonitor samplePlugin { instantiations := 1, live := some (1, true) }
        [Call.nativeActivate 1] = none
    ∧ nativeMonitor samplePlugin { instantiations := 1, live := some (1, true) }
        [Call.nativeFree 1] = none
    ∧ nativeMonitor samplePlugin { instantiations := 1, live := some (1, false) }
        [Call.nativeDeactivate 1] = none := by
  decide

/-- C12: for every sequence of lifecycle operations (`instantiate`, `activate`,
`deactivate`, `freeInstance`, `setSampleRate`) applied to a newly constructed module, the
log of native calls is accepted by the state machine of the native instance: an instance
is instantiated only when none is live, the native activate is called only on an inactive
instance, the native deactivate only on an active one, and the native free only on an
inactive one; and the monitor ends in the state the module records (instance and active
flag). -/
theorem lifecycle_follows_protocol (world : World) (plugin : Plugin)
    (ringBufferSize eventBufferSize : Nat) (ops : List LifecycleOp) :
    nativeMonitor plugin { instantiations := 0, live := none }
        (ops.foldl (LifecycleOp.apply world plugin)
          (LV2Module.create world plugin ringBufferSize eventBufferSize)).calls
      = some (ops.foldl (LifecycleOp.apply world plugin)
          (LV2Module.create world plugin ringBufferSize eventBufferSize)).nativeState :=
  (protocol_foldl world plugin ops _
    (protocol_create world plugin ringBufferSize eventBufferSize)).1

/-! ## The block after the drain -/

/-- A pass of the drain loop logs no call, keeps the instance and the worker, and changes
nothing of a port buffer but its scalar value. -/
theorem drainStep_frame (m m1 : LV2Module) (h : m.drainStep = Step.next m1) :
    m1.calls = m.calls ∧ m1.inst = m.inst ∧ m1.worker = m.worker
      ∧ ∀ i : Nat, (m1.buffers[i]?).map (fun b : PortBuffer => b.setValue 0)
          = (m.buffers[i]?).map (fun b : PortBuffer => b.setValue 0) := by
  unfold LV2Module.drainStep at h
  by_cases h1 : (!m.events.canRead pesize) = true
  · rw [if_pos h1] at h; cases h
  · rw [if_neg h1] at h
    dsimp only at h
    split at h
    · by_cases h3 : ((PortEvent.decode (m.events.peek pesize)).protocol == 0) = true
      · rw [if_pos h3] at h
        cases hbuf : m.buffers[(PortEvent.decode (m.events.peek pesize)).index]? with
        | none => rw [hbuf] at h; cases h
        | some buffer =>
          rw [hbuf] at h
          dsimp only at h
          have hset : ∀ (v : Nat) (i : Nat),
              ((m.buffers.set (PortEvent.decode (m.events.peek pesize)).index
                  (buffer.setValue v))[i]?).map (fun b : PortBuffer => b.setValue 0)
                = (m.buffers[i]?).map (fun b : PortBuffer => b.setValue 0) := by
            intro v i
            rw [List.getElem?_set]
            split
            · next heq =>
              subst heq
              split
              · rw [hbuf]; rfl
              · next hlt =>
                rw [List.getElem?_eq_none (by omega)]
            · rfl
          split at h
          · split at h
            · cases h; exact ⟨rfl, rfl, rfl, hset _⟩
            · cases h; exact ⟨rfl, rfl, rfl, hset _⟩
          · cases h; exact ⟨rfl, rfl, rfl, fun _ => rfl⟩
      · rw [if_neg h3] at h
        cases h; exact ⟨rfl, rfl, rfl, fun _ => rfl⟩
    · cases h; exact ⟨rfl, rfl, rfl, fun _ => rfl⟩

theorem drainLoop_frame (fuel : Nat) :
    ∀ (m m1 : LV2Module), LV2Module.drainLoop fuel m = Outcome.done m1 →
      m1.calls = m.calls ∧ m1.inst = m.inst ∧ m1.worker = m.worker
        ∧ ∀ i : Nat, (m1.buffers[i]?).map (fun b : PortBuffer => b.setValue 0)
            = (m.buffers[i]?).map (fun b : PortBuffer => b.setValue 0) := by
  induction fuel with
  | zero => intro m m1 h; cases h
  | succ n ih =>
    intro m m1 h
    simp only [LV2Module.drainLoop] at h
    split at h
    · cases h; exact ⟨rfl, rfl, rfl, fun _ => rfl⟩
    · next m2 hstep =>
      obtain ⟨a1, a2, a3, a4⟩ := drainStep_frame m m2 hstep
      obtain ⟨b1, b2, b3, b4⟩ := ih m2 m1 h
      exact ⟨b1.trans a1, b2.trans a2, b3.trans a3, fun i => (b4 i).trans (a4 i)⟩
    · cases h

theorem portLoopCalls_succ (h : Nat) (buffers : List PortBuffer) (n : Nat) :
    portLoopCalls h buffers (n + 1)
      = LV2Module.portCalls h buffers n ++ portLoopCalls h buffers n := by
  simp [portLoopCalls, List.range_succ]

/-- The loop over the port buffers connects every index below `n` exactly once, to the
data of its own buffer, and resets exactly the output sequence buffers. -/
theorem portLoopCalls_spec (h : Nat) (buffers : List PortBuffer) (n : Nat)
    (hn : n ≤ buffers.length) :
    (∀ i, (portLoopCalls h buffers n).count (Call.connectPort h i i) = if i < n then 1 else 0)
    ∧ (∀ h1 i d, Call.connectPort h1 i d ∈ portLoopCalls h buffers n →
        h1 = h ∧ d = i ∧ i < n)
    ∧ (∀ i, Call.resetBuffer i ∈ portLoopCalls h buffers n ↔
        i < n ∧ ∃ b, buffers[i]? = some b ∧ b.isSequence = true ∧ b.isInput = false)
    ∧ NoWorkerOrRun (portLoopCalls h buffers n) := by
  induction n with
  | zero => simp [portLoopCalls, NoWorkerOrRun]
  | succ n ih =>
    obtain ⟨ih1, ih2, ih3, ih4, ih5, ih6⟩ := ih (by omega)
    have hsome : buffers[n]? = some buffers[n] := List.getElem?_eq_getElem (by omega)
    rw [portLoopCalls_succ]
    have hpc : LV2Module.portCalls h buffers n
        = (if buffers[n].isSequence && !buffers[n].isInput then [Call.resetBuffer n] else [])
          ++ [Call.connectPort h n n] := by
      simp [LV2Module.portCalls, hsome]
    rw [hpc]
    refine ⟨?_, ?_, ?_, ?_, ?_, ?_⟩
    · intro i
      rw [List.count_append, List.count_append, ih1 i]
      have h0 : List.count (Call.connectPort h i i)
          (if buffers[n].isSequence && !buffers[n].isInput then [Call.resetBuffer n] else [])
          = 0 := by
        split <;> simp
      rw [h0, List.count_singleton]
      by_cases hin : i = n
      · subst hin; simp
      · have : ¬ (Call.connectPort h n n == Call.connectPort h i i) = true := by
          simp; omega
        simp only [this, if_false]
        by_cases hlt : i < n
        · have hlt2 : i < n + 1 := by omega
          simp [hlt, hlt2]
        · have hlt2 : ¬ i < n + 1 := by omega
          simp [hlt, hlt2]
    · intro h1 i d hmem
      simp only [List.mem_append, List.mem_singleton] at hmem
      rcases hmem with (hmem | hmem) | hmem
      · split at hmem <;> simp at hmem
      · cases hmem; exact ⟨rfl, rfl, by omega⟩
      · obtain ⟨a, b, c⟩ := ih2 h1 i d hmem
        exact ⟨a, b, by omega⟩
    · intro i
      simp only [List.mem_append, List.mem_singleton, ih3 i]
      constructor
      · rintro ((hmem | hmem) | ⟨hlt, hb⟩)
        · split at hmem
          · next hcond =>
            simp only [List.mem_singleton, Call.resetBuffer.injEq] at hmem
            subst hmem
            simp only [Bool.and_eq_true, Bool.not_eq_true'] at hcond
            exact ⟨by omega, _, hsome, hcond.1, hcond.2⟩
          · simp at hmem
        · cases hmem
        · exact ⟨by omega, hb⟩
      · rintro ⟨hlt, b, hb, hseq, hin⟩
        by_cases hin2 : i = n
        · subst hin2
          rw [hsome] at hb
          cases hb
          left; left
          simp [hseq, hin]
        · right
          exact ⟨by omega, b, hb, hseq, hin⟩
    · simp only [List.mem_append, List.mem_singleton, not_or]
      refine ⟨⟨?_, by simp⟩, ih4⟩
      split <;> simp
    · simp only [List.mem_append, List.mem_singleton, not_or]
      refine ⟨⟨?_, by simp⟩, ih5⟩
      split <;> simp
    · intro h1 n1
      simp only [List.mem_append, List.mem_singleton, not_or]
      refine ⟨⟨?_, by simp⟩, ih6 h1 n1⟩
      split <;> simp

theorem length_eq_of_getElem?_map {α β : Type} (f : α → β) (l1 l2 : List α)
    (h : ∀ i : Nat, (l1[i]?).map f = (l2[i]?).map f) : l1.length = l2.length := by
  rcases Nat.lt_trichotomy l1.length l2.length with hlt | heq | hgt
  · have := h l1.length
    rw [List.getElem?_eq_none (Nat.le_refl _), List.getElem?_eq_getElem hlt] at this
    cases this
  · exact heq
  · have := h l2.length
    rw [List.getElem?_eq_none (Nat.le_refl _), List.getElem?_eq_getElem hgt] at this
    cases this

theorem outputSequence_transfer (l1 l2 : List PortBuffer) (i : Nat)
    (h : (l1[i]?).map (fun b : PortBuffer => b.setValue 0)
      = (l2[i]?).map (fun b : PortBuffer => b.setValue 0)) :
    (∃ b, l1[i]? = some b ∧ b.isSequence = true ∧ b.isInput = false)
      → ∃ b, l2[i]? = some b ∧ b.isSequence = true ∧ b.isInput = false := by
  rintro ⟨b, hb, hseq, hin⟩
  rw [hb] at h
  cases h2 : l2[i]? with
  | none => rw [h2] at h; cases h
  | some b2 =>
    rw [h2] at h
    simp only [Option.map_some', Option.some.injEq, PortBuffer.setValue,
      PortBuffer.mk.injEq] at h
    have ht : b.type = b2.type := h.2.1
    have hi : b.input = b2.input := h.1
    refine ⟨b2, rfl, ?_, ?_⟩
    · simpa [PortBuffer.isSequence, ← ht] using hseq
    · simpa [PortBuffer.isInput, ← hi] using hin

/-- What a completed `run` consists of: the drain, which logs nothing, then the loop over
the port buffers, the worker responses, the native run and the end of the worker run, with
the native process working on the drained and reset buffers. -/
theorem run_done_spec (plugin : Plugin) (m m' : LV2Module) (h fuel nframes : Nat)
    (hinst : m.inst = some h) (hrun : m.run plugin fuel nframes = Outcome.done m') :
    ∃ md, LV2Module.drainLoop fuel m = Outcome.done md
      ∧ m'.calls = m.calls ++ portLoopCalls h md.buffers md.buffers.length
          ++ (if m.worker.isSome then [Call.processWorkResponses] else [])
          ++ [Call.nativeRun h nframes]
          ++ (if m.worker.isSome then [Call.endRun] else [])
      ∧ m'.buffers = plugin.process h nframes (md.buffers.map resetIfOutputSequence)
      ∧ m'.worker = m.worker ∧ m'.inst = m.inst
      ∧ (∀ i : Nat, (md.buffers[i]?).map (fun b : PortBuffer => b.setValue 0)
          = (m.buffers[i]?).map (fun b : PortBuffer => b.setValue 0)) := by
  unfold LV2Module.run at hrun
  cases hd : LV2Module.drainLoop fuel m with
  | fault => rw [hd] at hrun; cases hrun
  | outOfFuel x => rw [hd] at hrun; cases hrun
  | done md =>
    rw [hd] at hrun
    obtain ⟨d1, d2, d3, d4⟩ := drainLoop_frame fuel m md hd
    dsimp only at hrun
    unfold LV2Module.runBlock at hrun
    rw [d2, hinst] at hrun
    dsimp only at hrun
    cases hrun
    refine ⟨md, rfl, ?_, rfl, d3, hinst.symm, d4⟩
    simp only [d1, d3]
    rfl

theorem run_returns (plugin : Plugin) (m : LV2Module) (h nframes : Nat)
    (hinst : m.inst = some h) (evs : List (PortEvent × List Nat))
    (hq : m.events.bytes = frame evs) (hwf : ∀ e ∈ evs, Drainable m.buffers.length e) :
    ∃ m', ∀ fuel, evs.length + 1 ≤ fuel → m.run plugin fuel nframes = Outcome.done m' := by
  obtain ⟨m1, hfin, -, hi1, -⟩ := drainLoop_framed m evs hq hwf
  obtain ⟨m', hrun, -⟩ := run_of_drained plugin m m1 h (evs.length + 1) nframes
    (hfin _ (Nat.le_refl _)) (hi1.trans hinst)
  refine ⟨m', fun fuel hf => ?_⟩
  simp only [LV2Module.run, hfin fuel hf]
  simp only [LV2Module.run, hfin _ (Nat.le_refl _)] at hrun
  exact hrun

/-- C15: in every `run` that completes, after the drain `reset` is applied to exactly the
port buffers that are sequence (Atom or Event) buffers and outputs, so to no input buffer
and to no scalar or audio buffer, and every port index below the number of port buffers is
connected to the native instance exactly once, to the data of its own port buffer; the
native process then works on the drained buffers with exactly those reset. On a queue of
drainable events such a `run` does complete. -/
theorem run_resets_and_connects (plugin : Plugin) (m : LV2Module) (h nframes : Nat)
    (hinst : m.inst = some h) :
    (∀ fuel m', m.run plugin fuel nframes = Outcome.done m' →
      ∃ (new : List Call) (drained : List PortBuffer),
        m'.calls = m.calls ++ new
        ∧ (∀ i : Nat, Call.resetBuffer i ∈ new ↔
            ∃ b, m.buffers[i]? = some b ∧ b.isSequence = true ∧ b.isInput = false)
        ∧ (∀ i, i < m.buffers.length → new.count (Call.connectPort h i i) = 1)
        ∧ (∀ h1 i d, Call.connectPort h1 i d ∈ new → h1 = h ∧ d = i ∧ i < m.buffers.length)
        ∧ (∀ i : Nat, (drained[i]?).map (fun b : PortBuffer => b.setValue 0)
            = (m.buffers[i]?).map (fun b : PortBuffer => b.setValue 0))
        ∧ m'.buffers = plugin.process h nframes (drained.map resetIfOutputSequence))
    ∧ (∀ evs, m.events.bytes = frame evs → (∀ e ∈ evs, Drainable m.buffers.length e) →
        ∃ m', ∀ fuel, evs.length + 1 ≤ fuel → m.run plugin fuel nframes = Outcome.done m') := by
  refine ⟨?_, run_returns plugin m h nframes hinst⟩
  intro fuel m' hrun
  obtain ⟨md, -, hcalls, hbufs, -, -, hshape⟩ := run_done_spec plugin m m' h fuel nframes hinst hrun
  have hlen : md.buffers.length = m.buffers.length :=
    length_eq_of_getElem?_map _ _ _ hshape
  obtain ⟨p1, p2, p3, -⟩ := portLoopCalls_spec h md.buffers md.buffers.length (Nat.le_refl _)
  refine ⟨portLoopCalls h md.buffers md.buffers.length
      ++ (if m.worker.isSome then [Call.processWorkResponses] else [])
      ++ [Call.nativeRun h nframes]
      ++ (if m.worker.isSome then [Call.endRun] else []), md.buffers, ?_, ?_, ?_, ?_,
      hshape, hbufs⟩
  · rw [hcalls]; simp only [List.append_assoc]
  · intro i
    have hrest : ∀ l : List Call,
        (l = (if m.worker.isSome then [Call.processWorkResponses] else [])
          ∨ l = [Call.nativeRun h nframes]
          ∨ l = (if m.worker.isSome then [Call.endRun] else [])) →
        Call.resetBuffer i ∉ l := by
      intro l hl
      rcases hl with rfl | rfl | rfl
      · split <;> simp
      · simp
      · split <;> simp
    simp only [List.mem_append, hrest _ (Or.inl rfl), hrest _ (Or.inr (Or.inl rfl)),
      hrest _ (Or.inr (Or.inr rfl)), or_false, p3 i]
    constructor
    · rintro ⟨-, hb⟩
      exact outputSequence_transfer _ _ i (hshape i) hb
    · intro hb
      obtain ⟨b, hb1, hb2, hb3⟩ := outputSequence_transfer _ _ i (hshape i).symm hb
      refine ⟨?_, b, hb1, hb2, hb3⟩
      by_contra hge
      rw [List.getElem?_eq_none (by omega)] at hb1
      cases hb1
  · intro i hi
    have hrest : ∀ l : List Call,
        (l = (if m.worker.isSome then [Call.processWorkResponses] else [])
          ∨ l = [Call.nativeRun h nframes]
          ∨ l = (if m.worker.isSome then [Call.endRun] else [])) →
        l.count (Call.connectPort h i i) = 0 := by
      intro l hl
      rcases hl with rfl | rfl | rfl
      · split <;> simp
      · simp
      · split <;> simp
    have hi2 : i < md.buffers.length := by omega
    simp only [List.count_append, hrest _ (Or.inl rfl), hrest _ (Or.inr (Or.inl rfl)),
      hrest _ (Or.inr (Or.inr rfl)), p1 i, hi2, if_true]
  · intro h1 i d hmem
    have hrest : ∀ l : List Call,
        (l = (if m.worker.isSome then [Call.processWorkResponses] else [])
          ∨ l = [Call.nativeRun h nframes]
          ∨ l = (if m.worker.isSome then [Call.endRun] else [])) →
        Call.connectPort h1 i d ∉ l := by
      intro l hl
      rcases hl with rfl | rfl | rfl
      · split <;> simp
      · simp
      · split <;> simp
    simp only [List.mem_append, hrest _ (Or.inl rfl), hrest _ (Or.inr (Or.inl rfl)),
      hrest _ (Or.inr (Or.inr rfl)), or_false] at hmem
    rw [← hlen]
    exact p2 h1 i d hmem

theorem run_resets_and_connects_witness :
    loadedScenario.inst = some 1
    ∧ ∃ m', loadedScenario.run scenarioPlugin 1 512 = Outcome.done m'
        ∧ ∃ new, m'.calls = loadedScenario.calls ++ new
            ∧ Call.resetBuffer 5 ∈ new ∧ Call.resetBuffer 4 ∉ new
            ∧ new.count (Call.connectPort 1 4 4) = 1 := by
  have hi : loadedScenario.inst = some 1 := by decide
  obtain ⟨m', hm'⟩ :=
    (run_resets_and_connects scenarioPlugin loadedScenario 1 512 hi).2 [] (by decide) (by simp)
  have hrun := hm' 1 (by simp)
  obtain ⟨new, drained, h1, h2, h3, -⟩ :=
    (run_resets_and_connects scenarioPlugin loadedScenario 1 512 hi).1 1 m' hrun
  refine ⟨hi, m', hrun, new, h1, (h2 5).mpr (by decide), ?_, h3 4 (by decide)⟩
  intro hmem
  have := (h2 4).mp hmem
  revert this
  decide

/-- C16: within each `run` that completes the effects occur in the fixed order: the drain
of the inbound writes (which logs no call; the native process works on the drained
buffers), the reset and binding of the ports (no worker or native run call among them),
`processWorkResponses`, the native process for `nframes` frames, `endRun`. The worker
calls are made exactly when a Worker Bridge is attached, `processWorkResponses` once per
run and before the native process of that run; so in two consecutive runs the only
`processWorkResponses` after the native process of the first belongs to the second. On a
queue of drainable events such a `run` does complete. -/
theorem run_order (plugin : Plugin) (m : LV2Module) (h nframes : Nat)
    (hinst : m.inst = some h) :
    (∀ fuel m', m.run plugin fuel nframes = Outcome.done m' →
      ∃ (md : LV2Module) (ports : List Call),
        LV2Module.drainLoop fuel m = Outcome.done md ∧ md.calls = m.calls
        ∧ NoWorkerOrRun ports
        ∧ m'.calls = m.calls ++ ports
            ++ (if m.worker.isSome then [Call.processWorkResponses] else [])
            ++ [Call.nativeRun h nframes]
            ++ (if m.worker.isSome then [Call.endRun] else [])
        ∧ m'.buffers = plugin.process h nframes (md.buffers.map resetIfOutputSequence)
        ∧ m'.worker = m.worker ∧ m'.inst = m.inst)
    ∧ (∀ fuel1 fuel2 nframes2 m1 m2, m.run plugin fuel1 nframes = Outcome.done m1 →
        m1.run plugin fuel2 nframes2 = Outcome.done m2 →
        ∃ ports1 ports2 : List Call, NoWorkerOrRun ports1 ∧ NoWorkerOrRun ports2
          ∧ m2.calls = m.calls ++ ports1
              ++ (if m.worker.isSome then [Call.processWorkResponses] else [])
              ++ [Call.nativeRun h nframes]
              ++ (if m.worker.isSome then [Call.endRun] else [])
              ++ ports2
              ++ (if m.worker.isSome then [Call.processWorkResponses] else [])
              ++ [Call.nativeRun h nframes2]
              ++ (if m.worker.isSome then [Call.endRun] else []))
    ∧ (m.worker = none → ∀ fuel m', m.run plugin fuel nframes = Outcome.done m' →
        ∃ ports : List Call, NoWorkerOrRun ports
          ∧ m'.calls = m.calls ++ ports ++ [Call.nativeRun h nframes])
    ∧ (∀ evs, m.events.bytes = frame evs → (∀ e ∈ evs, Drainable m.buffers.length e) →
        ∃ m', ∀ fuel, evs.length + 1 ≤ fuel → m.run plugin fuel nframes = Outcome.done m') := by
  have one : ∀ (x x' : LV2Module) (fuel n : Nat), x.inst = some h →
      x.run plugin fuel n = Outcome.done x' →
      ∃ (md : LV2Module) (ports : List Call),
        LV2Module.drainLoop fuel x = Outcome.done md ∧ md.calls = x.calls
        ∧ NoWorkerOrRun ports
        ∧ x'.calls = x.calls ++ ports
            ++ (if x.worker.isSome then [Call.processWorkResponses] else [])
            ++ [Call.nativeRun h n]
            ++ (if x.worker.isSome then [Call.endRun] else [])
        ∧ x'.buffers = plugin.process h n (md.buffers.map resetIfOutputSequence)
        ∧ x'.worker = x.worker ∧ x'.inst = x.inst := by
    intro x x' fuel n hx hrun
    obtain ⟨md, hd, hcalls, hbufs, hw, hi, -⟩ := run_done_spec plugin x x' h fuel n hx hrun
    exact ⟨md, _, hd, (drainLoop_frame fuel x md hd).1,
      (portLoopCalls_spec h md.buffers md.buffers.length (Nat.le_refl _)).2.2.2, hcalls, hbufs,
      hw, hi⟩
  refine ⟨fun fuel m' hrun => one m m' fuel nframes hinst hrun, ?_, ?_,
    run_returns plugin m h nframes hinst⟩
  · intro fuel1 fuel2 nframes2 m1 m2 hrun1 hrun2
    obtain ⟨-, ports1, -, -, hn1, hc1, -, hw1, hi1⟩ := one m m1 fuel1 nframes hinst hrun1
    obtain ⟨-, ports2, -, -, hn2, hc2, -, -, -⟩ :=
      one m1 m2 fuel2 nframes2 (hi1.trans hinst) hrun2
    refine ⟨ports1, ports2, hn1, hn2, ?_⟩
    rw [hc2, hc1, hw1]
  · intro hw fuel m' hrun
    obtain ⟨-, ports, -, -, hn, hc, -⟩ := one m m' fuel nframes hinst hrun
    refine ⟨ports, hn, ?_⟩
    rw [hc]
    simp [hw]

theorem run_order_witness :
    loadedScenario.inst = some 1 ∧ loadedScenario.worker = none
    ∧ ∃ m', loadedScenario.run scenarioPlugin 1 512 = Outcome.done m'
        ∧ ∃ ports : List Call, NoWorkerOrRun ports
            ∧ m'.calls = loadedScenario.calls ++ ports ++ [Call.nativeRun 1 512] := by
  have hi : loadedScenario.inst = some 1 := by decide
  obtain ⟨m', hm'⟩ :=
    (run_order scenarioPlugin loadedScenario 1 512 hi).2.2.2 [] (by decide) (by simp)
  have hrun := hm' 1 (by simp)
  exact ⟨hi, by decide, m', hrun,
    (run_order scenarioPlugin loadedScenario 1 512 hi).2.2.1 (by decide) 1 m' hrun⟩

/-! ## State round trip -/

theorem wellNumbered_add (ports : List PortDescription) (type : PortType)
    (symbol name : String) (isInput : Bool) (h : WellNumbered ports) :
    WellNumbered (portListAdd ports type ports.length (portListSize ports type isInput)
      symbol name isInput) := by
  intro i d hd
  unfold portListAdd at hd ⊢
  by_cases hi : i < ports.length
  · rw [List.getElem?_append_left hi] at hd
    rw [List.take_append_of_le_length (by omega)]
    exact h i d hd
  · rw [List.getElem?_append_right (by omega)] at hd
    have hz : i - ports.length = 0 := by
      by_contra hne
      obtain ⟨k, hk⟩ : ∃ k, i - ports.length = k + 1 := ⟨i - ports.length - 1, by omega⟩
      rw [hk] at hd
      simp at hd
    rw [hz] at hd
    simp only [List.getElem?_cons_zero, Option.some.injEq] at hd
    have hil : i = ports.length := by omega
    subst hd
    subst hil
    exact ⟨rfl, by rw [List.take_left]⟩

theorem channelsAgree_add (ports : List PortDescription) (c : ChannelConfig) (type : PortType)
    (index channel : Nat) (symbol name : String) (isInput : Bool) (h : ChannelsAgree ports c) :
    ChannelsAgree (portListAdd ports type index channel symbol name isInput)
      (c.addPort type index isInput) := by
  obtain ⟨h1, h2⟩ := h
  unfold ChannelsAgree portListAdd ChannelConfig.addPort
  cases isInput with
  | true => simp [List.filter_append, h1, h2]
  | false => simp [List.filter_append, h1, h2]

/-- The state of the port loop of `init` after the ports with index below `k`. -/
theorem initLoop_spec (world : World) (plugin : Plugin) (eventBufferSize : Nat)
    (m0 : LV2Module) (h0p : m0.ports = []) (h0c : m0.channels = {}) (h0b : m0.buffers = [])
    (k : Nat) (hk : k ≤ plugin.ports.length) :
    ((List.range k).foldl (fun acc p =>
        match plugin.ports[p]? with
        | some port => LV2Module.initPort world eventBufferSize acc p port
        | none => acc) m0).ports.length = k
    ∧ ((List.range k).foldl (fun acc p =>
        match plugin.ports[p]? with
        | some port => LV2Module.initPort world eventBufferSize acc p port
        | none => acc) m0).buffers.length = k
    ∧ WellNumbered ((List.range k).foldl (fun acc p =>
        match plugin.ports[p]? with
        | some port => LV2Module.initPort world eventBufferSize acc p port
        | none => acc) m0).ports
    ∧ ChannelsAgree ((List.range k).foldl (fun acc p =>
        match plugin.ports[p]? with
        | some port => LV2Module.initPort world eventBufferSize acc p port
        | none => acc) m0).ports
        ((List.range k).foldl (fun acc p =>
        match plugin.ports[p]? with
        | some port => LV2Module.initPort world eventBufferSize acc p port
        | none => acc) m0).channels
    ∧ (∀ (i : Nat) (d : PortDescription), ((List.range k).foldl (fun acc p =>
        match plugin.ports[p]? with
        | some port => LV2Module.initPort world eventBufferSize acc p port
        | none => acc) m0).ports[i]? = some d →
          ∃ port, plugin.ports[i]? = some port ∧ DescribesPort d port) := by
  induction k with
  | zero =>
    simp only [List.range_zero, List.foldl_nil, h0p, h0c, h0b]
    refine ⟨rfl, rfl, ?_, ⟨rfl, rfl⟩, ?_⟩
    · intro i d hd; simp at hd
    · intro i d hd; simp at hd
  | succ k ih =>
    obtain ⟨i1, i2, i3, i4, i5⟩ := ih (by omega)
    rw [List.range_succ, List.foldl_append]
    generalize (List.range k).foldl (fun acc p =>
        match plugin.ports[p]? with
        | some port => LV2Module.initPort world eventBufferSize acc p port
        | none => acc) m0 = acc at i1 i2 i3 i4 i5
    have hsome : plugin.ports[k]? = some plugin.ports[k] := List.getElem?_eq_getElem (by omega)
    simp only [List.foldl_cons, List.foldl_nil, hsome]
    unfold LV2Module.initPort
    dsimp only
    refine ⟨?_, ?_, ?_, ?_, ?_⟩
    · simp [portListAdd, i1]
    · simp [i2]
    · have := wellNumbered_add acc.ports (portTypeOf plugin.ports[k]) plugin.ports[k].symbol
        plugin.ports[k].name plugin.ports[k].isInput i3
      rw [i1] at this
      exact this
    · exact channelsAgree_add acc.ports acc.channels _ _ _ _ _ _ i4
    · intro i d hd
      unfold portListAdd at hd
      by_cases hi : i < acc.ports.length
      · rw [List.getElem?_append_left hi] at hd
        exact i5 i d hd
      · rw [List.getElem?_append_right (by omega)] at hd
        have hz : i - acc.ports.length = 0 := by
          by_contra hne
          obtain ⟨j, hj⟩ : ∃ j, i - acc.ports.length = j + 1 :=
            ⟨i - acc.ports.length - 1, by omega⟩
          rw [hj] at hd
          simp at hd
        rw [hz] at hd
        simp only [List.getElem?_cons_zero, Option.some.injEq] at hd
        have hik : i = k := by omega
        subst hd
        subst hik
        exact ⟨_, hsome, rfl, rfl, rfl, rfl⟩

/-- The port list, the channel config and the buffers of a newly constructed module. -/
theorem create_spec (world : World) (plugin : Plugin) (ringBufferSize eventBufferSize : Nat) :
    (LV2Module.create world plugin ringBufferSize eventBufferSize).ports.length
        = plugin.ports.length
    ∧ (LV2Module.create world plugin ringBufferSize eventBufferSize).buffers.length
        = plugin.ports.length
    ∧ WellNumbered (LV2Module.create world plugin ringBufferSize eventBufferSize).ports
    ∧ ChannelsAgree (LV2Module.create world plugin ringBufferSize eventBufferSize).ports
        (LV2Module.create world plugin ringBufferSize eventBufferSize).channels
    ∧ (∀ (i : Nat) (d : PortDescription),
        (LV2Module.create world plugin ringBufferSize eventBufferSize).ports[i]? = some d →
          ∃ port, plugin.ports[i]? = some port ∧ DescribesPort d port) :=
  initLoop_spec world plugin eventBufferSize _ rfl rfl rfl plugin.ports.length (Nat.le_refl _)

/-- C18: after the construction of an `LV2Module` over a plugin with N ports the port list
holds exactly N descriptors in discovery order (the descriptor at position `i` is derived
from the plugin port with index `i`), the descriptor at position `i` has index `i`, and
its channel is the number of earlier descriptors with the same type and the same
direction. -/
theorem init_numbers_ports (world : World) (plugin : Plugin)
    (ringBufferSize eventBufferSize : Nat) :
    (LV2Module.create world plugin ringBufferSize eventBufferSize).ports.length
        = plugin.ports.length
    ∧ (∀ i, i < plugin.ports.length →
        ∃ d, (LV2Module.create world plugin ringBufferSize eventBufferSize).ports[i]? = some d)
    ∧ (∀ (i : Nat) (d : PortDescription),
        (LV2Module.create world plugin ringBufferSize eventBufferSize).ports[i]? = some d →
          d.index = i
          ∧ d.channel
              = (((LV2Module.create world plugin ringBufferSize eventBufferSize).ports.take
                    i).filter (fun e => e.type == d.type && e.input == d.input)).length
          ∧ ∃ port, plugin.ports[i]? = some port ∧ DescribesPort d port) := by
  obtain ⟨h1, -, h3, -, h5⟩ := create_spec world plugin ringBufferSize eventBufferSize
  refine ⟨h1, ?_, ?_⟩
  · intro i hi
    exact ⟨_, List.getElem?_eq_getElem (by rw [h1]; exact hi)⟩
  · intro i d hd
    exact ⟨(h3 i d hd).1, (h3 i d hd).2, h5 i d hd⟩

theorem init_numbers_ports_witness :
    scenarioModule.ports[3]? = some ⟨PortType.Audio, 3, 1, "out_r", "Out R", false⟩
    ∧ (3 = 3 ∧ 1 = ((scenarioModule.ports.take 3).filter
          (fun e => e.type == PortType.Audio && e.input == false)).length
        ∧ ∃ port, scenarioPlugin.ports[3]? = some port
            ∧ DescribesPort ⟨PortType.Audio, 3, 1, "out_r", "Out R", false⟩ port) :=
  ⟨by decide,
    (init_numbers_ports sampleWorld scenarioPlugin 64 32).2.2 3
      ⟨PortType.Audio, 3, 1, "out_r", "Out R", false⟩ (by decide)⟩

theorem channelPorts_eq (ports : List PortDescription) (c : ChannelConfig)
    (h : ChannelsAgree ports c) (t : PortType) (dir : Bool) :
    c.channelPorts t dir
      = (ports.filter (fun e => e.type == t && e.input == dir)).map (fun e => e.index) := by
  obtain ⟨h1, h2⟩ := h
  unfold ChannelConfig.channelPorts
  cases dir with
  | true =>
    simp only [if_true, h1, List.filter_map, List.map_map, List.filter_filter]
    congr 1
    apply List.filter_congr
    intro x _
    simp [Function.comp]
  | false =>
    simp only [Bool.false_eq_true, if_false, h2, List.filter_map, List.map_map,
      List.filter_filter]
    congr 1
    apply List.filter_congr
    intro x _
    simp [Function.comp]

/-- In a well-numbered port list the descriptor with channel `c` is the entry at position
`c` among the descriptors of its type and direction. -/
theorem filter_at_channel (ports : List PortDescription) (h : WellNumbered ports) (i : Nat)
    (d : PortDescription) (hd : ports[i]? = some d) :
    (ports.filter (fun e => e.type == d.type && e.input == d.input))[d.channel]? = some d := by
  have hi : i < ports.length := by
    by_contra hge
    rw [List.getElem?_eq_none (by omega)] at hd
    cases hd
  have hdi : ports[i] = d := by
    rw [List.getElem?_eq_getElem hi] at hd
    exact Option.some.inj hd
  have hsplit : ports = ports.take i ++ d :: ports.drop (i + 1) := by
    rw [← hdi]
    exact (List.take_append_drop i ports).symm.trans (by rw [List.drop_eq_getElem_cons hi])
  have hch : d.channel
      = ((ports.take i).filter (fun e => e.type == d.type && e.input == d.input)).length :=
    (h i d hd).2
  have hfilter : ports.filter (fun e => e.type == d.type && e.input == d.input)
      = (ports.take i).filter (fun e => e.type == d.type && e.input == d.input)
        ++ d :: (ports.drop (i + 1)).filter (fun e => e.type == d.type && e.input == d.input) := by
    conv_lhs => rw [hsplit]
    rw [List.filter_append, List.filter_cons]
    simp
  rw [hfilter, hch, List.getElem?_append_right (Nat.le_refl _)]
  simp

theorem wellNumbered_nodup (ports : List PortDescription) (h : WellNumbered ports) :
    ports.Nodup := by
  apply List.Nodup.of_map (fun e : PortDescription => e.index)
  have hmap : ports.map (fun e => e.index) = List.range ports.length := by
    apply List.ext_getElem?
    intro i
    rw [List.getElem?_map]
    by_cases hi : i < ports.length
    · rw [List.getElem?_eq_getElem hi, List.getElem?_range hi]
      simp only [Option.map_some', Option.some.injEq]
      exact (h i _ (List.getElem?_eq_getElem hi)).1
    · rw [List.getElem?_eq_none (by omega), List.getElem?_eq_none (by simp; omega)]
      rfl
  rw [hmap]
  exact List.nodup_range _

/-- The agreement of a channel config with a well-numbered port list. -/
theorem channels_resolve (ports : List PortDescription) (c : ChannelConfig)
    (hw : WellNumbered ports) (hc : ChannelsAgree ports c) :
    (∀ d ∈ ports, c.getPort d.type d.channel d.input = some d.index
      ∧ ∀ t ch dir, c.getPort t ch dir = some d.index →
          t = d.type ∧ ch = d.channel ∧ dir = d.input)
    ∧ (∀ t dir ch, ch < c.getNumChannels t dir →
        ∃ d ∈ ports, c.getPort t ch dir = some d.index ∧ d.type = t ∧ d.input = dir
          ∧ d.index < ports.length) := by
  have hget : ∀ t ch dir, c.getPort t ch dir
      = ((ports.filter (fun e => e.type == t && e.input == dir))[ch]?).map
          (fun e => e.index) := by
    intro t ch dir
    unfold ChannelConfig.getPort
    rw [channelPorts_eq ports c hc, List.getElem?_map]
  have hpos : ∀ d ∈ ports, ports[d.index]? = some d := by
    intro d hd
    obtain ⟨i, hi⟩ := List.getElem?_of_mem hd
    rw [(hw i d hi).1]
    exact hi
  constructor
  · intro d hd
    have hself := filter_at_channel ports hw d.index d (hpos d hd)
    refine ⟨by rw [hget, hself]; rfl, ?_⟩
    intro t ch dir hres
    rw [hget] at hres
    cases he : (ports.filter (fun e => e.type == t && e.input == dir))[ch]? with
    | none => rw [he] at hres; cases hres
    | some e =>
      rw [he] at hres
      simp only [Option.map_some', Option.some.injEq] at hres
      have hemem := List.getElem?_mem he
      rw [List.mem_filter] at hemem
      obtain ⟨hep, hepass⟩ := hemem
      simp only [Bool.and_eq_true, beq_iff_eq] at hepass
      have hed : e = d := by
        have h1 := hpos e hep
        rw [hres, hpos d hd] at h1
        exact (Option.some.inj h1).symm
      subst hed
      refine ⟨hepass.1.symm, ?_, hepass.2.symm⟩
      rw [← hepass.1, ← hepass.2] at he
      have hnd := (wellNumbered_nodup ports hw).filter
        (fun x => x.type == e.type && x.input == e.input)
      have hlt1 : ch < (ports.filter (fun x => x.type == e.type && x.input == e.input)).length := by
        by_contra hge
        rw [List.getElem?_eq_none (by omega)] at he
        cases he
      have hlt2 : e.channel
          < (ports.filter (fun x => x.type == e.type && x.input == e.input)).length := by
        by_contra hge
        rw [List.getElem?_eq_none (by omega)] at hself
        cases hself
      rw [List.getElem?_eq_getElem hlt1] at he
      rw [List.getElem?_eq_getElem hlt2] at hself
      exact (hnd.getElem_inj_iff).mp ((Option.some.inj he).trans (Option.some.inj hself).symm)
  · intro t dir ch hch
    unfold ChannelConfig.getNumChannels at hch
    rw [channelPorts_eq ports c hc, List.length_map] at hch
    have hmem := List.getElem_mem hch
    rw [List.mem_filter] at hmem
    obtain ⟨hep, hepass⟩ := hmem
    simp only [Bool.and_eq_true, beq_iff_eq] at hepass
    refine ⟨_, hep, by rw [hget, List.getElem?_eq_getElem hch]; rfl, hepass.1, hepass.2, ?_⟩
    have hp := hpos _ hep
    by_contra hge
    rw [List.getElem?_eq_none (by omega)] at hp
    cases hp

/-- C19: after the construction of an `LV2Module` the channel config agrees with the port
list: for every descriptor `d`, resolving (`d.type`, `d.channel`, `d.input`) through the
channel config yields `d.index`, and no other (type, channel, direction) resolves to
`d.index`. Consequently every channel below the channel count of a type and direction
resolves to the index of a descriptor of that type and direction, which is the index of a
port buffer, as `referAudioReplacing` and `connectChannel` assume. -/
theorem init_channels_agree (world : World) (plugin : Plugin)
    (ringBufferSize eventBufferSize : Nat) :
    (∀ d ∈ (LV2Module.create world plugin ringBufferSize eventBufferSize).ports,
      (LV2Module.create world plugin ringBufferSize eventBufferSize).channels.getPort
          d.type d.channel d.input = some d.index
      ∧ ∀ t ch dir,
          (LV2Module.create world plugin ringBufferSize eventBufferSize).channels.getPort
              t ch dir = some d.index →
            t = d.type ∧ ch = d.channel ∧ dir = d.input)
    ∧ (∀ t dir ch,
        ch < (LV2Module.create world plugin ringBufferSize eventBufferSize).channels.getNumChannels
            t dir →
        ∃ d ∈ (LV2Module.create world plugin ringBufferSize eventBufferSize).ports,
          (LV2Module.create world plugin ringBufferSize eventBufferSize).channels.getPort
              t ch dir = some d.index
          ∧ d.type = t ∧ d.input = dir
          ∧ d.index < (LV2Module.create world plugin ringBufferSize eventBufferSize).buffers.length) := by
  obtain ⟨h1, h2, h3, h4, -⟩ := create_spec world plugin ringBufferSize eventBufferSize
  obtain ⟨r1, r2⟩ := channels_resolve _ _ h3 h4
  refine ⟨r1, ?_⟩
  intro t dir ch hch
  obtain ⟨d, hd, hg, ht, hdir, hlt⟩ := r2 t dir ch hch
  exact ⟨d, hd, hg, ht, hdir, by rw [h2, ← h1]; exact hlt⟩

theorem init_channels_agree_witness :
    (⟨PortType.Audio, 3, 1, "out_r", "Out R", false⟩ : PortDescription) ∈ scenarioModule.ports
    ∧ scenarioModule.channels.getPort PortType.Audio 1 false = some 3
    ∧ 1 < scenarioModule.channels.getNumChannels PortType.Audio true
    ∧ ∃ d ∈ scenarioModule.ports,
        scenarioModule.channels.getPort PortType.Audio 1 true = some d.index
        ∧ d.type = PortType.Audio ∧ d.input = true
        ∧ d.index < scenarioModule.buffers.length :=
  ⟨by decide,
    ((init_channels_agree sampleWorld scenarioPlugin 64 32).1
      ⟨PortType.Audio, 3, 1, "out_r", "Out R", false⟩ (by decide)).1,
    by decide,
    (init_channels_agree sampleWorld scenarioPlugin 64 32).2 PortType.Audio true 1 (by decide)⟩

/-! ## Lookup by symbol -/

theorem find_symbol (ports : List PortDescription)
    (hsym : (ports.map (fun e => e.symbol)).Nodup) (d : PortDescription) (hd : d ∈ ports) :
    ports.find? (fun port => port.symbol == d.symbol) = some d := by
  cases hf : ports.find? (fun port => port.symbol == d.symbol) with
  | none =>
    rw [List.find?_eq_none] at hf
    exact absurd (by simp) (hf d hd)
  | some e =>
    have he := List.find?_some hf
    simp only [beq_iff_eq] at he
    rw [List.inj_on_of_nodup_map hsym (List.mem_of_find?_eq_some hf) hd he]

/-- C20: lookup by symbol agrees with lookup by index. In a module whose port symbols are
unique and whose port list is numbered densely (as `init` leaves it, with fewer than 2^32
ports), for every descriptor `d` of the port list `getPortIndex (d.symbol)` returns
`d.index`, the port fetched by that index is `d` itself, and `getPortName` of it is the
name of `d`; for a symbol that belongs to no port `getPortIndex` returns the sentinel
`LV2UI_INVALID_PORT_INDEX`. -/
theorem getPortIndex_agrees (m : LV2Module)
    (hsym : (m.ports.map (fun e => e.symbol)).Nodup)
    (hdense : ∀ (i : Nat) (d : PortDescription), m.ports[i]? = some d → d.index = i)
    (hlen : m.ports.length ≤ 4294967296) :
    (∀ d ∈ m.ports, m.getPortIndex d.symbol = d.index
      ∧ m.portAt (m.getPortIndex d.symbol) = some d
      ∧ m.getPortName (m.getPortIndex d.symbol) = some d.name)
    ∧ (∀ symbol, (∀ d ∈ m.ports, d.symbol ≠ symbol) →
        m.getPortIndex symbol = LV2Module.invalidPortIndex) := by
  constructor
  · intro d hd
    obtain ⟨i, hi⟩ := List.getElem?_of_mem hd
    have hidx : d.index = i := hdense i d hi
    have hlt : i < m.ports.length := by
      by_contra hge
      rw [List.getElem?_eq_none (by omega)] at hi
      cases hi
    have hget : m.getPortIndex d.symbol = d.index := by
      unfold LV2Module.getPortIndex
      rw [find_symbol m.ports hsym d hd]
      exact Nat.mod_eq_of_lt (by omega)
    have hat : m.portAt (m.getPortIndex d.symbol) = some d := by
      rw [hget, hidx]
      exact hi
    exact ⟨hget, hat, by unfold LV2Module.getPortName; rw [hat]; rfl⟩
  · intro symbol hnone
    unfold LV2Module.getPortIndex
    have : m.ports.find? (fun port => port.symbol == symbol) = none := by
      rw [List.find?_eq_none]
      intro x hx
      simpa using hnone x hx
    rw [this]

theorem getPortIndex_agrees_witness :
    (scenarioModule.ports.map (fun e => e.symbol)).Nodup
    ∧ scenarioModule.getPortIndex "gain" = 4
    ∧ scenarioModule.getPortName (scenarioModule.getPortIndex "gain") = some "Gain"
    ∧ scenarioModule.getPortIndex "volume" = 4294967295 := by
  have hsym : (scenarioModule.ports.map (fun e => e.symbol)).Nodup := by decide
  have hdense : ∀ (i : Nat) (d : PortDescription), scenarioModule.ports[i]? = some d →
      d.index = i :=
    fun i d hd => ((create_spec sampleWorld scenarioPlugin 64 32).2.2.1 i d hd).1
  have h := getPortIndex_agrees scenarioModule hsym hdense (by decide)
  have hgain := h.1 ⟨PortType.Control, 4, 0, "gain", "Gain", true⟩ (by decide)
  exact ⟨hsym, hgain.1, hgain.2.2, h.2 "volume" (by decide)⟩

/-! ## Events with an unknown protocol -/

/-- What the drain loop does with an unknown protocol when the payload is not empty: a
complete inbound event with a non-empty payload whose protocol tag is not 0 is consumed in
full by one pass of the drain loop of `run` (header and payload are removed from the
inbound queue); the pass changes no port buffer, leaves the notification queue as it was
and logs no call; the loop goes on with the bytes queued after the event, so `run` with one
more pass behaves as `run` from the state in which the event is gone, and when those bytes
are events the loop is written for, they are all drained. -/
theorem drain_skips_unknown_protocol (plugin : Plugin) (m : LV2Module) (e : PortEvent)
    (payload rest : List Nat)
    (hc : Complete (e, payload)) (hpos : 0 < e.size) (hproto : e.protocol ≠ 0)
    (hb : m.events.bytes = e.encode ++ payload ++ rest) :
    ∃ m1, m.drainStep = Step.next m1
      ∧ m1.events.bytes = rest
      ∧ m1.buffers = m.buffers
      ∧ m1.notifications = m.notifications
      ∧ m1.calls = m.calls
      ∧ (∀ fuel nframes, m.run plugin (fuel + 1) nframes = m1.run plugin fuel nframes)
      ∧ (∀ evs : List (PortEvent × List Nat), rest = frame evs →
          (∀ x ∈ evs, Drainable m.buffers.length x) →
          ∃ m2, (∀ fuel, LV2Module.drainLoop (evs.length + fuel + 1) m
                    = LV2Module.drainLoop fuel m2)
            ∧ m2.events.bytes = []
            ∧ (∀ q, (∀ x ∈ evs, ¬ Targets q x) → m2.buffers[q]? = m.buffers[q]?)) := by
  have hne : (e.protocol == 0) = false := by
    cases h : e.protocol == 0 with
    | false => rfl
    | true => exact absurd (beq_iff_eq.mp h) hproto
  have hstep := drainStep_event m e payload rest hc hb hpos
  rw [hne] at hstep
  simp only [Bool.false_eq_true, if_false] at hstep
  refine ⟨_, hstep, rfl, rfl, rfl, rfl, ?_, ?_⟩
  · intro fuel nframes
    unfold LV2Module.run
    rw [drainLoop_succ_next m _ fuel hstep]
  · intro evs hrest hd
    obtain ⟨m2, hloop, hbytes, -, -, -, -, hbuf⟩ :=
      drainLoop_events evs
        { m with events := { m.events with bytes := rest },
                 evbuf := overwriteFront m.evbuf payload } []
        (by simp [hrest]) hd
    refine ⟨m2, ?_, hbytes, hbuf⟩
    intro fuel
    rw [drainLoop_succ_next m _ (evs.length + fuel) hstep]
    exact hloop fuel

/-- An event for port 4 with protocol tag 7 and the payload 0.5, written to the sample
module, whose port 4 holds 0.0: the pass consumes it, port 4 still holds 0.0, and nothing
is queued for notification. -/
theorem drain_skips_unknown_protocol_sample :
    Complete (PortEvent.mk 4 4 7, le32 half)
    ∧ (sampleModule.write 4 4 7 (le32 half)).events.bytes
        = (PortEvent.mk 4 4 7).encode ++ le32 half ++ []
    ∧ ∃ m1, (sampleModule.write 4 4 7 (le32 half)).drainStep = Step.next m1
        ∧ m1.events.bytes = []
        ∧ m1.buffers = sampleModule.buffers
        ∧ m1.notifications.bytes = [] := by
  have hc : Complete (PortEvent.mk 4 4 7, le32 half) := by unfold Complete; decide
  obtain ⟨m1, hstep, hbytes, hbuf, hnot, -, -, -⟩ :=
    drain_skips_unknown_protocol samplePlugin (sampleModule.write 4 4 7 (le32 half))
      (PortEvent.mk 4 4 7) (le32 half) [] hc (by decide) (by decide) (by decide)
  exact ⟨hc, by decide, m1, hstep, hbytes, hbuf, by rw [hnot]; decide⟩

/-- C25 (fails on the code): an inbound event whose protocol tag is not 0 and whose payload
is empty is not consumed by `run`. When the inbound queue starts with the header of such an
event, whatever is queued after it, a pass of the drain loop leaves the module exactly as
it is, the loop has not been left after any number of passes, and `run` does not get past
it: the header stays at the front of the queue and the events behind it are never
processed. -/
theorem run_stalls_on_unknown_protocol (plugin : Plugin) (m : LV2Module) (e : PortEvent)
    (rest : List Nat) (hi : e.index < 4294967296) (hz : e.size = 0)
    (hp : e.protocol < 4294967296) (hproto : e.protocol ≠ 0)
    (hb : m.events.bytes = e.encode ++ rest) (fuel nframes : Nat) :
    (e.protocol == 0) = false
    ∧ m.drainStep = Step.next m
    ∧ LV2Module.drainLoop fuel m = Outcome.outOfFuel m
    ∧ m.run plugin fuel nframes = Outcome.outOfFuel m := by
  have hne : (e.protocol == 0) = false := by
    cases h : e.protocol == 0 with
    | false => rfl
    | true => exact absurd (beq_iff_eq.mp h) hproto
  have hstep := drainStep_size_zero m e rest hi hz hp hb
  refine ⟨hne, hstep, drainLoop_stall m hstep fuel, ?_⟩
  simp only [LV2Module.run, drainLoop_stall m hstep fuel]

/-- C25 at the failing input: on the sample module, whose port 4 holds 0.0, an event for
port 4 with protocol tag 7 and no payload is written, and after it a protocol-0 event that
sets port 4 to 0.5. Both writes are accepted; `run` with a bound of 1000 passes has not
left its drain loop, port 4 still holds 0.0 and both events are still queued. -/
theorem run_stalls_on_unknown_protocol_witness :
    ((sampleModule.write 4 0 7 []).write 4 4 0 (le32 half)).events.bytes
        = (PortEvent.mk 4 0 7).encode ++ ((PortEvent.mk 4 4 0).encode ++ le32 half)
    ∧ ((sampleModule.write 4 0 7 []).write 4 4 0 (le32 half)).run samplePlugin 1000 512
        = Outcome.outOfFuel ((sampleModule.write 4 0 7 []).write 4 4 0 (le32 half))
    ∧ (((sampleModule.write 4 0 7 []).write 4 4 0 (le32 half)).buffers[4]?).map
        PortBuffer.getValue = some 0 :=
  ⟨by decide,
   (run_stalls_on_unknown_protocol samplePlugin
      ((sampleModule.write 4 0 7 []).write 4 4 0 (le32 half)) (PortEvent.mk 4 0 7)
      ((PortEvent.mk 4 4 0).encode ++ le32 half) (by decide) rfl (by decide) (by decide)
      (by decide) 1000 512).2.2.2,
   by decide⟩

/-! ## Port ranges -/

/-- The port loop of `init` leaves the port count and the cached ranges as they are. -/
theorem initLoop_ranges (world : World) (plugin : Plugin) (eventBufferSize : Nat)
    (l : List Nat) :
    ∀ acc : LV2Module,
      (l.foldl (fun acc p =>
          match plugin.ports[p]? with
          | some port => LV2Module.initPort world eventBufferSize acc p port
          | none => acc) acc).numPorts = acc.numPorts
      ∧ (l.foldl (fun acc p =>
          match plugin.ports[p]? with
          | some port => LV2Module.initPort world eventBufferSize acc p port
          | none => acc) acc).mins = acc.mins
      ∧ (l.foldl (fun acc p =>
          match plugin.ports[p]? with
          | some port => LV2Module.initPort world eventBufferSize acc p port
          | none => acc) acc).maxes = acc.maxes
      ∧ (l.foldl (fun acc p =>
          match plugin.ports[p]? with
          | some port => LV2Module.initPort world eventBufferSize acc p port
          | none => acc) acc).defaults = acc.defaults := by
  induction l with
  | nil => intro acc; exact ⟨rfl, rfl, rfl, rfl⟩
  | cons p l ih =>
    intro acc
    simp only [List.foldl_cons]
    obtain ⟨h1, h2, h3, h4⟩ := ih (match plugin.ports[p]? with
      | some port => LV2Module.initPort world eventBufferSize acc p port
      | none => acc)
    rw [h1, h2, h3, h4]
    split <;> exact ⟨rfl, rfl, rfl, rfl⟩

/-- After construction the port count is that of the plugin and the cached ranges are the
ranges of its ports. -/
theorem create_ranges (world : World) (plugin : Plugin) (ringBufferSize eventBufferSize : Nat) :
    (LV2Module.create world plugin ringBufferSize eventBufferSize).numPorts
        = plugin.ports.length
    ∧ (LV2Module.create world plugin ringBufferSize eventBufferSize).mins
        = plugin.ports.map (fun port => port.minValue)
    ∧ (LV2Module.create world plugin ringBufferSize eventBufferSize).maxes
        = plugin.ports.map (fun port => port.maxValue)
    ∧ (LV2Module.create world plugin ringBufferSize eventBufferSize).defaults
        = plugin.ports.map (fun port => port.defaultValue) := by
  obtain ⟨h1, h2, h3, h4⟩ := initLoop_ranges world plugin eventBufferSize
    (List.range plugin.ports.length)
    { LV2Module.blank plugin with
      events := { capacity := ringBufferSize, bytes := [] }
      evbuf := List.replicate (max (LV2Module.blank plugin).evbuf.length ringBufferSize) 0
      notifications := { capacity := ringBufferSize, bytes := [] }
      ntbuf := List.replicate (max (LV2Module.blank plugin).ntbuf.length ringBufferSize) 0
      mins := plugin.ports.map (fun port => port.minValue)
      maxes := plugin.ports.map (fun port => port.maxValue)
      defaults := plugin.ports.map (fun port => port.defaultValue) }
  unfold LV2Module.create LV2Module.init
  dsimp only at h1 h2 h3 h4 ⊢
  refine ⟨?_, ?_, ?_, ?_⟩
  · erw [h1]; rfl
  · erw [h2]
  · erw [h3]
  · erw [h4]

/-- C27: `getPortRange (port, min, max, def)` with `port >= numPorts` is a no-op that
leaves `min`, `max` and `def` as the caller passed them; with a valid index it returns the
cached minimum, maximum and default of the port, except that a cached default that is a
NaN is replaced by the minimum. For a constructed module the port count is that of the
plugin and the cached values are the ranges of the plugin's port. -/
theorem getPortRange_spec (m : LV2Module) (port min max dflt : Nat) :
    (m.numPorts ≤ port → m.getPortRange port min max dflt = (min, max, dflt))
    ∧ (port < m.numPorts →
        m.getPortRange port min max dflt
          = (m.mins.getD port 0, m.maxes.getD port 0,
             if floatIsNaN (m.defaults.getD port 0) then m.mins.getD port 0
             else m.defaults.getD port 0))
    ∧ (∀ (world : World) (plugin : Plugin) (ringBufferSize eventBufferSize : Nat)
        (p : LilvPort), plugin.ports[port]? = some p →
        (LV2Module.create world plugin ringBufferSize eventBufferSize).getPortRange
            port min max dflt
          = (p.minValue, p.maxValue,
             if floatIsNaN p.defaultValue then p.minValue else p.defaultValue)) := by
  refine ⟨?_, ?_, ?_⟩
  · intro h
    unfold LV2Module.getPortRange
    rw [if_pos h]
  · intro h
    unfold LV2Module.getPortRange
    rw [if_neg (Nat.not_le.mpr h)]
  · intro world plugin ringBufferSize eventBufferSize p hp
    obtain ⟨h1, h2, h3, h4⟩ := create_ranges world plugin ringBufferSize eventBufferSize
    have hlt : port < plugin.ports.length := by
      by_contra hge
      rw [List.getElem?_eq_none (Nat.not_lt.mp hge)] at hp
      exact Option.noConfusion hp
    unfold LV2Module.getPortRange
    rw [if_neg (by rw [h1]; exact Nat.not_le.mpr hlt), h2, h3, h4]
    simp only [List.getD_eq_getElem?_getD, List.getElem?_map, hp, Option.map_some',
      Option.getD_some]

/-- C27 at concrete inputs: a module with one port whose cached default is a NaN; index 1
is out of range and leaves the caller's values (7, 8, 9), index 0 returns minimum, maximum
and the minimum in place of the NaN default. -/
theorem getPortRange_spec_witness :
    (LV2Module.create sampleWorld nanDefaultPlugin 64 32).getPortRange 1 7 8 9 = (7, 8, 9)
    ∧ (LV2Module.create sampleWorld nanDefaultPlugin 64 32).getPortRange 0 7 8 9
        = (0, 1065353216, 0) :=
  ⟨(getPortRange_spec (LV2Module.create sampleWorld nanDefaultPlugin 64 32) 1 7 8 9).1
      (by decide),
   (getPortRange_spec (LV2Module.create sampleWorld nanDefaultPlugin 64 32) 0 7 8 9).2.2
      sampleWorld nanDefaultPlugin 64 32
      (lilvPort false false true true "gain" "Gain" 2143289344) rfl⟩

/-! ## The lifecycle invariant -/

theorem activate_frame (m : LV2Module) :
    m.activate.inst = m.inst ∧ m.activate.worker = m.worker := by
  unfold LV2Module.activate
  split
  · split <;> exact ⟨rfl, rfl⟩
  · exact ⟨rfl, rfl⟩

/-- Whatever the state before, after `instantiate` a Worker Bridge is attached only when an
instance is held. -/
theorem instantiate_worker_held (world : World) (plugin : Plugin) (r : Nat) (m : LV2Module)
    (h : (m.instantiate world plugin r).2.inst = none) :
    (m.instantiate world plugin r).2.worker = none := by
  rw [(instantiate_native world plugin r m).1] at h
  exact (instantiate_native_none world plugin r m h).2.2.1

theorem worker_apply (world : World) (plugin : Plugin) (m : LV2Module) (op : LifecycleOp)
    (h : m.inst = none → m.worker = none) :
    (op.apply world plugin m).inst = none → (op.apply world plugin m).worker = none := by
  cases op with
  | instantiate rate => exact instantiate_worker_held world plugin rate m
  | activate =>
    intro hi
    change m.activate.inst = none at hi
    change m.activate.worker = none
    rw [(activate_frame m).1] at hi
    rw [(activate_frame m).2]
    exact h hi
  | deactivate =>
    intro hi
    change m.deactivate.inst = none at hi
    change m.deactivate.worker = none
    rw [(deactivate_frame m).2.2.1] at hi
    rw [(deactivate_frame m).2.2.2.1]
    exact h hi
  | freeInstance =>
    intro _
    change m.freeInstance.worker = none
    rw [(freeInstance_spec m).1]
    cases hi : m.inst with
    | none => simpa using h hi
    | some h0 => simp
  | setSampleRate rate =>
    change (m.setSampleRate world plugin rate).inst = none
      → (m.setSampleRate world plugin rate).worker = none
    unfold LV2Module.setSampleRate
    split
    · exact h
    · split
      · dsimp only
        split
        · intro hi
          rw [(activate_frame _).1] at hi
          rw [(activate_frame _).2]
          exact instantiate_worker_held world plugin rate m.freeInstance hi
        · exact instantiate_worker_held world plugin rate m.freeInstance
      · exact h

theorem worker_foldl (world : World) (plugin : Plugin) (ops : List LifecycleOp) :
    ∀ m : LV2Module, (m.inst = none → m.worker = none) →
      (ops.foldl (LifecycleOp.apply world plugin) m).inst = none →
      (ops.foldl (LifecycleOp.apply world plugin) m).worker = none := by
  induction ops with
  | nil => intro m h; exact h
  | cons op ops ih =>
    intro m h
    exact ih _ (worker_apply world plugin m op h)

/-- The port loop of `init` leaves the Worker Bridge as it is. -/
theorem initLoop_worker (world : World) (plugin : Plugin) (eventBufferSize : Nat)
    (l : List Nat) :
    ∀ acc : LV2Module,
      (l.foldl (fun acc p =>
          match plugin.ports[p]? with
          | some port => LV2Module.initPort world eventBufferSize acc p port
          | none => acc) acc).worker = acc.worker := by
  induction l with
  | nil => intro acc; rfl
  | cons p l ih =>
    intro acc
    simp only [List.foldl_cons]
    rw [ih]
    split <;> rfl

theorem create_worker (world : World) (plugin : Plugin) (ringBufferSize eventBufferSize : Nat) :
    (LV2Module.create world plugin ringBufferSize eventBufferSize).worker = none := by
  have h := initLoop_worker world plugin eventBufferSize (List.range plugin.ports.length)
    { LV2Module.blank plugin with
      events := { capacity := ringBufferSize, bytes := [] }
      evbuf := List.replicate (max (LV2Module.blank plugin).evbuf.length ringBufferSize) 0
      notifications := { capacity := ringBufferSize, bytes := [] }
      ntbuf := List.replicate (max (LV2Module.blank plugin).ntbuf.length ringBufferSize) 0
      mins := plugin.ports.map (fun port => port.minValue)
      maxes := plugin.ports.map (fun port => port.maxValue)
      defaults := plugin.ports.map (fun port => port.defaultValue) }
  unfold LV2Module.create LV2Module.init
  dsimp only at h ⊢
  erw [h]
  rfl

/-- C28: in every state reached from construction by any sequence of `instantiate`,
`activate`, `deactivate`, `freeInstance` and `setSampleRate` (failed instantiations
included, since the native instantiate and the worker data are arbitrary), the active flag
is set only while a native instance is held, and a Worker Bridge is attached only while an
instance is held; hence `isActive ()` equals the raw active flag. -/
theorem lifecycle_invariant (world : World) (plugin : Plugin)
    (ringBufferSize eventBufferSize : Nat) (ops : List LifecycleOp) :
    ((ops.foldl (LifecycleOp.apply world plugin)
        (LV2Module.create world plugin ringBufferSize eventBufferSize)).active = true →
      (ops.foldl (LifecycleOp.apply world plugin)
        (LV2Module.create world plugin ringBufferSize eventBufferSize)).inst.isSome = true)
    ∧ ((ops.foldl (LifecycleOp.apply world plugin)
        (LV2Module.create world plugin ringBufferSize eventBufferSize)).worker.isSome = true →
      (ops.foldl (LifecycleOp.apply world plugin)
        (LV2Module.create world plugin ringBufferSize eventBufferSize)).inst.isSome = true)
    ∧ (ops.foldl (LifecycleOp.apply world plugin)
        (LV2Module.create world plugin ringBufferSize eventBufferSize)).isActive
      = (ops.foldl (LifecycleOp.apply world plugin)
        (LV2Module.create world plugin ringBufferSize eventBufferSize)).active := by
  have hp := (protocol_foldl world plugin ops _
    (protocol_create world plugin ringBufferSize eventBufferSize)).2
  have hw := worker_foldl world plugin ops
    (LV2Module.create world plugin ringBufferSize eventBufferSize)
    (fun _ => create_worker world plugin ringBufferSize eventBufferSize)
  generalize ops.foldl (LifecycleOp.apply world plugin)
    (LV2Module.create world plugin ringBufferSize eventBufferSize) = m at hp hw
  unfold LV2Module.isActive
  cases hi : m.inst with
  | none =>
    have ha := hp hi
    have hwn := hw hi
    rw [ha, hwn]
    exact ⟨fun h => Bool.noConfusion h, fun h => Bool.noConfusion h, rfl⟩
  | some h0 =>
    exact ⟨fun _ => rfl, fun _ => rfl, by simp⟩

/-- C28 at concrete inputs: the scenario module goes through an activation before any
instance exists, an instantiation at 48000 Hz, an activation, a change of sample rate to
44100 Hz and a release; its `isActive ()` is its active flag. -/
theorem lifecycle_invariant_witness :
    ([LifecycleOp.activate, LifecycleOp.instantiate 4676829883349860352,
        LifecycleOp.activate, LifecycleOp.setSampleRate 4676293871431319552,
        LifecycleOp.freeInstance].foldl (LifecycleOp.apply sampleWorld scenarioPlugin)
        (LV2Module.create sampleWorld scenarioPlugin 64 32)).isActive
      = ([LifecycleOp.activate, LifecycleOp.instantiate 4676829883349860352,
        LifecycleOp.activate, LifecycleOp.setSampleRate 4676293871431319552,
        LifecycleOp.freeInstance].foldl (LifecycleOp.apply sampleWorld scenarioPlugin)
        (LV2Module.create sampleWorld scenarioPlugin 64 32)).active :=
  (lifecycle_invariant sampleWorld scenarioPlugin 64 32
    [LifecycleOp.activate, LifecycleOp.instantiate 4676829883349860352,
      LifecycleOp.activate, LifecycleOp.setSampleRate 4676293871431319552,
      LifecycleOp.freeInstance]).2.2

/-! ## The notification queue -/

/-- What one pass of the loop of `timerCallback` does when the queue starts with a complete
event of positive size. -/
theorem timerStep_event (m : LV2Module) (e : PortEvent) (payload rest : List Nat)
    (hc : Complete (e, payload)) (hb : m.notifications.bytes = e.encode ++ payload ++ rest)
    (hpos : 0 < e.size) :
    m.timerStep = Step.next { m with
      notifications := { m.notifications with bytes := rest }
      ntbuf := overwriteFront m.ntbuf payload
      calls := m.calls ++ deliveryCalls m.hasUI m.hasOnPortNotify (e, payload) } := by
  obtain ⟨hi, hs, hp, hl⟩ := hc
  simp only [] at hi hs hp hl
  have hlen : m.notifications.bytes.length = pesize + e.size + rest.length := by
    rw [hb]; simp [encode_length, hl]; omega
  have hpeek : m.notifications.peek pesize = e.encode := by
    simp [RingBuffer.peek, hb, List.append_assoc, List.take_append_of_le_length, encode_length]
  have hdec : PortEvent.decode e.encode = e := by
    have := decode_encode_append e [] hi hs hp
    simpa using this
  have hcr : m.notifications.canRead pesize = true := by
    simp [RingBuffer.canRead, hlen]; omega
  have hcr2 : m.notifications.canRead ((pesize + e.size) % 4294967296) = true := by
    simp only [RingBuffer.canRead, hlen, decide_eq_true_eq]
    have := Nat.mod_le (pesize + e.size) 4294967296
    omega
  have hadv : (m.notifications.advance pesize).bytes = payload ++ rest := by
    simp [RingBuffer.advance, hb, List.append_assoc, encode_length]
  have hpay : (m.notifications.advance pesize).peek e.size = payload := by
    simp [RingBuffer.peek, hadv, ← hl]
  have hadv2 : ((m.notifications.advance pesize).advance e.size)
      = { m.notifications with bytes := rest } := by
    simp [RingBuffer.advance, hb, List.append_assoc, encode_length, ← hl]
  have htake : (overwriteFront m.ntbuf payload).take e.size = payload := by
    rw [← hl]; exact overwriteFront_take _ _
  unfold LV2Module.timerStep deliveryCalls
  simp only [hcr, hdec, hcr2, hpos, hpay, hadv2, hpeek, htake, Bool.not_true, decide_True,
    Bool.and_self, if_true, Bool.false_eq_true, if_false]
  cases hproto : e.protocol == 0 with
  | true => simp only [if_true, List.append_assoc]
  | false => simp only [Bool.false_eq_true, if_false, List.append_nil]

theorem timerStep_nil (m : LV2Module) (hb : m.notifications.bytes = []) :
    m.timerStep = Step.stop := by
  unfold LV2Module.timerStep
  simp [RingBuffer.canRead, hb, pesize]

/-- The loop of `timerCallback` over a queue of complete events with non-empty payloads:
it leaves the loop after one pass per event and one more, with the queue empty and each
event handed on once, in the order of the queue. -/
theorem timerCallback_events (evs : List (PortEvent × List Nat)) :
    ∀ m : LV2Module, m.notifications.bytes = frame evs →
      (∀ e ∈ evs, Complete e ∧ 0 < e.1.size) →
      ∃ m1, (∀ fuel, m.timerCallback (evs.length + fuel + 1) = Outcome.done m1)
        ∧ m1.notifications.bytes = []
        ∧ m1.calls = m.calls
            ++ (evs.map (deliveryCalls m.hasUI m.hasOnPortNotify)).flatten
        ∧ m1.buffers = m.buffers ∧ m1.events = m.events := by
  induction evs with
  | nil =>
    intro m hb _
    refine ⟨m, ?_, by simpa [frame] using hb, by simp, rfl, rfl⟩
    intro fuel
    have hstop := timerStep_nil m (by simpa [frame] using hb)
    simp only [List.length_nil, Nat.zero_add]
    unfold LV2Module.timerCallback
    rw [hstop]
  | cons e evs ih =>
    intro m hb hc
    have hce := hc e (List.mem_cons_self _ _)
    rw [frame_cons] at hb
    have hstep := timerStep_event m e.1 e.2 (frame evs) hce.1 hb hce.2
    obtain ⟨m1, hloop, hbytes, hcalls, hbuf, hev⟩ :=
      ih { m with
        notifications := { m.notifications with bytes := frame evs }
        ntbuf := overwriteFront m.ntbuf e.2
        calls := m.calls ++ deliveryCalls m.hasUI m.hasOnPortNotify (e.1, e.2) }
        rfl (fun x hx => hc x (List.mem_cons_of_mem _ hx))
    refine ⟨m1, ?_, hbytes, ?_, hbuf, hev⟩
    · intro fuel
      have h1 : (e :: evs).length + fuel + 1 = (evs.length + fuel + 1) + 1 := by
        simp only [List.length_cons]; omega
      rw [h1]
      show LV2Module.timerCallback ((evs.length + fuel + 1) + 1) m = Outcome.done m1
      rw [LV2Module.timerCallback, hstep]
      exact hloop fuel
    · rw [hcalls]
      simp only [List.map_cons, List.flatten_cons, List.append_assoc]

/-- A pass of the drain loop never lengthens the inbound queue and keeps its capacity. -/
theorem drainStep_shrinks (m m1 : LV2Module) (h : m.drainStep = Step.next m1) :
    m1.events.capacity = m.events.capacity
      ∧ m1.events.bytes.length ≤ m.events.bytes.length := by
  have hdrop : ((m.events.advance pesize).advance
        (PortEvent.decode (m.events.peek pesize)).size).bytes.length
      ≤ m.events.bytes.length := by
    simp only [RingBuffer.advance, List.length_drop]
    omega
  unfold LV2Module.drainStep at h
  split at h
  · cases h
  · dsimp only at h
    split at h
    · split at h
      · split at h
        · cases h
        · split at h
          · split at h <;> (cases h; exact ⟨rfl, hdrop⟩)
          · cases h; exact ⟨rfl, hdrop⟩
      · cases h; exact ⟨rfl, hdrop⟩
    · cases h; exact ⟨rfl, le_refl _⟩

/-- A pass of the drain loop keeps the notification queue a sequence of forwarded events:
what it appends is the header and the payload of a complete protocol-0 event with a
non-empty payload, and only when both fit. -/
theorem notified_drainStep (m m1 : LV2Module) (hf : Framed m.events.bytes)
    (hlen : m.events.bytes.length < 4294967296) (hn : Notified m.notifications.bytes)
    (hstep : m.drainStep = Step.next m1) : Notified m1.notifications.bytes := by
  obtain ⟨evs, hb, hc⟩ := hf
  cases evs with
  | nil =>
    rw [drainStep_nil m (by simpa [frame] using hb)] at hstep
    cases hstep
  | cons e evs =>
    have hce := hc e (List.mem_cons_self _ _)
    rw [frame_cons] at hb
    by_cases hz : e.1.size = 0
    · rw [drainStep_size_zero m e.1 (e.2 ++ frame evs) hce.1 hz hce.2.2.1
        (by rw [hb, List.append_assoc])] at hstep
      cases hstep
      exact hn
    · have hsum : pesize + e.1.size < 4294967296 := by
        have h1 := congrArg List.length hb
        simp only [List.length_append, encode_length, hce.2.2.2] at h1
        omega
      rw [drainStep_event m e.1 e.2 (frame evs) hce hb (by omega)] at hstep
      split at hstep
      · next hproto =>
        split at hstep
        · cases hstep
        · split at hstep
          · split at hstep
            · next hw =>
              cases hstep
              rw [Nat.mod_eq_of_lt hsum] at hw
              have hw2 : m.notifications.canWrite (e.1.encode.length + e.2.length) = true := by
                rw [encode_length, hce.2.2.2]; exact hw
              obtain ⟨nevs, hnb, hnc⟩ := hn
              refine ⟨nevs ++ [e], ?_, ?_⟩
              · show ((m.notifications.write e.1.encode).write e.2).bytes = frame (nevs ++ [e])
                rw [ring_write_two m.notifications e.1.encode e.2 hw2, frame_append, hnb]
                simp [frame]
              · intro x hx
                rcases List.mem_append.mp hx with hx | hx
                · exact hnc x hx
                · rw [List.mem_singleton.mp hx]
                  exact ⟨hce, by omega, beq_iff_eq.mp hproto⟩
            · cases hstep; exact hn
          · cases hstep; exact hn
      · cases hstep; exact hn

/-- A `write` and a pass of the drain loop keep the two queues as they should be. -/
theorem queues_apply (m : LV2Module) (op : InboundOp) (hv : op.Valid) (h : m.QueuesKept) :
    (op.apply m).QueuesKept := by
  obtain ⟨hf, hlen, hcap, hn⟩ := h
  cases op with
  | write port size protocol buffer =>
    refine ⟨framed_write m port size protocol buffer hv hf, ?_⟩
    show (m.write port size protocol buffer).events.bytes.length
        ≤ (m.write port size protocol buffer).events.capacity
      ∧ (m.write port size protocol buffer).events.capacity < 4294967296
      ∧ Notified (m.write port size protocol buffer).notifications.bytes
    cases hw : m.events.canWrite (pesize + size) with
    | false =>
      rw [write_reject m port size protocol buffer hw]
      exact ⟨hlen, hcap, hn⟩
    | true =>
      rw [write_accept m port size protocol buffer hw]
      refine ⟨?_, hcap, hn⟩
      simp only [RingBuffer.canWrite, decide_eq_true_eq] at hw
      simp only [List.length_append, encode_length, List.length_take]
      have := Nat.min_le_left size buffer.length
      omega
  | drainPass =>
    simp only [InboundOp.apply]
    split
    · next m1 hstep =>
      obtain ⟨hc1, hl1⟩ := drainStep_shrinks m m1 hstep
      exact ⟨framed_drainStep m m1 hf hstep, by rw [hc1]; omega, by rw [hc1]; exact hcap,
        notified_drainStep m m1 hf (by omega) hn hstep⟩
    · exact ⟨hf, hlen, hcap, hn⟩

theorem queues_foldl (ops : List InboundOp) (m : LV2Module)
    (hv : ∀ op ∈ ops, op.Valid) (h : m.QueuesKept) :
    (ops.foldl InboundOp.apply m).QueuesKept := by
  induction ops generalizing m with
  | nil => exact h
  | cons op ops ih =>
    simp only [List.foldl_cons]
    exact ih (op.apply m) (fun o ho => hv o (List.mem_cons_of_mem _ ho))
      (queues_apply m op (hv op (List.mem_cons_self _ _)) h)

/-- The port loop of `init` leaves the two queues as they are. -/
theorem initLoop_queues (world : World) (plugin : Plugin) (eventBufferSize : Nat)
    (l : List Nat) :
    ∀ acc : LV2Module,
      (l.foldl (fun acc p =>
          match plugin.ports[p]? with
          | some port => LV2Module.initPort world eventBufferSize acc p port
          | none => acc) acc).events = acc.events
      ∧ (l.foldl (fun acc p =>
          match plugin.ports[p]? with
          | some port => LV2Module.initPort world eventBufferSize acc p port
          | none => acc) acc).notifications = acc.notifications := by
  induction l with
  | nil => intro acc; exact ⟨rfl, rfl⟩
  | cons p l ih =>
    intro acc
    simp only [List.foldl_cons]
    obtain ⟨h1, h2⟩ := ih (match plugin.ports[p]? with
      | some port => LV2Module.initPort world eventBufferSize acc p port
      | none => acc)
    rw [h1, h2]
    split <;> exact ⟨rfl, rfl⟩

/-- A newly constructed module has two empty queues of the ring buffer size. -/
theorem create_queues (world : World) (plugin : Plugin) (ringBufferSize eventBufferSize : Nat) :
    (LV2Module.create world plugin ringBufferSize eventBufferSize).events
        = { capacity := ringBufferSize, bytes := [] }
    ∧ (LV2Module.create world plugin ringBufferSize eventBufferSize).notifications
        = { capacity := ringBufferSize, bytes := [] } := by
  obtain ⟨h1, h2⟩ := initLoop_queues world plugin eventBufferSize
    (List.range plugin.ports.length)
    { LV2Module.blank plugin with
      events := { capacity := ringBufferSize, bytes := [] }
      evbuf := List.replicate (max (LV2Module.blank plugin).evbuf.length ringBufferSize) 0
      notifications := { capacity := ringBufferSize, bytes := [] }
      ntbuf := List.replicate (max (LV2Module.blank plugin).ntbuf.length ringBufferSize) 0
      mins := plugin.ports.map (fun port => port.minValue)
      maxes := plugin.ports.map (fun port => port.maxValue)
      defaults := plugin.ports.map (fun port => port.defaultValue) }
  unfold LV2Module.create LV2Module.init
  dsimp only at h1 h2 ⊢
  refine ⟨?_, ?_⟩
  · erw [h1]
  · erw [h2]

theorem create_queuesKept (world : World) (plugin : Plugin)
    (ringBufferSize eventBufferSize : Nat) (hcap : ringBufferSize < 4294967296) :
    (LV2Module.create world plugin ringBufferSize eventBufferSize).QueuesKept := by
  obtain ⟨h1, h2⟩ := create_queues world plugin ringBufferSize eventBufferSize
  unfold LV2Module.QueuesKept
  rw [h1, h2]
  exact ⟨⟨[], rfl, fun e he => absurd he (List.not_mem_nil e)⟩, Nat.zero_le _, hcap,
    ⟨[], rfl, fun e he => absurd he (List.not_mem_nil e)⟩⟩

/-- C29: take a module whose queues are as construction leaves them or as `write` and
`run` keep them (the inbound queue framed and within its 32-bit capacity, the notification
queue a sequence of forwarded events; a newly constructed module is such a module, with or
without editor and `onPortNotify`). In every state it reaches by calls of `write` with
valid arguments and passes of the drain loop of `run`, the notification queue is a sequence
of complete events with non-empty payloads and protocol tag 0. On such a state
`timerCallback` leaves its loop after one pass per queued event and one more, with the
notification queue empty, the port buffers and the inbound queue untouched, and its calls
are, for each queued event in the order of the queue, one `portEvent` of the editor (when
there is one) followed by one `onPortNotify` (when it is set), each with the port index,
size, protocol and payload of that event. -/
theorem timerCallback_delivers (m : LV2Module) (ops : List InboundOp)
    (h : m.QueuesKept) (hv : ∀ op ∈ ops, op.Valid) :
    ∃ evs : List (PortEvent × List Nat),
      (ops.foldl InboundOp.apply m).notifications.bytes = frame evs
      ∧ (∀ e ∈ evs, Complete e ∧ 0 < e.1.size ∧ e.1.protocol = 0)
      ∧ ∃ m1, (∀ fuel, (ops.foldl InboundOp.apply m).timerCallback (evs.length + fuel + 1)
                  = Outcome.done m1)
        ∧ m1.notifications.bytes = []
        ∧ m1.calls = (ops.foldl InboundOp.apply m).calls
            ++ (evs.map (deliveryCalls (ops.foldl InboundOp.apply m).hasUI
                  (ops.foldl InboundOp.apply m).hasOnPortNotify)).flatten
        ∧ m1.buffers = (ops.foldl InboundOp.apply m).buffers
        ∧ m1.events = (ops.foldl InboundOp.apply m).events := by
  obtain ⟨-, -, -, evs, hb, hc⟩ := queues_foldl ops m hv h
  exact ⟨evs, hb, hc,
    timerCallback_events evs _ hb (fun e he => ⟨(hc e he).1, (hc e he).2.1⟩)⟩

/-- C29 at concrete inputs: the module constructed for the scenario plugin, with an editor
and `onPortNotify`; the value 1.0 is written for the control port 4 (default 0.5) and one
pass of the drain loop forwards it. The timer then delivers what is queued and empties the
queue. -/
theorem timerCallback_delivers_witness :
    ∃ evs : List (PortEvent × List Nat),
      ([InboundOp.write 4 4 0 (le32 1065353216), InboundOp.drainPass].foldl InboundOp.apply
          notifyingModule).notifications.bytes = frame evs
      ∧ (∀ e ∈ evs, Complete e ∧ 0 < e.1.size ∧ e.1.protocol = 0)
      ∧ ∃ m1, (∀ fuel,
          ([InboundOp.write 4 4 0 (le32 1065353216), InboundOp.drainPass].foldl
            InboundOp.apply notifyingModule).timerCallback (evs.length + fuel + 1)
              = Outcome.done m1)
        ∧ m1.notifications.bytes = [] := by
  obtain ⟨evs, hb, hc, m1, hloop, hbytes, -⟩ :=
    timerCallback_delivers notifyingModule
      [InboundOp.write 4 4 0 (le32 1065353216), InboundOp.drainPass]
      ⟨⟨[], by decide, fun e he => absurd he (List.not_mem_nil e)⟩, by decide, by decide,
        ⟨[], by decide, fun e he => absurd he (List.not_mem_nil e)⟩⟩
      (by
        intro op hop
        simp only [List.mem_cons, List.mem_singleton, List.not_mem_nil, or_false] at hop
        rcases hop with rfl | rfl
        · exact ⟨by decide, by decide, by decide, by decide⟩
        · exact True.intro)
  exact ⟨evs, hb, hc, m1, hloop, hbytes⟩

/-- The scenario of C29 evaluated: after the write and the drain pass the notification
queue holds the one event, and the timer hands it to the editor and then to
`onPortNotify`, with index 4, size 4, protocol 0 and the four payload bytes of 1.0. -/
theorem timerCallback_scenario :
    ([InboundOp.write 4 4 0 (le32 1065353216), InboundOp.drainPass].foldl InboundOp.apply
        notifyingModule).notifications.bytes
      = frame [(PortEvent.mk 4 4 0, le32 1065353216)]
    ∧ (([InboundOp.write 4 4 0 (le32 1065353216), InboundOp.drainPass].foldl InboundOp.apply
        notifyingModule).timerCallback 2).state?.map (fun x => x.calls)
      = some [Call.uiPortEvent 4 4 0 (le32 1065353216),
              Call.onPortNotify 4 4 0 (le32 1065353216)] := by
  decide

/-! ## The port list of the audio router -/

/-- A loop of `AudioRouterNode::refreshPorts` over `k` channels: it advances both counters
by `k` and appends one audio port per pass, numbered from the counters. -/
theorem router_loop (isInput : Bool) (k : Nat) (b : PortBuilder) :
    ((List.range k).foldl (AudioRouterNode.addAudioPort isInput) b).index = b.index + k
    ∧ ((List.range k).foldl (AudioRouterNode.addAudioPort isInput) b).channel = b.channel + k
    ∧ ((List.range k).foldl (AudioRouterNode.addAudioPort isInput) b).newPorts
        = b.newPorts ++ (List.range k).map (fun i =>
            { type := PortType.Audio, index := b.index + i, channel := b.channel + i,
              symbol := (if isInput then "audio_in_" else "audio_out_") ++ toString i,
              name := (if isInput then "Input " else "Output ") ++ toString (i + 1),
              input := isInput }) := by
  induction k with
  | zero => simp
  | succ k ih =>
    obtain ⟨h1, h2, h3⟩ := ih
    rw [List.range_succ, List.foldl_append]
    simp only [List.foldl_cons, List.foldl_nil, List.map_append, List.map_cons, List.map_nil]
    generalize (List.range k).foldl (AudioRouterNode.addAudioPort isInput) b = r at h1 h2 h3 ⊢
    simp only [AudioRouterNode.addAudioPort, portListAdd, h1, h2, h3, List.append_assoc]
    exact ⟨by omega, by omega, trivial⟩

/-- The port list that `AudioRouterNode::refreshPorts` builds and the final value of its
index counter. -/
theorem router_buildPorts (n : AudioRouterNode) :
    (AudioRouterNode.buildPorts n).index = n.numSources.toNat + n.numDestinations.toNat + 1
    ∧ (AudioRouterNode.buildPorts n).newPorts
        = (List.range n.numSources.toNat).map (fun i =>
            ({ type := PortType.Audio, index := i, channel := i,
               symbol := "audio_in_" ++ toString i, name := "Input " ++ toString (i + 1),
               input := true } : PortDescription))
          ++ (List.range n.numDestinations.toNat).map (fun i =>
            ({ type := PortType.Audio, index := n.numSources.toNat + i, channel := i,
               symbol := "audio_out_" ++ toString i, name := "Output " ++ toString (i + 1),
               input := false } : PortDescription))
          ++ [{ type := PortType.Midi,
                index := n.numSources.toNat + n.numDestinations.toNat, channel := 0,
                symbol := "midi_in", name := "MIDI In", input := true }] := by
  obtain ⟨a1, -, a3⟩ := router_loop true n.numSources.toNat {}
  obtain ⟨b1, -, b3⟩ := router_loop false n.numDestinations.toNat
    { (List.range n.numSources.toNat).foldl (AudioRouterNode.addAudioPort true) {} with
      channel := 0 }
  unfold AudioRouterNode.buildPorts portListAdd
  simp only [] at a1 a3 b1 b3 ⊢
  rw [b1, b3, a1, a3]
  simp

/-- The counts of the port list of the router by type and direction. -/
theorem router_counts (n : AudioRouterNode) :
    (AudioRouterNode.buildPorts n).newPorts.length
        = n.numSources.toNat + n.numDestinations.toNat + 1
    ∧ portListSize (AudioRouterNode.buildPorts n).newPorts PortType.Audio true
        = n.numSources.toNat
    ∧ portListSize (AudioRouterNode.buildPorts n).newPorts PortType.Audio false
        = n.numDestinations.toNat
    ∧ portListSize (AudioRouterNode.buildPorts n).newPorts PortType.Midi true = 1
    ∧ (AudioRouterNode.buildPorts n).newPorts.map (fun d => (d.type, d.channel, d.input))
        = (List.range n.numSources.toNat).map (fun i => (PortType.Audio, i, true))
          ++ (List.range n.numDestinations.toNat).map (fun i => (PortType.Audio, i, false))
          ++ [(PortType.Midi, 0, true)] := by
  rw [(router_buildPorts n).2]
  refine ⟨?_, ?_, ?_, ?_, ?_⟩
  · simp only [List.length_append, List.length_map, List.length_range, List.length_singleton]
  · simp [portListSize, List.filter_append, List.filter_map, Function.comp_def]
  · simp [portListSize, List.filter_append, List.filter_map, Function.comp_def]
  · simp [portListSize, List.filter_append, List.filter_map, Function.comp_def]
  · simp [Function.comp_def]

/-- C23: `AudioRouterNode::refreshPorts` consumes the flag `rebuildPorts`. When the node
has ports and the flag is clear, the call changes nothing. Otherwise it publishes a port
list of `numSources` audio inputs with channels 0, 1, ..., then `numDestinations` audio
outputs with channels 0, 1, ..., then one MIDI input, clears the flag and leaves the other
members as they are (a count that is not positive publishes no port of its kind; `toNat`
leaves a count that is not negative as it is). Two consecutive calls leave the node as one
call does. -/
theorem refreshPorts_consumes_flag (n : AudioRouterNode) :
    (0 < n.ports.length → n.rebuildPorts = false → n.refreshPorts = n)
    ∧ ((n.ports = [] ∨ n.rebuildPorts = true) →
        n.refreshPorts.rebuildPorts = false
        ∧ n.refreshPorts.ports.map (fun d => (d.type, d.channel, d.input))
            = (List.range n.numSources.toNat).map (fun i => (PortType.Audio, i, true))
              ++ (List.range n.numDestinations.toNat).map (fun i => (PortType.Audio, i, false))
              ++ [(PortType.Midi, 0, true)]
        ∧ portListSize n.refreshPorts.ports PortType.Audio true = n.numSources.toNat
        ∧ portListSize n.refreshPorts.ports PortType.Audio false = n.numDestinations.toNat
        ∧ portListSize n.refreshPorts.ports PortType.Midi true = 1
        ∧ n.refreshPorts.ports.length = n.numSources.toNat + n.numDestinations.toNat + 1
        ∧ n.refreshPorts = { n with rebuildPorts := false, ports := n.refreshPorts.ports })
    ∧ n.refreshPorts.refreshPorts = n.refreshPorts := by
  obtain ⟨hlen, hin, hout, hmidi, hmap⟩ := router_counts n
  have hnoop : ∀ x : AudioRouterNode, 0 < x.ports.length → x.rebuildPorts = false →
      x.refreshPorts = x := by
    intro x hx hr
    unfold AudioRouterNode.refreshPorts
    rw [if_pos (by simp [hx, hr])]
  have hbuild : (n.ports = [] ∨ n.rebuildPorts = true) →
      n.refreshPorts
        = { n with rebuildPorts := false, ports := (AudioRouterNode.buildPorts n).newPorts } := by
    intro h
    unfold AudioRouterNode.refreshPorts
    rw [if_neg]
    rcases h with h | h
    · simp [h]
    · simp [h]
  refine ⟨hnoop n, ?_, ?_⟩
  · intro h
    rw [hbuild h]
    exact ⟨rfl, hmap, hin, hout, hmidi, hlen, rfl⟩
  · by_cases h : n.ports = [] ∨ n.rebuildPorts = true
    · rw [hbuild h]
      exact hnoop _ (by show 0 < (AudioRouterNode.buildPorts n).newPorts.length; omega) rfl
    · have h1 : n.ports ≠ [] := fun hp => h (Or.inl hp)
      have h2 : n.rebuildPorts = false := by
        cases hr : n.rebuildPorts with
        | false => rfl
        | true => exact absurd (Or.inr hr) h
      have h3 : 0 < n.ports.length := List.length_pos.mpr h1
      rw [hnoop n h3 h2]
      exact hnoop n h3 h2

/-- C23 at concrete inputs: the sample router, which has no ports yet, gets two audio
inputs, three audio outputs and a MIDI input; after that a call changes nothing. -/
theorem refreshPorts_consumes_flag_witness :
    sampleRouter.refreshPorts.ports.map (fun d => (d.type, d.channel, d.input))
        = [(PortType.Audio, 0, true), (PortType.Audio, 1, true), (PortType.Audio, 0, false),
           (PortType.Audio, 1, false), (PortType.Audio, 2, false), (PortType.Midi, 0, true)]
    ∧ sampleRouter.refreshPorts.refreshPorts = sampleRouter.refreshPorts :=
  ⟨((refreshPorts_consumes_flag sampleRouter).2.1 (Or.inl rfl)).2.1,
   (refreshPorts_consumes_flag sampleRouter.refreshPorts).1 (by decide) (by decide)⟩

/-- C30: `AudioRouterNode::getPluginDescription` reports `numDestinations` as the number
of input channels and `numSources` as the number of output channels, whereas
`refreshPorts` publishes `numSources` audio inputs and `numDestinations` audio outputs.
For the router with two sources and three destinations the description reports three
inputs and two outputs, and the published port list has two audio inputs and three audio
outputs. -/
theorem description_swaps_channels (n : AudioRouterNode) :
    n.getPluginDescription.numInputChannels = n.numDestinations
    ∧ n.getPluginDescription.numOutputChannels = n.numSources
    ∧ portListSize ({ n with rebuildPorts := true } : AudioRouterNode).refreshPorts.ports
        PortType.Audio true = n.numSources.toNat
    ∧ portListSize ({ n with rebuildPorts := true } : AudioRouterNode).refreshPorts.ports
        PortType.Audio false = n.numDestinations.toNat
    ∧ sampleRouter.getPluginDescription.numInputChannels = 3
    ∧ portListSize sampleRouter.refreshPorts.ports PortType.Audio true = 2
    ∧ sampleRouter.getPluginDescription.numOutputChannels = 2
    ∧ portListSize sampleRouter.refreshPorts.ports PortType.Audio false = 3 := by
  obtain ⟨-, hin, hout, -, -⟩ := router_counts { n with rebuildPorts := true }
  have hb : ({ n with rebuildPorts := true } : AudioRouterNode).refreshPorts.ports
      = (AudioRouterNode.buildPorts { n with rebuildPorts := true }).newPorts := by
    unfold AudioRouterNode.refreshPorts
    rw [if_neg (by simp)]
  rw [hb]
  exact ⟨rfl, rfl, hin, hout, by decide, by decide, by decide, by decide⟩

/-! ## The fade length of the audio router -/

/-- Clamping a clamped value changes nothing, whatever the value. -/
theorem jlimit_idem (s : Nat) :
    jlimit 4562254508917369340 4617315517961601024
        (jlimit 4562254508917369340 4617315517961601024 s)
      = jlimit 4562254508917369340 4617315517961601024 s := by
  unfold jlimit
  by_cases h1 : doubleLt s 4562254508917369340 = true
  · rw [if_pos h1]
    decide
  · rw [if_neg h1]
    by_cases h2 : doubleLt 4617315517961601024 s = true
    · rw [if_pos h2]
      decide
    · rw [if_neg h2, if_neg h1, if_neg h2]

/-- The clamp of a double that is no NaN lies between 0.001 and 5.0. -/
theorem jlimit_range (s : Nat) (hs : doubleIsNaN s = false) :
    doubleLe 4562254508917369340 (jlimit 4562254508917369340 4617315517961601024 s) = true
    ∧ doubleLe (jlimit 4562254508917369340 4617315517961601024 s) 4617315517961601024
        = true := by
  unfold jlimit
  by_cases h1 : doubleLt s 4562254508917369340 = true
  · rw [if_pos h1]
    decide
  · rw [if_neg h1]
    by_cases h2 : doubleLt 4617315517961601024 s = true
    · rw [if_pos h2]
      decide
    · rw [if_neg h2]
      have n1 : doubleIsNaN 4562254508917369340 = false := by decide
      have n2 : doubleIsNaN 4617315517961601024 = false := by decide
      simp only [doubleLt, hs, n1, n2, Bool.not_false, Bool.true_and, decide_eq_true_eq]
        at h1 h2
      simp only [doubleLe, hs, n1, n2, Bool.not_false, Bool.true_and, decide_eq_true_eq]
      exact ⟨Int.not_lt.mp h1, Int.not_lt.mp h2⟩

/-- C22 as stated fails at a NaN: `setFadeLength` called with the quiet NaN
(9221120237041090560) stores that NaN as the fade length, and a NaN is not within
[0.001, 5.0]. -/
theorem setFadeLength_keeps_nan :
    (sampleRouter.setFadeLength sampleToFloat 9221120237041090560).fadeLengthSeconds
        = 9221120237041090560
    ∧ doubleLe 4562254508917369340
        (sampleRouter.setFadeLength sampleToFloat 9221120237041090560).fadeLengthSeconds
        = false
    ∧ doubleLe (sampleRouter.setFadeLength sampleToFloat 9221120237041090560).fadeLengthSeconds
        4617315517961601024 = false := by
  decide

/-- C22, as amended: the fade length of a router is 0.001 s as the header initialises it.
For every requested double `s` that is no NaN (negative values, the zeros, the infinities
and arbitrarily large values included) `setFadeLength (s)` stores 0.001 when `s < 0.001`,
5.0 when `5.0 < s` and `s` otherwise, the stored length lies within [0.001, 5.0], and the
fade-in and the fade-out ramp are both set to the conversion of the stored length to
float. Calling `setFadeLength` with the stored length leaves the router as it is (this
holds for every `s`). -/
theorem setFadeLength_clamps (toFloat : Nat → Nat) (n : AudioRouterNode) (s : Nat)
    (hs : doubleIsNaN s = false) :
    ({ numSources := n.numSources, numDestinations := n.numDestinations }
        : AudioRouterNode).fadeLengthSeconds = 4562254508917369340
    ∧ (n.setFadeLength toFloat s).fadeLengthSeconds
        = (if doubleLt s 4562254508917369340 then 4562254508917369340
           else if doubleLt 4617315517961601024 s then 4617315517961601024 else s)
    ∧ doubleLe 4562254508917369340 (n.setFadeLength toFloat s).fadeLengthSeconds = true
    ∧ doubleLe (n.setFadeLength toFloat s).fadeLengthSeconds 4617315517961601024 = true
    ∧ (n.setFadeLength toFloat s).fadeIn.length
        = toFloat (n.setFadeLength toFloat s).fadeLengthSeconds
    ∧ (n.setFadeLength toFloat s).fadeOut.length
        = toFloat (n.setFadeLength toFloat s).fadeLengthSeconds
    ∧ (n.setFadeLength toFloat s).setFadeLength toFloat
          (n.setFadeLength toFloat s).fadeLengthSeconds
        = n.setFadeLength toFloat s := by
  obtain ⟨hlo, hhi⟩ := jlimit_range s hs
  refine ⟨rfl, rfl, hlo, hhi, rfl, rfl, ?_⟩
  unfold AudioRouterNode.setFadeLength LinearFade.setLength
  simp only [jlimit_idem]

/-- C22 at concrete inputs: a request of -1.0 (13830554455654793216) stores 0.001 and sets
both ramps to the float 0.001; a request of 10^9 (4741671816366391296) stores 5.0. -/
theorem setFadeLength_clamps_witness :
    (sampleRouter.setFadeLength sampleToFloat 13830554455654793216).fadeLengthSeconds
        = 4562254508917369340
    ∧ (sampleRouter.setFadeLength sampleToFloat 13830554455654793216).fadeIn.length
        = 981668463
    ∧ doubleLe (sampleRouter.setFadeLength sampleToFloat 4741671816366391296).fadeLengthSeconds
        4617315517961601024 = true := by
  have h1 := setFadeLength_clamps sampleToFloat sampleRouter 13830554455654793216 (by decide)
  have h2 := setFadeLength_clamps sampleToFloat sampleRouter 4741671816366391296 (by decide)
  refine ⟨?_, ?_, h2.2.2.2.1⟩
  · rw [h1.2.1]; decide
  · rw [h1.2.2.2.2.1, h1.2.1]; decide

/-! ## Generated port symbols are told apart -/

theorem digitChar_value (k : Nat) (h : k < 10) : (Nat.digitChar k).toNat - 48 = k := by
  interval_cases k <;> rfl

/-- Reading back the digits that `Nat.toDigitsCore` puts in front of `ds` for `n`. -/
theorem toDigitsCore_value (fuel : Nat) :
    ∀ (n : Nat) (ds : List Char), n < fuel →
      digitsValue (Nat.toDigitsCore 10 fuel n ds) 0 = digitsValue ds n := by
  induction fuel with
  | zero => intro n ds h; omega
  | succ fuel ih =>
    intro n ds h
    unfold Nat.toDigitsCore
    by_cases hz : n / 10 = 0
    · simp only [hz, if_true]
      have hn : n % 10 = n := Nat.mod_eq_of_lt (by omega)
      simp only [digitsValue, List.foldl_cons, Nat.mul_zero, Nat.zero_add]
      rw [digitChar_value (n % 10) (Nat.mod_lt _ (by decide)), hn]
    · simp only [hz, if_false]
      rw [ih (n / 10) _ (by omega)]
      simp only [digitsValue, List.foldl_cons]
      rw [digitChar_value (n % 10) (Nat.mod_lt _ (by decide))]
      have : 10 * (n / 10) + n % 10 = n := Nat.div_add_mod n 10
      rw [this]

/-- The decimal rendering of natural numbers is injective. -/
theorem toString_nat_injective (a b : Nat) (h : toString a = toString b) : a = b := by
  have h1 : (Nat.toDigits 10 a) = (Nat.toDigits 10 b) := by
    have h2 : String.mk (Nat.toDigits 10 a) = String.mk (Nat.toDigits 10 b) := h
    exact congrArg String.data h2
  have ha := toDigitsCore_value (a + 1) a [] (by omega)
  have hb := toDigitsCore_value (b + 1) b [] (by omega)
  have h3 : digitsValue (Nat.toDigits 10 a) 0 = digitsValue (Nat.toDigits 10 b) 0 := by
    rw [h1]
  unfold Nat.toDigits at h3
  rw [ha, hb] at h3
  simpa [digitsValue] using h3

theorem string_append_cancel (p x y : String) (h : p ++ x = p ++ y) : x = y := by
  have h1 := congrArg String.data h
  simp only [String.data_append] at h1
  exact String.ext (List.append_cancel_left h1)

theorem symbolTag_append (p x : String) (h : 8 ≤ p.data.length) :
    symbolTag (p ++ x) = symbolTag p := by
  unfold symbolTag
  simp only [String.data_append]
  rw [List.getElem?_append_left (by omega), List.getElem?_append_left (by omega),
    List.getElem?_append_left (by omega)]

theorem symbolTag_render (a : SymbolId) : symbolTag a.render = a.tag := by
  cases a with
  | audioIn k =>
    have h : symbolTag "audio_in_" = (some 'a', some 'i', some 'n') := by decide
    exact (symbolTag_append "audio_in_" (toString k) (by decide)).trans h
  | audioOut k =>
    have h : symbolTag "audio_out_" = (some 'a', some 'o', some 'u') := by decide
    exact (symbolTag_append "audio_out_" (toString k) (by decide)).trans h
  | control i =>
    have h : symbolTag "control_" = (some 'c', some 'l', some '_') := by decide
    exact (symbolTag_append "control_" (toString i) (by decide)).trans h
  | midiIn0 => decide
  | midiOut0 => decide
  | midiIn => decide

/-- Two generated symbols are equal only when they are of the same family and carry the
same number. -/
theorem render_injective (a b : SymbolId) (h : a.render = b.render) : a = b := by
  have ht : a.tag = b.tag := by
    rw [← symbolTag_render a, ← symbolTag_render b, h]
  cases a <;> cases b <;> first
    | rfl
    | (simp only [SymbolId.render] at h
       rw [toString_nat_injective _ _ (string_append_cancel _ _ _ h)])
    | exact absurd ht (by simp [SymbolId.tag])

/-! ## The port list of the hosted audio processor -/

/-- The inner loop of `AudioProcessorNode::refreshPorts` over the `k` channels of a bus. -/
theorem processor_channels (isInput : Bool) (busName : String) (k : Nat) (b : PortBuilder) :
    ((List.range k).foldl (fun acc2 _ => AudioProcessorNode.addAudioPort isInput busName acc2)
        b).index = b.index + k
    ∧ ((List.range k).foldl (fun acc2 _ => AudioProcessorNode.addAudioPort isInput busName acc2)
        b).channel = b.channel + k
    ∧ ((List.range k).foldl (fun acc2 _ => AudioProcessorNode.addAudioPort isInput busName acc2)
        b).newPorts.map PortDescription.shape
        = b.newPorts.map PortDescription.shape ++ (List.range k).map (fun j =>
            (PortType.Audio, b.index + j, b.channel + j,
              (if isInput then "audio_in_" else "audio_out_") ++ toString (b.channel + j + 1),
              isInput)) := by
  induction k with
  | zero => simp
  | succ k ih =>
    obtain ⟨h1, h2, h3⟩ := ih
    rw [List.range_succ, List.foldl_append]
    simp only [List.foldl_cons, List.foldl_nil, List.map_append, List.map_cons, List.map_nil]
    generalize (List.range k).foldl
      (fun acc2 _ => AudioProcessorNode.addAudioPort isInput busName acc2) b = r at h1 h2 h3 ⊢
    simp only [AudioProcessorNode.addAudioPort, portListAdd, List.map_append, List.map_cons,
      List.map_nil, PortDescription.shape, h1, h2, List.append_assoc]
    refine ⟨by omega, by omega, ?_⟩
    have h4 : List.map PortDescription.shape r.newPorts = _ := h3
    simp only [PortDescription.shape] at h4
    rw [h4, List.append_assoc]

/-- The loop of `AudioProcessorNode::refreshPorts` over the input or the output buses. -/
theorem processor_buses (isInput : Bool) (buses : List Bus) :
    ∀ b : PortBuilder,
      (AudioProcessorNode.addBuses isInput buses b).index = b.index + totalNumChannels buses
      ∧ (AudioProcessorNode.addBuses isInput buses b).channel
          = b.channel + totalNumChannels buses
      ∧ (AudioProcessorNode.addBuses isInput buses b).newPorts.map PortDescription.shape
          = b.newPorts.map PortDescription.shape
            ++ (List.range (totalNumChannels buses)).map (fun j =>
              (PortType.Audio, b.index + j, b.channel + j,
                (if isInput then "audio_in_" else "audio_out_") ++ toString (b.channel + j + 1),
                isInput)) := by
  induction buses with
  | nil => intro b; simp [AudioProcessorNode.addBuses, totalNumChannels]
  | cons bus rest ih =>
    intro b
    obtain ⟨c1, c2, c3⟩ := processor_channels isInput bus.name bus.numberOfChannels b
    have hstep : AudioProcessorNode.addBuses isInput (bus :: rest) b
        = AudioProcessorNode.addBuses isInput rest
            ((List.range bus.numberOfChannels).foldl
              (fun acc2 _ => AudioProcessorNode.addAudioPort isInput bus.name acc2) b) := rfl
    have htot : totalNumChannels (bus :: rest)
        = bus.numberOfChannels + totalNumChannels rest := by
      simp [totalNumChannels]
    obtain ⟨r1, r2, r3⟩ := ih ((List.range bus.numberOfChannels).foldl
      (fun acc2 _ => AudioProcessorNode.addAudioPort isInput bus.name acc2) b)
    rw [hstep, htot, r1, r2, r3, c1, c2, c3]
    refine ⟨by omega, by omega, ?_⟩
    rw [List.range_add, List.map_append, List.map_map, List.append_assoc]
    congr 2
    apply List.map_congr_left
    intro j _
    simp only [Function.comp_apply, Nat.add_assoc]

/-- The loop of `AudioProcessorNode::refreshPorts` over the first `k` parameters. -/
theorem processor_parameters (parameters : List String) (k : Nat) (b : PortBuilder) :
    ((List.range k).foldl (AudioProcessorNode.addParameter parameters) b).index = b.index + k
    ∧ ((List.range k).foldl (AudioProcessorNode.addParameter parameters) b).newPorts.map
        PortDescription.shape
        = b.newPorts.map PortDescription.shape ++ (List.range k).map (fun i =>
            (PortType.Control, b.index + i, i, "control_" ++ toString i, true)) := by
  induction k with
  | zero => simp
  | succ k ih =>
    obtain ⟨h1, h3⟩ := ih
    rw [List.range_succ, List.foldl_append]
    simp only [List.foldl_cons, List.foldl_nil, List.map_append, List.map_cons, List.map_nil]
    generalize (List.range k).foldl (AudioProcessorNode.addParameter parameters) b = r
      at h1 h3 ⊢
    simp only [AudioProcessorNode.addParameter, portListAdd, List.map_append, List.map_cons,
      List.map_nil, PortDescription.shape, h1, List.append_assoc]
    refine ⟨by omega, ?_⟩
    have h4 : List.map PortDescription.shape r.newPorts = _ := h3
    simp only [PortDescription.shape] at h4
    rw [h4, List.append_assoc]

/-- The port list that `AudioProcessorNode::refreshPorts` builds, up to the display names,
and the final value of its index counter. -/
theorem processor_buildPorts (proc : AudioProcessor) :
    (AudioProcessorNode.buildPorts proc).index
        = totalNumChannels proc.inputBuses + totalNumChannels proc.outputBuses
          + proc.parameters.length + (if proc.acceptsMidi then 1 else 0)
          + (if proc.producesMidi then 1 else 0)
    ∧ (AudioProcessorNode.buildPorts proc).newPorts.map PortDescription.shape
        = (List.range (totalNumChannels proc.inputBuses)).map (fun j =>
            (PortType.Audio, j, j, "audio_in_" ++ toString (j + 1), true))
          ++ (List.range (totalNumChannels proc.outputBuses)).map (fun j =>
            (PortType.Audio, totalNumChannels proc.inputBuses + j, j,
              "audio_out_" ++ toString (j + 1), false))
          ++ (List.range proc.parameters.length).map (fun i =>
            (PortType.Control,
              totalNumChannels proc.inputBuses + totalNumChannels proc.outputBuses + i, i,
              "control_" ++ toString i, true))
          ++ (if proc.acceptsMidi then
                [(PortType.Midi,
                  totalNumChannels proc.inputBuses + totalNumChannels proc.outputBuses
                    + proc.parameters.length, 0, "midi_in_0", true)]
              else [])
          ++ (if proc.producesMidi then
                [(PortType.Midi,
                  totalNumChannels proc.inputBuses + totalNumChannels proc.outputBuses
                    + proc.parameters.length + (if proc.acceptsMidi then 1 else 0), 0,
                  "midi_out_0", false)]
              else []) := by
  obtain ⟨a1, -, a3⟩ := processor_buses true proc.inputBuses {}
  obtain ⟨b1, -, b3⟩ := processor_buses false proc.outputBuses
    { AudioProcessorNode.addBuses true proc.inputBuses {} with channel := 0 }
  obtain ⟨c1, c3⟩ := processor_parameters proc.parameters proc.parameters.length
    (AudioProcessorNode.addBuses false proc.outputBuses
      { AudioProcessorNode.addBuses true proc.inputBuses {} with channel := 0 })
  simp only [] at a1 a3 b1 b3
  rw [b1, a1] at c1
  rw [b3, a3, b1, a1] at c3
  simp only [List.map_nil, List.nil_append, Nat.zero_add, if_true, Bool.false_eq_true,
    if_false] at c1 c3
  unfold AudioProcessorNode.buildPorts
  simp only []
  generalize (List.range proc.parameters.length).foldl
    (AudioProcessorNode.addParameter proc.parameters)
    (AudioProcessorNode.addBuses false proc.outputBuses
      { AudioProcessorNode.addBuses true proc.inputBuses {} with channel := 0 }) = r
    at c1 c3 ⊢
  cases ha : proc.acceptsMidi <;> cases hp : proc.producesMidi <;>
    simp [portListAdd, PortDescription.shape, c1, c3]

/-- The indices of a port list are the second components of its shapes. -/
theorem index_of_shape (ports : List PortDescription) :
    ports.map (fun d => d.index) = (ports.map PortDescription.shape).map (fun s => s.2.1) := by
  simp [PortDescription.shape, Function.comp_def]

/-- C24: both node port builders call `add` with the indices 0, 1, ..., N - 1 in this
order, and N, the size of the list they publish, is the final value of their index
counter. For `AudioProcessorNode::refreshPorts` N is the number of audio input channels
plus the number of audio output channels plus the number of parameters, plus one when the
processor accepts MIDI and plus one when it produces MIDI; every Control port has the
position of a parameter as its channel and comes that many places after the audio ports,
and every parameter has its Control port there. For `AudioRouterNode::refreshPorts` N is
`numSources + numDestinations + 1` (counts that are not positive count as 0). -/
theorem builders_number_contiguously (proc : AudioProcessor) (n : AudioRouterNode) :
    (AudioProcessorNode.buildPorts proc).newPorts.map (fun d => d.index)
        = List.range (AudioProcessorNode.buildPorts proc).index
    ∧ (AudioProcessorNode.buildPorts proc).newPorts.length
        = (AudioProcessorNode.buildPorts proc).index
    ∧ (AudioProcessorNode.buildPorts proc).index
        = totalNumChannels proc.inputBuses + totalNumChannels proc.outputBuses
          + proc.parameters.length + (if proc.acceptsMidi then 1 else 0)
          + (if proc.producesMidi then 1 else 0)
    ∧ (∀ d ∈ (AudioProcessorNode.buildPorts proc).newPorts, d.type = PortType.Control →
        d.channel < proc.parameters.length
        ∧ d.index = totalNumChannels proc.inputBuses + totalNumChannels proc.outputBuses
            + d.channel)
    ∧ (∀ i, i < proc.parameters.length →
        ((AudioProcessorNode.buildPorts proc).newPorts[totalNumChannels proc.inputBuses
            + totalNumChannels proc.outputBuses + i]?).map PortDescription.shape
          = some (PortType.Control,
              totalNumChannels proc.inputBuses + totalNumChannels proc.outputBuses + i, i,
              "control_" ++ toString i, true))
    ∧ (AudioRouterNode.buildPorts n).newPorts.map (fun d => d.index)
        = List.range (AudioRouterNode.buildPorts n).index
    ∧ (AudioRouterNode.buildPorts n).newPorts.length = (AudioRouterNode.buildPorts n).index
    ∧ (AudioRouterNode.buildPorts n).index
        = n.numSources.toNat + n.numDestinations.toNat + 1 := by
  obtain ⟨hidx, hshape⟩ := processor_buildPorts proc
  obtain ⟨ridx, rports⟩ := router_buildPorts n
  have hindex : (AudioProcessorNode.buildPorts proc).newPorts.map (fun d => d.index)
      = List.range (AudioProcessorNode.buildPorts proc).index := by
    rw [index_of_shape, hshape, hidx]
    cases proc.acceptsMidi <;> cases proc.producesMidi <;>
      simp [List.range_add, List.range_succ, Function.comp_def, Nat.add_assoc]
  have rindex : (AudioRouterNode.buildPorts n).newPorts.map (fun d => d.index)
      = List.range (AudioRouterNode.buildPorts n).index := by
    rw [rports, ridx]
    simp [List.range_add, List.range_succ, Function.comp_def]
  refine ⟨hindex, ?_, hidx, ?_, ?_, rindex, ?_, ridx⟩
  · have := congrArg List.length hindex
    simpa using this
  · intro d hd ht
    have hmem : d.shape ∈ (AudioProcessorNode.buildPorts proc).newPorts.map
        PortDescription.shape := List.mem_map_of_mem _ hd
    rw [hshape] at hmem
    simp only [List.mem_append, List.mem_map, List.mem_range, PortDescription.shape,
      Prod.mk.injEq] at hmem
    rcases hmem with (((h | h) | h) | h) | h
    · obtain ⟨j, -, h1, -⟩ := h
      rw [ht] at h1
      exact absurd h1 (by decide)
    · obtain ⟨j, -, h1, -⟩ := h
      rw [ht] at h1
      exact absurd h1 (by decide)
    · obtain ⟨i, hi, -, h2, h3, -⟩ := h
      rw [← h3, ← h2]
      exact ⟨hi, rfl⟩
    · split at h
      · simp only [List.mem_singleton, Prod.mk.injEq] at h
        rw [ht] at h
        exact absurd h.1 (by decide)
      · exact absurd h (List.not_mem_nil _)
    · split at h
      · simp only [List.mem_singleton, Prod.mk.injEq] at h
        rw [ht] at h
        exact absurd h.1 (by decide)
      · exact absurd h (List.not_mem_nil _)
  · intro i hi
    rw [← List.getElem?_map, hshape]
    simp only [List.append_assoc]
    rw [List.getElem?_append_right
        (by simp only [List.length_map, List.length_range]; omega),
      List.getElem?_append_right
        (by simp only [List.length_map, List.length_range]; omega)]
    simp only [List.length_map, List.length_range]
    rw [List.getElem?_append_left
        (by simp only [List.length_map, List.length_range]; omega)]
    have h1 : totalNumChannels proc.inputBuses + totalNumChannels proc.outputBuses + i
        - totalNumChannels proc.inputBuses - totalNumChannels proc.outputBuses = i := by
      omega
    rw [h1, List.getElem?_map, List.getElem?_range hi]
    rfl
  · have := congrArg List.length rindex
    simpa using this

/-- C24 at concrete inputs: the sample processor (three audio input channels, two audio
output channels, two parameters, MIDI input) gets the indices 0 to 7, and the port of its
second parameter is the Control port with index 6 and channel 1. -/
theorem builders_number_contiguously_witness :
    (AudioProcessorNode.buildPorts sampleProcessor).newPorts.map (fun d => d.index)
        = [0, 1, 2, 3, 4, 5, 6, 7]
    ∧ ((AudioProcessorNode.buildPorts sampleProcessor).newPorts[6]?).map PortDescription.shape
        = some (PortType.Control, 6, 1, "control_1", true)
    ∧ (AudioRouterNode.buildPorts sampleRouter).index = 6 := by
  obtain ⟨h1, -, h3, -, h5, -, -, h8⟩ := builders_number_contiguously sampleProcessor sampleRouter
  refine ⟨?_, ?_, ?_⟩
  · rw [h1, h3]; decide
  · exact h5 1 (by decide)
  · rw [h8]; decide

/-- The symbols of a port list are the fourth components of its shapes. -/
theorem symbol_of_shape (ports : List PortDescription) :
    ports.map (fun d => d.symbol)
      = (ports.map PortDescription.shape).map (fun s => s.2.2.2.1) := by
  simp [PortDescription.shape, Function.comp_def]

theorem map_render_nodup (ids : List SymbolId) (h : ids.Nodup) :
    (ids.map SymbolId.render).Nodup :=
  List.Nodup.map (fun a b hab => render_injective a b hab) h

/-- C26: the symbols of the port list that `AudioProcessorNode::refreshPorts` publishes
are pairwise distinct, for every list of input and output buses, every number of
parameters and every MIDI capability; and the symbols of the port list that
`AudioRouterNode::refreshPorts` builds are pairwise distinct, for every `numSources` and
`numDestinations`. -/
theorem port_symbols_unique (node : AudioProcessorNode) (n : AudioRouterNode) :
    (node.refreshPorts.ports.map (fun d => d.symbol)).Nodup
    ∧ ((AudioRouterNode.buildPorts n).newPorts.map (fun d => d.symbol)).Nodup := by
  refine ⟨?_, ?_⟩
  · have hids : node.refreshPorts.ports.map (fun d => d.symbol)
        = ((List.range (totalNumChannels node.proc.inputBuses)).map
              (fun j => SymbolId.audioIn (j + 1))
            ++ (List.range (totalNumChannels node.proc.outputBuses)).map
              (fun j => SymbolId.audioOut (j + 1))
            ++ (List.range node.proc.parameters.length).map SymbolId.control
            ++ (if node.proc.acceptsMidi then [SymbolId.midiIn0] else [])
            ++ (if node.proc.producesMidi then [SymbolId.midiOut0] else [])).map
            SymbolId.render := by
      show (AudioProcessorNode.buildPorts node.proc).newPorts.map (fun d => d.symbol) = _
      rw [symbol_of_shape, (processor_buildPorts node.proc).2]
      cases node.proc.acceptsMidi <;> cases node.proc.producesMidi <;>
        simp [SymbolId.render, Function.comp_def]
    rw [hids]
    apply map_render_nodup
    cases node.proc.acceptsMidi <;> cases node.proc.producesMidi <;>
      simp [List.nodup_append, List.nodup_range, List.nodup_map_iff_inj_on, List.Disjoint]
  · have hids : (AudioRouterNode.buildPorts n).newPorts.map (fun d => d.symbol)
        = ((List.range n.numSources.toNat).map SymbolId.audioIn
            ++ (List.range n.numDestinations.toNat).map SymbolId.audioOut
            ++ [SymbolId.midiIn]).map SymbolId.render := by
      rw [(router_buildPorts n).2]
      simp [SymbolId.render, Function.comp_def]
    rw [hids]
    apply map_render_nodup
    simp [List.nodup_append, List.nodup_range, List.nodup_map_iff_inj_on, List.Disjoint]

/-! ## The reentrancy guard of the parameter bridge -/

/-- With the guard set a callback returns at once. -/
theorem callback_ignored (reactions : Forward → List ParameterCallback) (fuel : Nat)
    (p : AudioProcessorNodeParameter) (cb : ParameterCallback) (h : p.ignoreChanges = true) :
    AudioProcessorNodeParameter.callback reactions (fuel + 1) p cb = some p := by
  unfold AudioProcessorNodeParameter.callback
  rw [if_pos h]

/-- Callbacks that arrive while the guard is set leave the object as it is. -/
theorem reactions_ignored (reactions : Forward → List ParameterCallback) (fuel : Nat)
    (p : AudioProcessorNodeParameter) (h : p.ignoreChanges = true)
    (rs : List ParameterCallback) :
    rs.foldl (fun acc r => acc.bind
        (fun q => AudioProcessorNodeParameter.callback reactions (fuel + 1) q r)) (some p)
      = some p := by
  induction rs with
  | nil => rfl
  | cons r rs ih =>
    simp only [List.foldl_cons, Option.some_bind]
    rw [callback_ignored reactions fuel p r h]
    exact ih

/-- With the guard clear a callback forwards once and returns with the guard clear. -/
theorem callback_forwards (reactions : Forward → List ParameterCallback) (fuel : Nat)
    (p : AudioProcessorNodeParameter) (cb : ParameterCallback) (h : p.ignoreChanges = false) :
    AudioProcessorNodeParameter.callback reactions (fuel + 2) p cb
      = some { p with forwards := p.forwards ++ [cb.forward] } := by
  rw [AudioProcessorNodeParameter.callback]
  rw [if_neg (by rw [h]; exact Bool.false_ne_true)]
  simp only []
  rw [reactions_ignored reactions fuel
    { p with ignoreChanges := true, forwards := p.forwards ++ [cb.forward] } rfl]

/-- C21: each of the four listener callbacks of `AudioProcessorNodeParameter` returns at
once, changing nothing, when `ignoreChanges` is set. When it is clear, the callback makes
its forward once and returns with the flag clear; whatever callbacks arrive at the object
while the forward is under way find the flag set and are suppressed, so the nesting never
goes deeper than two and the result does not depend on the bound. Hence after any sequence
of callbacks from outside, starting with the flag clear, the flag is clear and exactly one
forward per callback has been made, in their order. -/
theorem guard_suppresses_echoes (reactions : Forward → List ParameterCallback) (fuel : Nat)
    (p : AudioProcessorNodeParameter) :
    (p.ignoreChanges = true →
      (∀ value, p.controlValueChanged reactions (fuel + 1) value = some p)
      ∧ (∀ grabbed, p.controlTouched reactions (fuel + 1) grabbed = some p)
      ∧ (∀ value, p.parameterValueChanged reactions (fuel + 1) value = some p)
      ∧ (∀ grabbed, p.parameterGestureChanged reactions (fuel + 1) grabbed = some p))
    ∧ (p.ignoreChanges = false →
      (∀ value, p.controlValueChanged reactions (fuel + 2) value
          = some { p with forwards := p.forwards ++ [Forward.paramSendValueChanged value] })
      ∧ (∀ grabbed, p.controlTouched reactions (fuel + 2) grabbed
          = some { p with forwards := p.forwards
              ++ [if grabbed then Forward.paramBeginChangeGesture
                  else Forward.paramEndChangeGesture] })
      ∧ (∀ value, p.parameterValueChanged reactions (fuel + 2) value
          = some { p with forwards := p.forwards ++ [Forward.sendValueChanged value] })
      ∧ (∀ grabbed, p.parameterGestureChanged reactions (fuel + 2) grabbed
          = some { p with forwards := p.forwards ++ [Forward.sendGestureChanged grabbed] })
      ∧ (∀ cbs : List ParameterCallback, p.callbacks reactions (fuel + 2) cbs
          = some { p with forwards := p.forwards ++ cbs.map ParameterCallback.forward })) := by
  refine ⟨fun h => ⟨fun _ => callback_ignored reactions fuel p _ h,
      fun _ => callback_ignored reactions fuel p _ h,
      fun _ => callback_ignored reactions fuel p _ h,
      fun _ => callback_ignored reactions fuel p _ h⟩, ?_⟩
  intro h
  refine ⟨fun _ => callback_forwards reactions fuel p _ h,
    fun _ => callback_forwards reactions fuel p _ h,
    fun _ => callback_forwards reactions fuel p _ h,
    fun _ => callback_forwards reactions fuel p _ h, ?_⟩
  intro cbs
  unfold AudioProcessorNodeParameter.callbacks
  induction cbs generalizing p with
  | nil => simp
  | cons cb cbs ih =>
    simp only [List.foldl_cons, Option.some_bind, List.map_cons]
    rw [callback_forwards reactions fuel p cb h]
    rw [ih { p with forwards := p.forwards ++ [cb.forward] } h]
    simp

/-- C21 at concrete inputs: with two sides that echo each other, a value change from the
host side makes one forward to the native parameter and no more, and the guard is clear
afterwards. -/
theorem guard_suppresses_echoes_witness :
    AudioProcessorNodeParameter.controlValueChanged echoing 2 {} 5
      = some { ignoreChanges := false, forwards := [Forward.paramSendValueChanged 5] } :=
  ((guard_suppresses_echoes echoing 0 {}).2 rfl).1 5

end Element
